import Mathlib

/-! # n-bit software rasterizer: lighting model and rasterization core

A shallow embedding of `lights.go`, `rectangle.go`, `triangle.go`, `bit-shader.go`,
`palette.go`, `images.go`, `sprite.go` and `draw.go` of `pkg/display`, of
`pkg/align/align.go` and of `DotMatrix` of `pkg/mat/mat3.go`.

Modelling conventions.

* `float64` values are rationals (`Float64 := ℚ`).  Additions, subtractions,
  multiplications and divisions are the exact ones: the model has no rounding
  error, no infinities and no NaN, and it agrees with the code wherever every
  intermediate value is a `float64` (integer coordinates and sizes of moderate
  magnitude, reciprocals of powers of two).  Two values are not exact in the
  code at any input and are modelled as `float64` computes them:
  - `sm := 1 - math.SmallestNonzeroFloat64` is a constant expression; Go
    evaluates it exactly and converts the result to `float64`, which rounds
    it to `1`.  So `sm` is `1`.
  - `w -= math.SmallestNonzeroFloat64` is a `float64` subtraction, modelled
    by `subSmallest`: the subtrahend is absorbed unless `w` is tiny.
  A division by zero (`1 / w` with `w = 0`) has the value `0` here; in every
  such case of the draw calls the loops of the source run zero times, so the
  quotient never reaches a chunk or a shader.
* Two parts of the source are embedded a second time, with the values that
  the exact model leaves out.  `WithNaN.LightSet.Light` is `LightSet.Light`
  over `Float64N`, which has NaN and the infinities with the comparisons of
  `float64` (every comparison with NaN is false).  `Binary64.DrawTriangle` is
  `DrawTriangle` with every `float64` operation rounded to nearest, ties to
  even (`round64`), each operation on its own: no multiplication is fused
  with an addition or a subtraction, as in a default build for amd64.
* `int` is a 64-bit two's complement integer.  The only place where the wrap
  changes the control flow is the shift `1 << ChunkBits`, modelled by `shl1`.
  Buffer offsets are computed in `ℤ`.
* A Go `for init; cond; post { body }` statement is `forLoop cond body post`,
  run with an explicit fuel.  Assignments that the body makes to the loop
  variables are its last statements in every loop of the source, so they are
  part of `post`.
* The worker pool is not modelled: `renderChunk` hands a chunk to a worker
  that calls `Process` on it, and `wg.Wait()` returns after every chunk was
  processed.  A draw call is the list of its chunks in dispatch order, each
  with the shader invocations that its `Process` makes.
-/

namespace NBit

/-- A `float64` in exact arithmetic. -/
abbrev Float64 := ℚ

/-- The result of running a piece of code with a fuel bound. -/
inductive Outcome (α : Type) where
  /-- The code returned normally. -/
  | returned (a : α)
  /-- The code panicked with the given message. -/
  | panicked (msg : String)
  /-- The fuel ran out before the code returned. -/
  | outOfFuel

/-- The statement `for ; cond; post { body }` started in state `s`; the result
is the concatenation of what the bodies emit. -/
def forLoop {σ α : Type} (cond : σ → Bool) (body : σ → Outcome (List α)) (post : σ → σ) :
    Nat → σ → Outcome (List α)
  | 0, _ => .outOfFuel
  | fuel + 1, s =>
    if cond s then
      match body s with
      | .returned out =>
        match forLoop cond body post fuel (post s) with
        | .returned rest => .returned (out ++ rest)
        | o => o
      | o => o
    else .returned []

/-- The constant `math.SmallestNonzeroFloat64`, the value `2^(-1074)`. -/
def SmallestNonzeroFloat64 : Float64 := 1 / 2 ^ 1074

/-- The constant `sm := 1 - math.SmallestNonzeroFloat64` of both draw calls.  The
right-hand side is a constant expression: it is evaluated exactly and then
converted to `float64`, and the `float64` nearest to `1 - 2^(-1074)` is `1`. -/
def sm : Float64 := 1

/-- The `float64` difference `w - math.SmallestNonzeroFloat64`, rounded to
nearest, ties to even.  From `2^(-1020)` on the spacing of the `float64`
values around `w` is at least `2^(-1072)`, the subtrahend is less than half
of it and the result is `w`.  Up to `2^(-1021)` the spacing is `2^(-1074)`
and the difference is exact, except at `w = -2^(-1021)`, where it is a tie
that rounds to `w`.  In between, `w` is `k * 2^(-1073)` and the difference is
a tie between two neighbours: it rounds to `w` for an even `k` and to
`w - 2^(-1073)` for an odd `k`. -/
def subSmallest (w : Float64) : Float64 :=
  if 1 / 2 ^ 1020 ≤ |w| then w
  else if |w| ≤ 1 / 2 ^ 1021 then
    if w = -(1 / 2 ^ 1021) then w else w - SmallestNonzeroFloat64
  else if ⌊|w| * 2 ^ 1073⌋ % 2 = 0 then w
  else w - 2 * SmallestNonzeroFloat64

/-- The function `math.Floor`. -/
def Floor (q : Float64) : Float64 := ((Int.floor q : Int) : Float64)

/-- The conversion `int(q)` of a `float64`: truncation towards zero. -/
def toInt (q : Float64) : Int := if 0 ≤ q then Int.floor q else Int.ceil q

/-- The value of `1 << n` for an `int` shift count `n ≥ 0`, wrapped to 64 bits. -/
def shl1 (n : Int) : Int :=
  let v := (2 : Int) ^ n.toNat % 2 ^ 64
  if v < 2 ^ 63 then v else v - 2 ^ 64

/-- The number of chunks that tile `[lo, hi)` with chunks of size `c`. -/
def tileCount (lo hi c : Float64) : Nat := ⌈(hi - lo) / c⌉₊

/-! ## lights.go -/

/-- The interface `LightSource`: the result of `OffsetScale` at every position
and the answer of `Alive` during the call under study. -/
structure LightSource where
  OffsetScale : Int → Int → Float64 × Float64
  Alive : Bool

/-- The struct `LightSet`. -/
structure LightSet where
  Sources : List LightSource
  MinScale : Float64
  MaxScale : Float64
  MinOffset : Float64
  MaxOffset : Float64

/-- The loop of `LightSet.Light` from index `i` on: the final `Sources`, `offs`
and `scale`, or the panic of an index out of range.  The assignment
`l.Sources[n] = nil` writes the slot that the following truncation removes. -/
def LightSet.Light.loop (posx posy : Int) (i : Nat) (srcs : List LightSource)
    (offs scale : Float64) : Except String (List LightSource × Float64 × Float64) :=
  if h : i < srcs.length then
    have hn : srcs.length - 1 < srcs.length := by omega
    let srcs1 :=
      if !(srcs[i]).Alive then (srcs.set i (srcs[srcs.length - 1])).take (srcs.length - 1)
      else srcs
    if h1 : i < srcs1.length then
      let os := (srcs1[i]).OffsetScale posx posy
      LightSet.Light.loop posx posy (i + 1) srcs1 (offs + os.1) (scale + os.2)
    else .error "index out of range"
  else .ok (srcs, offs, scale)
termination_by srcs.length - i
decreasing_by
  simp only [srcs1] at h1 ⊢
  cases hA : (srcs[i]).Alive <;> simp [hA] at h1 ⊢ <;> omega

/-- The method `LightSet.Light`: the intensity and the light set after the call. -/
def LightSet.Light (l : LightSet) (val : Nat) (posx posy : Int) :
    Except String (Float64 × LightSet) :=
  match LightSet.Light.loop posx posy 0 l.Sources l.MinOffset l.MinScale with
  | .error e => .error e
  | .ok (srcs, offs, scale) =>
    let offs := if offs > l.MaxOffset then l.MaxOffset
      else if offs < l.MinOffset then l.MinOffset else offs
    let scale := if scale > l.MaxScale then l.MaxScale
      else if scale < l.MinScale then l.MinScale else scale
    .ok (((val : Float64) / 255 + offs) * scale, { l with Sources := srcs })

/-- The interface `Tracked`, with the answers of its methods during the call under study. -/
structure Tracked where
  Pos : Float64 × Float64
  Alive : Bool
  SizeMod : Float64

/-- The struct `CircleSource`; `Tracked` is `none` for a nil interface value. -/
structure CircleSource where
  Tracked : Option Tracked
  Intensity : Float64
  FallRadius : Float64

/-- The method `CircleSource.OffsetScale`; a nil `Tracked` panics. -/
def CircleSource.OffsetScale (s : CircleSource) (posx posy : Int) :
    Except String (Float64 × Float64) :=
  match s.Tracked with
  | none => .error "invalid memory address or nil pointer dereference"
  | some t =>
    let x := t.Pos.1
    let y := t.Pos.2
    let dx := (posx : Float64) - x
    let dy := (posy : Float64) - y
    let d2 := dx * dx + dy * dy
    let fr2 := s.FallRadius * s.FallRadius * t.SizeMod
    let scale := 0 + s.Intensity * fr2 / (d2 * 10 + fr2)
    .ok (0, scale)

/-- The method `CircleSource.Alive`: the answer and the source after the call. -/
def CircleSource.Alive (s : CircleSource) : Except String (Bool × CircleSource) :=
  match s.Tracked with
  | none => .error "invalid memory address or nil pointer dereference"
  | some t => .ok (t.Alive, if !t.Alive then { s with Tracked := none } else s)

/-! ## rectangle.go -/

/-- The struct `RectangleRasterInput`.  `Buffer` is `none` for a nil slice;
`HasShader`, `HasLights` and `HasIndexizer` say whether the fields `Shader`,
`Lights` and `Indexizer` are non-nil.  The shader is not called in the model:
its invocations are recorded. -/
structure RectangleRasterInput where
  Buffer : Option (List Nat)
  BufferWidth : Int
  BufferHeight : Int
  HasShader : Bool
  ChunkBits : Int
  HasLights : Bool
  HasIndexizer : Bool

/-- The struct `RectangleRasterStatic`. -/
structure RectangleRasterStatic extends RectangleRasterInput where
  Pxs : Float64
  Pys : Float64

/-- The struct `RectangleShaderOpts`: the argument of one shader invocation. -/
structure RectangleShaderOpts extends RectangleRasterStatic where
  X : Float64
  Y : Float64
  Px : Float64
  Py : Float64
  BufferOffset : Int

/-- The struct `RectangleInfo`. -/
structure RectangleInfo extends RectangleRasterInput where
  X : Float64
  Y : Float64
  W : Float64
  H : Float64

/-- The struct `RectangleChunk` (without the wait group). -/
structure RectangleChunk extends RectangleRasterStatic where
  Xo : Float64
  Yo : Float64
  Pxo : Float64
  Pyo : Float64
  BufferOffset : Int
  Width : Float64
  Height : Float64

/-- The variables `x, px, boffs` of the inner loop of `RectangleChunk.Process`. -/
structure RectColState where
  x : Float64
  px : Float64
  boffs : Int

/-- The variables `y, py` and the field `c.BufferOffset` of the outer loop of
`RectangleChunk.Process`. -/
structure RectRowState where
  y : Float64
  py : Float64
  BufferOffset : Int

/-- The method `RectangleChunk.Process`: the shader invocations of one chunk, in order. -/
def RectangleChunk.Process (fuel : Nat) (c : RectangleChunk) :
    Outcome (List RectangleShaderOpts) :=
  let maxX := c.Xo + c.Width
  let maxY := c.Yo + c.Height
  forLoop (fun r : RectRowState => decide (r.y < maxY))
    (fun r =>
      forLoop (fun s : RectColState => decide (s.x < maxX))
        (fun s => .returned [{ toRectangleRasterStatic := c.toRectangleRasterStatic,
                               X := s.x, Y := r.y, Px := s.px, Py := r.py,
                               BufferOffset := s.boffs }])
        (fun s => { x := s.x + 1, px := s.px + c.Pxs, boffs := s.boffs + 1 })
        fuel { x := c.Xo, px := c.Pxo, boffs := r.BufferOffset })
    (fun r => { y := r.y + 1, py := r.py + c.Pys,
                BufferOffset := r.BufferOffset + c.BufferWidth })
    fuel { y := c.Yo, py := c.Pyo, BufferOffset := c.BufferOffset }

/-- The adjustments of `DrawRectangle` to its argument before the setup: the
default chunk size and the normalisation of a negative width or height. -/
def RectangleInfo.normalize (ri : RectangleInfo) : RectangleInfo :=
  let ri := if ri.ChunkBits = 0 then { ri with ChunkBits := 3 } else ri
  let ri := if ri.W < 0 then { ri with X := ri.X + ri.W, W := -ri.W } else ri
  if ri.H < 0 then { ri with Y := ri.Y + ri.H, H := -ri.H } else ri

/-- The clip bounds `(minX, minY, maxX, maxY)` that `DrawRectangle` computes
from its (normalised) argument. -/
def RectangleInfo.clip (ri : RectangleInfo) : Float64 × Float64 × Float64 × Float64 :=
  let x := Floor (ri.X + sm)
  let y := Floor (ri.Y + sm)
  let w := Floor ri.W
  let h := Floor ri.H
  (max x 0, max y 0, min (x + w) ((ri.BufferWidth - 1 : Int) : Float64),
    min (y + h) ((ri.BufferHeight - 1 : Int) : Float64))

/-- The variables `x, px, boffs` of the inner loop of `DrawRectangle`. -/
structure RectChunkColState where
  x : Float64
  px : Float64
  boffs : Int

/-- The variables `y, py, boffso` of the outer loop of `DrawRectangle`. -/
structure RectChunkRowState where
  y : Float64
  py : Float64
  boffso : Int

/-- The two chunk loops of `DrawRectangle` for a normalised argument `ri` and
chunk size `chunkSize`: every chunk handed to `renderChunk`, with the shader
invocations of its `Process`. -/
def RectangleInfo.chunkLoops (fuel : Nat) (ri : RectangleInfo) (chunkSize : Int) :
    Outcome (List (RectangleChunk × List RectangleShaderOpts)) :=
  let w := Floor ri.W
  let h := Floor ri.H
  let rs : RectangleRasterStatic :=
    { toRectangleRasterInput := ri.toRectangleRasterInput, Pxs := 1 / w, Pys := 1 / h }
  let minX := ri.clip.1
  let minY := ri.clip.2.1
  let maxX := ri.clip.2.2.1
  let maxY := ri.clip.2.2.2
  let chunkSizef : Float64 := (chunkSize : Float64)
  let pxCh := chunkSizef * rs.Pxs
  let pyCh := chunkSizef * rs.Pys
  let boffso := toInt minX + toInt minY * ri.BufferWidth
  forLoop (fun r : RectChunkRowState => decide (r.y < maxY))
    (fun r =>
      let chunkHeight := if maxY - r.y > chunkSizef then chunkSizef else maxY - r.y
      forLoop (fun s : RectChunkColState => decide (s.x < maxX))
        (fun s =>
          let chunk : RectangleChunk :=
            { toRectangleRasterStatic := rs, Xo := s.x, Yo := r.y, Pxo := s.px, Pyo := r.py,
              BufferOffset := s.boffs,
              Width := if maxX - s.x > chunkSizef then chunkSizef else maxX - s.x,
              Height := chunkHeight }
          match chunk.Process fuel with
          | .returned calls => .returned [(chunk, calls)]
          | .panicked msg => .panicked msg
          | .outOfFuel => .outOfFuel)
        (fun s => { x := s.x + chunkSizef, px := s.px + pxCh, boffs := s.boffs + chunkSize })
        fuel { x := minX, px := 0, boffs := r.boffso })
    (fun r => { y := r.y + chunkSizef, py := r.py + pyCh,
                boffso := r.boffso + ri.BufferWidth * chunkSize })
    fuel { y := minY, py := 0, boffso := boffso }

/-- The method `Rasterizer.DrawRectangle`: the chunks of the call in dispatch
order, each with the shader invocations of its `Process`. -/
def DrawRectangle (fuel : Nat) (ri : RectangleInfo) :
    Outcome (List (RectangleChunk × List RectangleShaderOpts)) :=
  if ri.Buffer.isNone then .panicked "Rasterizer.DrawRectangle: buffer is not set"
  else if !ri.HasShader then .panicked "Rasterizer.DrawRectangle: shader is not set"
  else if ri.W = 0 ∨ ri.H = 0 then .returned []
  else
    let ri := ri.normalize
    if ri.ChunkBits < 0 then .panicked "negative shift amount"
    else ri.chunkLoops fuel (shl1 ri.ChunkBits)

/-- All shader invocations of a draw call. -/
def rectCalls (res : List (RectangleChunk × List RectangleShaderOpts)) :
    List RectangleShaderOpts :=
  res.flatMap (fun c => c.2)

/-- The pixel of a shader invocation. -/
def RectangleShaderOpts.pixel (so : RectangleShaderOpts) : Float64 × Float64 := (so.X, so.Y)

/-- A rectangle call with a non-nil buffer and shader. -/
def rectCall (bw bh bits : Int) (x y w h : Float64) : RectangleInfo :=
  { Buffer := some [], BufferWidth := bw, BufferHeight := bh, HasShader := true,
    ChunkBits := bits, HasLights := true, HasIndexizer := true, X := x, Y := y, W := w, H := h }


/-! ## triangle.go -/

/-- The struct `TriangleRasterInput`, with the conventions of `RectangleRasterInput`. -/
structure TriangleRasterInput where
  Buffer : Option (List Nat)
  BufferWidth : Int
  BufferHeight : Int
  HasShader : Bool
  ChunkBits : Int
  HasLights : Bool
  HasIndexizer : Bool

/-- The struct `TriangleRasterStatic`. -/
structure TriangleRasterStatic extends TriangleRasterInput where
  A01 : Float64
  B01 : Float64
  A12 : Float64
  B12 : Float64
  A20 : Float64
  B20 : Float64
  InvArea : Float64

/-- The struct `TriangleShaderOpts`: the argument of one shader invocation. -/
structure TriangleShaderOpts extends TriangleRasterStatic where
  X : Float64
  Y : Float64
  W0 : Float64
  W1 : Float64
  W2 : Float64
  BufferOffset : Int

/-- The struct `TriangleInfo`. -/
structure TriangleInfo extends TriangleRasterInput where
  X0 : Float64
  Y0 : Float64
  X1 : Float64
  Y1 : Float64
  X2 : Float64
  Y2 : Float64

/-- The struct `TriangleChunk` (without the wait group). -/
structure TriangleChunk extends TriangleRasterStatic where
  Xo : Float64
  Yo : Float64
  W0o : Float64
  W1o : Float64
  W2o : Float64
  BufferOffset : Int
  Width : Float64
  Height : Float64

/-- The function `edgeFunc`. -/
def edgeFunc (ax ay bx by_ cx cy : Float64) : Float64 :=
  (bx - ax) * (cy - ay) - (by_ - ay) * (cx - ax)

/-- The function `isTopLeft`. -/
def isTopLeft (ax ay bx by_ : Float64) : Bool :=
  let top := decide (ay = by_) && decide (ax < bx)
  let left := decide (ay > by_)
  top || left

/-- The variables `x, w0, w1, w2, boffs` of the inner loops of `TriangleChunk.Process`
and of `DrawTriangle`. -/
structure TriColState where
  x : Float64
  w0 : Float64
  w1 : Float64
  w2 : Float64
  boffs : Int

/-- The variables `y, w0o, w1o, w2o` and the buffer offset of the outer loops of
`TriangleChunk.Process` and of `DrawTriangle`. -/
structure TriRowState where
  y : Float64
  w0o : Float64
  w1o : Float64
  w2o : Float64
  boffso : Int

/-- The method `TriangleChunk.Process`: the shader invocations of one chunk, in order. -/
def TriangleChunk.Process (fuel : Nat) (c : TriangleChunk) : Outcome (List TriangleShaderOpts) :=
  let maxX := c.Xo + c.Width
  let maxY := c.Yo + c.Height
  forLoop (fun r : TriRowState => decide (r.y < maxY))
    (fun r =>
      forLoop (fun s : TriColState => decide (s.x < maxX))
        (fun s =>
          if s.w0 ≥ 0 ∧ s.w1 ≥ 0 ∧ s.w2 ≥ 0 then
            .returned [{ toTriangleRasterStatic := c.toTriangleRasterStatic,
                         X := s.x, Y := r.y, W0 := s.w0 * c.InvArea, W1 := s.w1 * c.InvArea,
                         W2 := s.w2 * c.InvArea, BufferOffset := s.boffs }]
          else .returned [])
        (fun s => { x := s.x + 1, w0 := s.w0 + c.A12, w1 := s.w1 + c.A20, w2 := s.w2 + c.A01,
                    boffs := s.boffs + 1 })
        fuel { x := c.Xo, w0 := r.w0o, w1 := r.w1o, w2 := r.w2o, boffs := r.boffso })
    (fun r => { y := r.y + 1, w0o := r.w0o + c.B12, w1o := r.w1o + c.B20, w2o := r.w2o + c.B01,
                boffso := r.boffso + c.BufferWidth })
    fuel { y := c.Yo, w0o := c.W0o, w1o := c.W1o, w2o := c.W2o, boffso := c.BufferOffset }

/-- The argument of `DrawTriangle` after the default chunk size is filled in. -/
def TriangleInfo.normalize (ti : TriangleInfo) : TriangleInfo :=
  if ti.ChunkBits = 0 then { ti with ChunkBits := 3 } else ti

/-- The clip bounds `(minX, minY, maxX, maxY)` that `DrawTriangle` computes. -/
def TriangleInfo.clip (ti : TriangleInfo) : Float64 × Float64 × Float64 × Float64 :=
  let x0 := Floor (ti.X0 + sm)
  let y0 := Floor (ti.Y0 + sm)
  let x1 := Floor (ti.X1 + sm)
  let y1 := Floor (ti.Y1 + sm)
  let x2 := Floor (ti.X2 + sm)
  let y2 := Floor (ti.Y2 + sm)
  let minX := min x0 (min x1 x2)
  let minY := min y0 (min y1 y2)
  let maxX := max x0 (max x1 x2)
  let maxY := max y0 (max y1 y2)
  (max minX 0, max minY 0, min maxX ((ti.BufferWidth - 1 : Int) : Float64),
    min maxY ((ti.BufferHeight - 1 : Int) : Float64))

/-- The amount by which the statement `w -= math.SmallestNonzeroFloat64` lowers `w`. -/
def smallestDrop (w : Float64) : Float64 := w - subSmallest w

/-- The fill-rule corrections of `DrawTriangle`: the amounts by which the three
statements `if !isTopLeft(...) { w -= math.SmallestNonzeroFloat64 }` lower
`w0o`, `w1o` and `w2o`, the edge functions at the corner `(minX, minY)`.
The amount is `0` for an edge that is top-left, and also for the other edges
unless the edge function at the corner is tiny. -/
def TriangleInfo.bias (ti : TriangleInfo) : Float64 × Float64 × Float64 :=
  let x0 := Floor (ti.X0 + sm)
  let y0 := Floor (ti.Y0 + sm)
  let x1 := Floor (ti.X1 + sm)
  let y1 := Floor (ti.Y1 + sm)
  let x2 := Floor (ti.X2 + sm)
  let y2 := Floor (ti.Y2 + sm)
  let minX := ti.clip.1
  let minY := ti.clip.2.1
  (if !isTopLeft x1 y1 x2 y2 then smallestDrop (edgeFunc ti.X1 ti.Y1 ti.X2 ti.Y2 minX minY) else 0,
    if !isTopLeft x2 y2 x0 y0 then smallestDrop (edgeFunc ti.X2 ti.Y2 ti.X0 ti.Y0 minX minY) else 0,
    if !isTopLeft x0 y0 x1 y1 then smallestDrop (edgeFunc ti.X0 ti.Y0 ti.X1 ti.Y1 minX minY) else 0)

/-- The static part `rs` of `DrawTriangle` once `InvArea` is set. -/
def TriangleInfo.static (ti : TriangleInfo) : TriangleRasterStatic :=
  { toTriangleRasterInput := ti.toTriangleRasterInput,
    A01 := ti.Y0 - ti.Y1, B01 := ti.X1 - ti.X0,
    A12 := ti.Y1 - ti.Y2, B12 := ti.X2 - ti.X1,
    A20 := ti.Y2 - ti.Y0, B20 := ti.X0 - ti.X2,
    InvArea := 1 / edgeFunc ti.X0 ti.Y0 ti.X1 ti.Y1 ti.X2 ti.Y2 }

/-- The two chunk loops of `DrawTriangle` for chunk size `chunkSize`: every
chunk handed to `renderChunk`, with the shader invocations of its `Process`. -/
def TriangleInfo.chunkLoops (fuel : Nat) (ti : TriangleInfo) (chunkSize : Int) :
    Outcome (List (TriangleChunk × List TriangleShaderOpts)) :=
  let rs := ti.static
  let minX := ti.clip.1
  let minY := ti.clip.2.1
  let maxX := ti.clip.2.2.1
  let maxY := ti.clip.2.2.2
  let chunkSizef : Float64 := (chunkSize : Float64)
  let w0o := edgeFunc ti.X1 ti.Y1 ti.X2 ti.Y2 minX minY - ti.bias.1
  let w1o := edgeFunc ti.X2 ti.Y2 ti.X0 ti.Y0 minX minY - ti.bias.2.1
  let w2o := edgeFunc ti.X0 ti.Y0 ti.X1 ti.Y1 minX minY - ti.bias.2.2
  let w0xStep := rs.A12 * chunkSizef
  let w1xStep := rs.A20 * chunkSizef
  let w2xStep := rs.A01 * chunkSizef
  let w0yStep := rs.B12 * chunkSizef
  let w1yStep := rs.B20 * chunkSizef
  let w2yStep := rs.B01 * chunkSizef
  let boffso := toInt minX + toInt minY * ti.BufferWidth
  forLoop (fun r : TriRowState => decide (r.y < maxY))
    (fun r =>
      let chunkHeight := if maxY - r.y > chunkSizef then chunkSizef else maxY - r.y
      forLoop (fun s : TriColState => decide (s.x < maxX))
        (fun s =>
          let chunk : TriangleChunk :=
            { toTriangleRasterStatic := rs, Xo := s.x, Yo := r.y,
              W0o := s.w0, W1o := s.w1, W2o := s.w2, BufferOffset := s.boffs,
              Width := if maxX - s.x > chunkSizef then chunkSizef else maxX - s.x,
              Height := chunkHeight }
          match chunk.Process fuel with
          | .returned calls => .returned [(chunk, calls)]
          | .panicked msg => .panicked msg
          | .outOfFuel => .outOfFuel)
        (fun s => { x := s.x + chunkSizef, w0 := s.w0 + w0xStep, w1 := s.w1 + w1xStep,
                    w2 := s.w2 + w2xStep, boffs := s.boffs + chunkSize })
        fuel { x := minX, w0 := r.w0o, w1 := r.w1o, w2 := r.w2o, boffs := r.boffso })
    (fun r => { y := r.y + chunkSizef, w0o := r.w0o + w0yStep, w1o := r.w1o + w1yStep,
                w2o := r.w2o + w2yStep, boffso := r.boffso + ti.BufferWidth * chunkSize })
    fuel { y := minY, w0o := w0o, w1o := w1o, w2o := w2o, boffso := boffso }

/-- The method `Rasterizer.DrawTriangle`: the chunks of the call in dispatch
order, each with the shader invocations of its `Process`. -/
def DrawTriangle (fuel : Nat) (ti : TriangleInfo) :
    Outcome (List (TriangleChunk × List TriangleShaderOpts)) :=
  if ti.Buffer.isNone then .panicked "Rasterizer.DrawTriangle: buffer is not set"
  else if !ti.HasShader then .panicked "Rasterizer.DrawTriangle: shader is not set"
  else if !ti.HasLights then .panicked "Rasterizer.DrawTriangle: lights is not set"
  else if !ti.HasIndexizer then .panicked "Rasterizer.DrawTriangle: indexizer is not set"
  else
    let ti := ti.normalize
    if ti.ChunkBits < 0 then .panicked "negative shift amount"
    else if edgeFunc ti.X0 ti.Y0 ti.X1 ti.Y1 ti.X2 ti.Y2 = 0 then .returned []
    else ti.chunkLoops fuel (shl1 ti.ChunkBits)

/-- All shader invocations of a triangle draw call. -/
def triCalls (res : List (TriangleChunk × List TriangleShaderOpts)) : List TriangleShaderOpts :=
  res.flatMap (fun c => c.2)

/-- The pixel of a shader invocation. -/
def TriangleShaderOpts.pixel (so : TriangleShaderOpts) : Float64 × Float64 := (so.X, so.Y)

/-- A triangle call with a non-nil buffer, shader, lights and indexizer. -/
def triCall (bw bh bits : Int) (x0 y0 x1 y1 x2 y2 : Float64) : TriangleInfo :=
  { Buffer := some [], BufferWidth := bw, BufferHeight := bh, HasShader := true,
    ChunkBits := bits, HasLights := true, HasIndexizer := true,
    X0 := x0, Y0 := y0, X1 := x1, Y1 := y1, X2 := x2, Y2 := y2 }

/-! ## bit-shader.go, palette.go, images.go -/

/-- The remainder `a % b` of Go on `int`: truncated division, the sign of the dividend. -/
def goMod (a b : Int) : Int := Int.tmod a b

/-- The struct `Ind2Bit`. -/
structure Ind2Bit where
  Threshold1_5 : Float64
  Threshold2 : Float64
  Threshold2_5 : Float64
  Threshold3 : Float64
  Threshold3_5 : Float64
  Threshold4 : Float64

/-- The variable `Bits2`. -/
def Bits2 : Ind2Bit :=
  { Threshold1_5 := 0.15, Threshold2 := 0.3, Threshold2_5 := 0.45, Threshold3 := 0.55,
    Threshold3_5 := 0.7, Threshold4 := 0.8 }

/-- The `switch` of `Ind2Bit.Indexize`: the values of `color` and `dither` after it. -/
def Ind2Bit.colorDither (i : Ind2Bit) (intens : Float64) : Nat × Bool :=
  if intens ≥ i.Threshold4 then (4, false)
  else if intens ≥ i.Threshold3_5 then (4, true)
  else if intens ≥ i.Threshold3 then (3, false)
  else if intens ≥ i.Threshold2_5 then (3, true)
  else if intens ≥ i.Threshold2 then (2, false)
  else if intens ≥ i.Threshold1_5 then (2, true)
  else (1, false)

/-- The method `Ind2Bit.Indexize`; the result is a `byte`, and `color--` wraps modulo 256. -/
def Ind2Bit.Indexize (i : Ind2Bit) (intens : Float64) (posx posy : Int) : Nat :=
  let cd := i.colorDither intens
  if cd.2 && decide (goMod posx 2 = goMod posy 2) then (cd.1 + 255) % 256 else cd.1

/-- The type `Palette`, a slice of bytes whose capacity is its length. -/
abbrev Palette := List Nat

/-- The method `Palette.ColorsNumber`. -/
def Palette.ColorsNumber (p : Palette) : Nat := p.length / 3

/-- The builtin `copy(dst, src)`: the contents of `dst` after the call. -/
def goCopy (dst src : List Nat) : List Nat :=
  src.take (min dst.length src.length) ++ dst.drop (min dst.length src.length)

/-- The method `Palette.Colorize`: the contents of `canvas` after the call.  `index`
is a `byte`, so `(index - 1) * 3` and `i + 3` are computed modulo 256. -/
def Palette.Colorize (p : Palette) (canvas : List Nat) (index : Nat) :
    Except String (List Nat) :=
  if index > 0 ∧ index ≤ p.length / 3 then
    let i := (index + 255) % 256 * 3 % 256
    let j := (i + 3) % 256
    if i ≤ j ∧ j ≤ p.length then
      let arr := goCopy [0, 0, 0, 0] ((p.drop i).take (j - i))
      let arr := arr.set 3 255
      .ok (goCopy canvas arr)
    else .error "slice bounds out of range"
  else .ok (goCopy canvas [0, 0, 0, 0])

/-- The struct `IndexedImage`. -/
structure IndexedImage where
  Width : Int
  Height : Int
  Pixels : List Nat
  Colors : Int

/-- The struct `ToRGBAOpts`; `Pixels` is `none` for a nil slice. -/
structure ToRGBAOpts where
  Pixels : Option (List Nat)
  Palette : Palette

/-- The loop `for i := range iim.Pixels` of `IndexedImage.ToRGBA` from index `i`
on, over the remaining pixels: the contents of `o.Pixels` after it. -/
def IndexedImage.ToRGBA.loop (pal : Palette) : Nat → List Nat → List Nat → Except String (List Nat)
  | _, [], out => .ok out
  | i, v :: vs, out =>
    if i * 4 + 3 ≤ out.length then
      match pal.Colorize ((out.drop (i * 4)).take 3) v with
      | .ok c => IndexedImage.ToRGBA.loop pal (i + 1) vs (out.take (i * 4) ++ c ++ out.drop (i * 4 + 3))
      | .error e => .error e
    else .error "slice bounds out of range"

/-- The method `IndexedImage.ToRGBA`: the slice it returns. -/
def IndexedImage.ToRGBA (iim : IndexedImage) (o : ToRGBAOpts) : Except String (List Nat) :=
  match o.Pixels with
  | none =>
    if 4 * iim.Width * 4 * iim.Height < 0 then .error "makeslice: len out of range"
    else IndexedImage.ToRGBA.loop o.Palette 0 iim.Pixels
      (List.replicate (4 * iim.Width * 4 * iim.Height).toNat 0)
  | some px =>
    if (px.length : Int) ≠ 4 * iim.Width * iim.Height then
      .error "IndexedImage.ToRGBA: Passed bytes size do not match"
    else IndexedImage.ToRGBA.loop o.Palette 0 iim.Pixels px

/-- The closure that `RectShaderIndexed` returns, applied to `o`: the contents of
`o.Buffer` after the call.  `lights` and `indexizer` are the methods of
`o.Lights` and `o.Indexizer`, used when these are non-nil. -/
def RectShaderIndexed (iim : IndexedImage) (tx0 ty0 tx1 ty1 : Int)
    (lights : Nat → Int → Int → Except String Float64) (indexizer : Float64 → Int → Int → Nat)
    (o : RectangleShaderOpts) : Except String (Option (List Nat)) :=
  let tw : Float64 := ((tx1 - tx0 : Int) : Float64) + 1
  let th : Float64 := ((ty1 - ty0 : Int) : Float64) + 1
  let cx := toInt (tw * o.Px) + tx0
  let cy := toInt (th * o.Py) + ty0
  let idx := cx + cy * iim.Width
  if idx < 0 ∨ (iim.Pixels.length : Int) ≤ idx then .error "index out of range"
  else
    let c := iim.Pixels.getD idx.toNat 0
    if c = 0 then .ok o.Buffer
    else if !o.HasLights then .error "invalid memory address or nil pointer dereference"
    else
      match lights c (toInt o.X) (toInt o.Y) with
      | .error e => .error e
      | .ok intens =>
        if !o.HasIndexizer then .error "invalid memory address or nil pointer dereference"
        else
          let col := indexizer intens (toInt o.X) (toInt o.Y)
          match o.Buffer with
          | none => .error "index out of range"
          | some buf =>
            if o.BufferOffset < 0 ∨ (buf.length : Int) ≤ o.BufferOffset then
              .error "index out of range"
            else .ok (some (buf.set o.BufferOffset.toNat col))

/-- The interface `image.Image`, as far as `IndexedImageFromImage` uses it:
`Bounds().Max` and the result of `At(x, y).RGBA()`, four alpha-premultiplied
components in `[0, 0xffff]`. -/
structure Image where
  MaxX : Int
  MaxY : Int
  At : Int → Int → Nat × Nat × Nat × Nat

/-- The struct `FromImageOpts`. -/
structure FromImageOpts where
  Colors : Int
  AlphaThreshold : Float64

/-- The body of the loop of `IndexedImageFromImage` for the index `i`: the value
of `iim.Pixels[i]` after it, `0` when the body leaves by `continue`.  The
result is `none` when the alpha is `0` and the body reaches the division:
the quotient is then a NaN or an infinity, which the exact arithmetic does
not have, and the language does not fix the value of the conversion to `byte`. -/
def IndexedImageFromImage.pixel (img : Image) (colors : Int) (threshold : Float64) (width : Int)
    (i : Nat) : Option Nat :=
  let rgba := img.At (goMod i width) (Int.tdiv i width)
  let fa : Float64 := (rgba.2.2.2 : Float64)
  if fa / 0xffff < threshold then some 0
  else if fa = 0 then none
  else
    let intensity := (rgba.1 : Float64) / fa * 0.21 + (rgba.2.1 : Float64) / fa * 0.72 +
      (rgba.2.2.1 : Float64) / fa * 0.07
    let cap : Float64 := 0xffff / 0x10000
    let intensity := if intensity > cap then cap else if intensity < 0 then 0 else intensity
    some ((toInt (intensity * ((colors + 1 : Int) : Float64))).toNat % 256)

/-- The loop of `IndexedImageFromImage` over the indices `is`, with the body `f`. -/
def IndexedImageFromImage.loop (f : Nat → Option Nat) : List Nat → Option (List Nat)
  | [] => some []
  | i :: is =>
    match f i, IndexedImageFromImage.loop f is with
    | some v, some vs => some (v :: vs)
    | _, _ => none

/-- The function `IndexedImageFromImage`; a negative `w*h` panics in `make`, and
the result is `none` where a pixel is (see `IndexedImageFromImage.pixel`). -/
def IndexedImageFromImage (img : Image) (o : FromImageOpts) :
    Except String (Option IndexedImage) :=
  let w := img.MaxX
  let h := img.MaxY
  let colors := if o.Colors < 1 ∨ o.Colors > 255 then 255 else o.Colors
  let threshold := if o.AlphaThreshold = 0 then 0.5 else o.AlphaThreshold
  if w * h < 0 then .error "makeslice: len out of range"
  else if w = 0 ∨ h = 0 then .ok (some { Width := w, Height := h, Pixels := [], Colors := colors })
  else
    .ok ((IndexedImageFromImage.loop (IndexedImageFromImage.pixel img colors threshold w)
        (List.range (w * h).toNat)).map
      fun px => { Width := w, Height := h, Pixels := px, Colors := colors })

/-- The loop `for i := 1; i < len(iim.Pixels); i *= 2` of `IndexedImage.Fill`
from the value `i` of the loop variable on: the contents of `iim.Pixels`
after it.  The loop variable is positive, `hi`, so it grows. -/
def IndexedImage.Fill.loop (i : Nat) (hi : 0 < i) (px : List Nat) : List Nat :=
  if h : i < px.length then
    IndexedImage.Fill.loop (i * 2) (by omega) (px.take i ++ goCopy (px.drop i) (px.take i))
  else px
termination_by px.length - i
decreasing_by
  simp only [List.length_append, List.length_take, goCopy, List.length_drop]
  omega

/-- The method `IndexedImage.Fill`: the image after the call; an empty `Pixels`
panics in `iim.Pixels[0] = v`. -/
def IndexedImage.Fill (iim : IndexedImage) (v : Nat) : Except String IndexedImage :=
  if iim.Pixels.length = 0 then .error "index out of range"
  else .ok { iim with Pixels := IndexedImage.Fill.loop 1 (by decide) (iim.Pixels.set 0 v) }

/-! ## sprite.go -/

/-- The struct `Sprite`; `Atlas` is the image the pointer refers to. -/
structure Sprite where
  Atlas : IndexedImage
  X : Int
  Y : Int
  Width : Int
  Height : Int
  XOrigin : Int
  YOrigin : Int

/-- The struct `spritesYaml`. -/
structure spritesYaml where
  Width : Int
  Height : Int
  XOffs : Int
  YOffs : Int
  XOrig : Int
  YOrig : Int
  Names : List String

/-- The fields of the struct `Display` that the model uses.  A map is an
association list with distinct keys; `reportedSprite` is `none` for a nil
map.  `LoadAtlas` allocates `Atlases` and `Sprites` before it adds sprites.
`Lights` and `Indexizer` are the methods `Light` and `Indexize` of the two
interface values, `none` for a nil interface. -/
structure Display where
  Screen : IndexedImage
  RGBA : List Nat
  Palette : Palette
  Atlases : List (String × IndexedImage)
  Sprites : List (String × Sprite)
  Lights : Option (Nat → Int → Int → Except String Float64)
  Indexizer : Option (Float64 → Int → Int → Nat)
  reportedSprite : Option (List String)

/-- The assignment `m[k] = v` to a map. -/
def goMapSet {β : Type} (m : List (String × β)) (k : String) (v : β) : List (String × β) :=
  (k, v) :: m.filter (fun e => e.1 ≠ k)

/-- The loop of `Display.addSprites` over the remaining names, with the current
values of `x` and `y`: the assignments `d.Sprites[pref+"."+n] = s` it makes, in order. -/
def addSpritesLoop (atl : IndexedImage) (spr : spritesYaml) (pref : String) :
    Int → Int → List String → List (String × Sprite)
  | _, _, [] => []
  | x, y, n :: ns =>
    let s : Sprite :=
      { Atlas := atl, X := x, Y := y, Width := spr.Width, Height := spr.Height,
        XOrigin := spr.XOrig, YOrigin := spr.YOrig }
    if x + spr.Width ≥ atl.Width then
      if y + spr.Height ≥ atl.Height then
        [(pref ++ "." ++ n, { s with Width := atl.Width - x, Height := atl.Height - y })]
      else
        (pref ++ "." ++ n, { s with Width := atl.Width - x }) ::
          addSpritesLoop atl spr pref 0 (y + spr.Height) ns
    else (pref ++ "." ++ n, s) :: addSpritesLoop atl spr pref (x + spr.Width) y ns

/-- The method `Display.addSprites`. -/
def Display.addSprites (d : Display) (atl : IndexedImage) (spr : spritesYaml) (pref : String) :
    Display :=
  { d with
    Sprites := (addSpritesLoop atl spr pref spr.XOffs spr.YOffs spr.Names).foldl
      (fun m kv => goMapSet m kv.1 kv.2) d.Sprites }

/-- The method `Display.ReportSprite`: the display after the call and the lines
it writes to the log. -/
def Display.ReportSprite (d : Display) (name : String) : Display × List String :=
  let reported := match d.reportedSprite with
    | none => []
    | some m => m
  if name ∈ reported then ({ d with reportedSprite := some reported }, [])
  else
    ({ d with reportedSprite := some (name :: reported) },
      ["Error: sprite " ++ name ++
        " is not loaded. Sprite name format is \x27atlas.sprite\x27."])

/-! ## draw.go -/

/-- The struct `DrawSpriteOpts`. -/
structure DrawSpriteOpts where
  Name : String
  SX : Float64
  SY : Float64
  SW : Float64
  SH : Float64
  DX : Float64
  DY : Float64
  DH : Float64
  DW : Float64

/-- The arguments `tx0, ty0, tx1, ty1` of the call of `RectShaderIndexed` in
`drawSpriteAdvanced`. -/
def drawSpriteTexture (s : Sprite) (o : DrawSpriteOpts) : Int × Int × Int × Int :=
  (s.X + toInt o.SX, s.Y + toInt o.SY, s.X + toInt o.SX + toInt o.SW,
    s.Y + toInt o.SY + toInt o.SH)

/-- The `RectangleInfo` that `drawSpriteAdvanced` passes to `DrawRectangle`.  The
screen buffer is allocated (`InitBuffers`), so `Buffer` is not nil. -/
def Display.drawSpriteRect (d : Display) (s : Sprite) (o : DrawSpriteOpts) : RectangleInfo :=
  { Buffer := some d.Screen.Pixels, BufferWidth := d.Screen.Width,
    BufferHeight := d.Screen.Height, HasShader := true, ChunkBits := 0,
    HasLights := d.Lights.isSome, HasIndexizer := d.Indexizer.isSome,
    X := o.DX - (s.XOrigin : Float64), Y := o.DY - (s.YOrigin : Float64), W := o.DW, H := o.DH }

/-- The shader invocations of a draw call, run in dispatch order on the buffer:
the contents of the buffer after them, or the panic of the first that fails. -/
def runRectShader (shader : RectangleShaderOpts → Except String (Option (List Nat))) :
    List RectangleShaderOpts → Option (List Nat) → Except String (Option (List Nat))
  | [], buf => .ok buf
  | so :: rest, buf =>
    match shader { so with Buffer := buf } with
    | .ok buf1 => runRectShader shader rest buf1
    | .error e => .error e

/-- The method `Display.drawSpriteAdvanced`: the display after the call. -/
def Display.drawSpriteAdvanced (d : Display) (fuel : Nat) (s : Sprite) (o : DrawSpriteOpts) :
    Outcome Display :=
  let t := drawSpriteTexture s o
  match DrawRectangle fuel (d.drawSpriteRect s o) with
  | .returned res =>
    match runRectShader
        (RectShaderIndexed s.Atlas t.1 t.2.1 t.2.2.1 t.2.2.2
          (d.Lights.getD fun _ _ _ => .error "invalid memory address or nil pointer dereference")
          (d.Indexizer.getD fun _ _ _ => 0))
        (rectCalls res) (some d.Screen.Pixels) with
    | .ok buf =>
      .returned { d with Screen := { d.Screen with Pixels := buf.getD d.Screen.Pixels } }
    | .error e => .panicked e
  | .panicked msg => .panicked msg
  | .outOfFuel => .outOfFuel

/-- The options of `DrawSpriteAdvanced` after it has filled in the defaults
of the sizes that are zero, for the sprite `s`. -/
def DrawSpriteOpts.defaults (o : DrawSpriteOpts) (s : Sprite) : DrawSpriteOpts :=
  let o := if o.SW = 0 then { o with SW := (s.Width : Float64) } else o
  let o := if o.SH = 0 then { o with SH := (s.Height : Float64) } else o
  let o := if o.DW = 0 then { o with DW := o.SW } else o
  if o.DH = 0 then { o with DH := o.SH } else o

/-- The method `Display.DrawSpriteAdvanced`: the display after the call and the
lines it writes to the log. -/
def Display.DrawSpriteAdvanced (d : Display) (fuel : Nat) (o : DrawSpriteOpts) :
    Outcome (Display × List String) :=
  match List.lookup o.Name d.Sprites with
  | none => .returned (d.ReportSprite o.Name)
  | some s =>
    match d.drawSpriteAdvanced fuel s (o.defaults s) with
    | .returned d1 => .returned (d1, [])
    | .panicked msg => .panicked msg
    | .outOfFuel => .outOfFuel

/-- The method `Display.DrawSprite`. -/
def Display.DrawSprite (d : Display) (fuel : Nat) (name : String) (x y : Float64) :
    Outcome (Display × List String) :=
  d.DrawSpriteAdvanced fuel
    { Name := name, SX := 0, SY := 0, SW := 0, SH := 0, DX := x, DY := y, DH := 0, DW := 0 }

/-! ## align.go -/

/-- The type `Align`, an `int`. -/
abbrev Align := Int

/-- The constant `Center`. -/
def Center : Align := 0

/-- The constant `Left`. -/
def Left : Align := 1

/-- The constant `Right`. -/
def Right : Align := 2

/-- The constant `Top`. -/
def Top : Align := 4

/-- The constant `Bottom`. -/
def Bottom : Align := 8

/-- The constant `TopLeft`. -/
def TopLeft : Align := Int.lor Top Left

/-- The constant `TopRight`. -/
def TopRight : Align := Int.lor Top Right

/-- The constant `BottomLeft`. -/
def BottomLeft : Align := Int.lor Bottom Left

/-- The constant `BottomRight`. -/
def BottomRight : Align := Int.lor Bottom Right

/-- The method `Align.LineInt`; `w/2` is the truncated quotient of Go. -/
def Align.LineInt (a : Align) (x w : Int) : Int :=
  let center := (Int.land a Left != Int.land a Right) || (Int.land a Top != Int.land a Bottom)
  let left := (Int.land a Left == Left) || (Int.land a Top == Top)
  if left then x
  else if center then x - Int.tdiv w 2
  else x - w

/-- The method `Align.RectInt`. -/
def Align.RectInt (a : Align) (x y w h : Int) : Int × Int :=
  (Align.LineInt (Int.land a (Int.lor Left Right)) x w,
    Align.LineInt (Int.land a (Int.lor Top Bottom)) y h)

/-! ## mat3.go -/

/-- The type `Matrix3`, an array of nine `float64`. -/
abbrev Matrix3 := Fin 9 → Float64

/-- The variable `Identity3`. -/
def Identity3 : Matrix3
  | 0 => 1 | 1 => 0 | 2 => 0
  | 3 => 0 | 4 => 1 | 5 => 0
  | 6 => 0 | 7 => 0 | 8 => 1

/-- The method `Matrix3.DotMatrix`: the value of `*m` after the call. -/
def Matrix3.DotMatrix (m o : Matrix3) : Matrix3
  | 0 => m 0 * o 0 + m 1 * o 3 + m 3 * o 6
  | 1 => m 0 * o 1 + m 1 * o 4 + m 3 * o 7
  | 2 => m 0 * o 2 + m 1 * o 5 + m 3 * o 8
  | 3 => m 3 * o 0 + m 4 * o 3 + m 5 * o 6
  | 4 => m 3 * o 1 + m 4 * o 4 + m 5 * o 7
  | 5 => m 3 * o 2 + m 4 * o 5 + m 5 * o 8
  | 6 => m 6 * o 0 + m 7 * o 3 + m 7 * o 6
  | 7 => m 6 * o 1 + m 7 * o 4 + m 7 * o 7
  | 8 => m 6 * o 2 + m 7 * o 5 + m 7 * o 8

/-! ## Closed forms of the loops and predicates of the statements -/

/-- The edge values `w0, w1, w2` of chunk `c` at its pixel in column `a` and row `b`:
the chunk origin values stepped `b` times in `y` and `a` times in `x`. -/
def TriangleChunk.edgeAt (c : TriangleChunk) (b a : Nat) : Float64 × Float64 × Float64 :=
  (c.W0o + b * c.B12 + a * c.A12, c.W1o + b * c.B20 + a * c.A20, c.W2o + b * c.B01 + a * c.A01)

/-- The shader invocation of chunk `c` for its pixel in column `a` and row `b`, in closed form. -/
def TriangleChunk.optsAt (c : TriangleChunk) (b a : Nat) : TriangleShaderOpts :=
  { toTriangleRasterStatic := c.toTriangleRasterStatic,
    X := c.Xo + a, Y := c.Yo + b,
    W0 := (c.edgeAt b a).1 * c.InvArea, W1 := (c.edgeAt b a).2.1 * c.InvArea,
    W2 := (c.edgeAt b a).2.2 * c.InvArea,
    BufferOffset := c.BufferOffset + b * c.BufferWidth + a }

/-- The shader invocations of chunk `c`, in closed form. -/
def TriangleChunk.calls (c : TriangleChunk) : List TriangleShaderOpts :=
  (List.range ⌈c.Height⌉₊).flatMap fun b => (List.range ⌈c.Width⌉₊).flatMap fun a =>
    if (c.edgeAt b a).1 ≥ 0 ∧ (c.edgeAt b a).2.1 ≥ 0 ∧ (c.edgeAt b a).2.2 ≥ 0 then [c.optsAt b a]
    else []

/-- The chunk of `DrawTriangle` in chunk row `j` and chunk column `i`, in closed form. -/
def TriangleInfo.chunkAt (ti : TriangleInfo) (chunkSize : Int) (j i : Nat) : TriangleChunk :=
  { toTriangleRasterStatic := ti.static,
    Xo := ti.clip.1 + i * (chunkSize : Float64),
    Yo := ti.clip.2.1 + j * (chunkSize : Float64),
    W0o := edgeFunc ti.X1 ti.Y1 ti.X2 ti.Y2 ti.clip.1 ti.clip.2.1 - ti.bias.1 +
      j * (ti.static.B12 * (chunkSize : Float64)) + i * (ti.static.A12 * (chunkSize : Float64)),
    W1o := edgeFunc ti.X2 ti.Y2 ti.X0 ti.Y0 ti.clip.1 ti.clip.2.1 - ti.bias.2.1 +
      j * (ti.static.B20 * (chunkSize : Float64)) + i * (ti.static.A20 * (chunkSize : Float64)),
    W2o := edgeFunc ti.X0 ti.Y0 ti.X1 ti.Y1 ti.clip.1 ti.clip.2.1 - ti.bias.2.2 +
      j * (ti.static.B01 * (chunkSize : Float64)) + i * (ti.static.A01 * (chunkSize : Float64)),
    BufferOffset := toInt ti.clip.1 + toInt ti.clip.2.1 * ti.BufferWidth +
      j * (ti.BufferWidth * chunkSize) + i * chunkSize,
    Width := if ti.clip.2.2.1 - (ti.clip.1 + i * (chunkSize : Float64)) > (chunkSize : Float64)
      then (chunkSize : Float64) else ti.clip.2.2.1 - (ti.clip.1 + i * (chunkSize : Float64)),
    Height := if ti.clip.2.2.2 - (ti.clip.2.1 + j * (chunkSize : Float64)) > (chunkSize : Float64)
      then (chunkSize : Float64) else ti.clip.2.2.2 - (ti.clip.2.1 + j * (chunkSize : Float64)) }

/-- The chunks of `DrawTriangle` with their shader invocations, in closed form. -/
def TriangleInfo.chunks (ti : TriangleInfo) (chunkSize : Int) :
    List (TriangleChunk × List TriangleShaderOpts) :=
  (List.range (tileCount ti.clip.2.1 ti.clip.2.2.2 chunkSize)).flatMap fun j =>
    (List.range (tileCount ti.clip.1 ti.clip.2.2.1 chunkSize)).flatMap fun i =>
      [(ti.chunkAt chunkSize j i, (ti.chunkAt chunkSize j i).calls)]

/-- The pixel `(X, Y)` has integer coordinates inside the clip bounds of `ti`,
the upper bounds excluded. -/
def TriangleInfo.inClip (ti : TriangleInfo) (X Y : Float64) : Prop :=
  Floor X = X ∧ Floor Y = Y ∧ ti.clip.1 ≤ X ∧ X < ti.clip.2.2.1 ∧
    ti.clip.2.1 ≤ Y ∧ Y < ti.clip.2.2.2

instance (ti : TriangleInfo) (X Y : Float64) : Decidable (ti.inClip X Y) := by
  unfold TriangleInfo.inClip; infer_instance

/-- The three edge functions of `ti` at `(X, Y)`, each less its fill-rule correction. -/
def TriangleInfo.edges (ti : TriangleInfo) (X Y : Float64) : Float64 × Float64 × Float64 :=
  (edgeFunc ti.X1 ti.Y1 ti.X2 ti.Y2 X Y - ti.bias.1,
    edgeFunc ti.X2 ti.Y2 ti.X0 ti.Y0 X Y - ti.bias.2.1,
    edgeFunc ti.X0 ti.Y0 ti.X1 ti.Y1 X Y - ti.bias.2.2)

/-- A fuel that is enough for `DrawTriangle` on `ti`. -/
def triFuel (ti : TriangleInfo) : Nat :=
  let r := ti.normalize
  let cs := shl1 r.ChunkBits
  max (tileCount r.clip.1 r.clip.2.2.1 cs) (max (tileCount r.clip.2.1 r.clip.2.2.2 cs) cs.toNat) + 1

/-- The shader invocation of chunk `c` for its pixel in column `a` and row `b`, in closed form. -/
def RectangleChunk.optsAt (c : RectangleChunk) (b a : Nat) : RectangleShaderOpts :=
  { toRectangleRasterStatic := c.toRectangleRasterStatic,
    X := c.Xo + a, Y := c.Yo + b, Px := c.Pxo + a * c.Pxs, Py := c.Pyo + b * c.Pys,
    BufferOffset := c.BufferOffset + b * c.BufferWidth + a }

/-- The shader invocations of chunk `c`, in closed form. -/
def RectangleChunk.calls (c : RectangleChunk) : List RectangleShaderOpts :=
  (List.range ⌈c.Height⌉₊).flatMap fun b => (List.range ⌈c.Width⌉₊).flatMap fun a => [c.optsAt b a]

/-- The chunk of `DrawRectangle` in chunk row `j` and chunk column `i`, in closed form. -/
def RectangleInfo.chunkAt (ri : RectangleInfo) (chunkSize : Int) (j i : Nat) : RectangleChunk :=
  { toRectangleRasterInput := ri.toRectangleRasterInput,
    Pxs := 1 / Floor ri.W, Pys := 1 / Floor ri.H,
    Xo := ri.clip.1 + i * (chunkSize : Float64),
    Yo := ri.clip.2.1 + j * (chunkSize : Float64),
    Pxo := 0 + i * ((chunkSize : Float64) * (1 / Floor ri.W)),
    Pyo := 0 + j * ((chunkSize : Float64) * (1 / Floor ri.H)),
    BufferOffset := toInt ri.clip.1 + toInt ri.clip.2.1 * ri.BufferWidth +
      j * (ri.BufferWidth * chunkSize) + i * chunkSize,
    Width := if ri.clip.2.2.1 - (ri.clip.1 + i * (chunkSize : Float64)) > (chunkSize : Float64)
      then (chunkSize : Float64) else ri.clip.2.2.1 - (ri.clip.1 + i * (chunkSize : Float64)),
    Height := if ri.clip.2.2.2 - (ri.clip.2.1 + j * (chunkSize : Float64)) > (chunkSize : Float64)
      then (chunkSize : Float64) else ri.clip.2.2.2 - (ri.clip.2.1 + j * (chunkSize : Float64)) }

/-- The chunks of `DrawRectangle` with their shader invocations, in closed form. -/
def RectangleInfo.chunks (ri : RectangleInfo) (chunkSize : Int) :
    List (RectangleChunk × List RectangleShaderOpts) :=
  (List.range (tileCount ri.clip.2.1 ri.clip.2.2.2 chunkSize)).flatMap fun j =>
    (List.range (tileCount ri.clip.1 ri.clip.2.2.1 chunkSize)).flatMap fun i =>
      [(ri.chunkAt chunkSize j i, (ri.chunkAt chunkSize j i).calls)]

/-- The list built by four nested counting loops: chunk rows `j`, chunk columns
`i`, pixel rows `b` of a chunk and pixel columns `a` of a chunk. -/
def gridList {β : Type} (ny nx : Nat) (h w : Nat → Nat) (g : Nat → Nat → Nat → Nat → List β) :
    List β :=
  (List.range ny).flatMap fun j => (List.range nx).flatMap fun i =>
    (List.range (h j)).flatMap fun b => (List.range (w i)).flatMap fun a => g j i b a

/-- The width (or height) in pixels of the chunk number `i` of the tiling of `[lo, hi)`. -/
def tileLen (lo hi c : Float64) (i : Nat) : Nat :=
  ⌈(if hi - (lo + i * c) > c then c else hi - (lo + i * c))⌉₊

/-- The pixel `(X, Y)` has integer coordinates inside the clip bounds of `ri`,
the upper bounds excluded. -/
def RectangleInfo.inClip (ri : RectangleInfo) (X Y : Float64) : Prop :=
  Floor X = X ∧ Floor Y = Y ∧ ri.clip.1 ≤ X ∧ X < ri.clip.2.2.1 ∧
    ri.clip.2.1 ≤ Y ∧ Y < ri.clip.2.2.2

instance (ri : RectangleInfo) (X Y : Float64) : Decidable (ri.inClip X Y) := by
  unfold RectangleInfo.inClip; infer_instance

/-- The pixel `(X, Y)` has integer coordinates inside the pixel box of the
rectangle `ri`: the columns `x .. x+w-1` and the rows `y .. y+h-1` for the
rounded origin `(x, y)` and the floored size `(w, h)` that `DrawRectangle` computes. -/
def RectangleInfo.inBox (ri : RectangleInfo) (X Y : Float64) : Prop :=
  Floor X = X ∧ Floor Y = Y ∧ Floor (ri.X + sm) ≤ X ∧ X < Floor (ri.X + sm) + Floor ri.W ∧
    Floor (ri.Y + sm) ≤ Y ∧ Y < Floor (ri.Y + sm) + Floor ri.H

instance (ri : RectangleInfo) (X Y : Float64) : Decidable (ri.inBox X Y) := by
  unfold RectangleInfo.inBox; infer_instance

/-- A fuel that is enough for `DrawRectangle` on `ri`. -/
def rectFuel (ri : RectangleInfo) : Nat :=
  let r := ri.normalize
  let cs := shl1 r.ChunkBits
  max (tileCount r.clip.1 r.clip.2.2.1 cs) (max (tileCount r.clip.2.1 r.clip.2.2.2 cs) cs.toNat) + 1

/-- The number of entries of `l` equal to the pixel `(X, Y)`. -/
def pixelCount (l : List (Float64 × Float64)) (X Y : Float64) : Nat :=
  l.countP (fun p => decide (p = (X, Y)))

/-- The value `v` clamped to `[lo, hi]`, as the specification words it. -/
def clamp (v lo hi : Float64) : Float64 := max lo (min v hi)

/-- The intensity that the specification gives for the sources `srcs`: the
offsets and scales of all of them are summed from `(MinOffset, MinScale)`,
each sum is clamped once, and the result is `(val/255 + offset) * scale`. -/
def LightSet.lightSpec (l : LightSet) (srcs : List LightSource) (val : Nat) (posx posy : Int) :
    Float64 :=
  ((val : Float64) / 255 +
      clamp (l.MinOffset + (srcs.map fun s => (s.OffsetScale posx posy).1).sum)
        l.MinOffset l.MaxOffset) *
    clamp (l.MinScale + (srcs.map fun s => (s.OffsetScale posx posy).2).sum)
      l.MinScale l.MaxScale

/-- A light source that answers `(o, s)` at every position. -/
def constSource (o s : Float64) (alive : Bool) : LightSource :=
  { OffsetScale := fun _ _ => (o, s), Alive := alive }

/-- A light set with offset bounds `[0, 1]` and scale bounds `[0, 10]`. -/
def lightSetOf (srcs : List LightSource) : LightSet :=
  { Sources := srcs, MinScale := 0, MaxScale := 10, MinOffset := 0, MaxOffset := 1 }

/-- The vertices of `ti` are the integer points `(x0, y0)`, `(x1, y1)`, `(x2, y2)`. -/
def TriangleInfo.hasVertices (ti : TriangleInfo) (x0 y0 x1 y1 x2 y2 : Int) : Prop :=
  ti.X0 = x0 ∧ ti.Y0 = y0 ∧ ti.X1 = x1 ∧ ti.Y1 = y1 ∧ ti.X2 = x2 ∧ ti.Y2 = y2

instance (ti : TriangleInfo) (x0 y0 x1 y1 x2 y2 : Int) :
    Decidable (ti.hasVertices x0 y0 x1 y1 x2 y2) := by
  unfold TriangleInfo.hasVertices; infer_instance

/-- The call passes the nil checks of `DrawTriangle` and has a chunk size
`2^ChunkBits` that fits an `int`. -/
def TriangleInfo.wellFormed (ti : TriangleInfo) : Prop :=
  ti.Buffer.isSome = true ∧ ti.HasShader = true ∧ ti.HasLights = true ∧
    ti.HasIndexizer = true ∧ 0 ≤ ti.ChunkBits ∧ ti.ChunkBits ≤ 62

instance (ti : TriangleInfo) : Decidable ti.wellFormed := by
  unfold TriangleInfo.wellFormed; infer_instance

/-- The call `DrawTriangle fuel ti` returns and has invoked the shader for the pixel `(X, Y)`. -/
def triShades (fuel : Nat) (ti : TriangleInfo) (X Y : Float64) : Prop :=
  ∃ res, DrawTriangle fuel ti = .returned res ∧
    (X, Y) ∈ (triCalls res).map TriangleShaderOpts.pixel

/-- The triangle `(2,2), (4,4), (0,3)` drawn into an 8x8 buffer. -/
def edgeTriA : TriangleInfo := triCall 8 8 0 2 2 4 4 0 3

/-- The triangle `(4,4), (2,2), (6,3)` drawn into an 8x8 buffer; it shares the
edge between `(2,2)` and `(4,4)` with `edgeTriA`. -/
def edgeTriB : TriangleInfo := triCall 8 8 0 4 4 2 2 6 3

/-- The value of a `switch` whose cases `x ≥ t` are tried in order, with their results. -/
def switchGe (default : Nat) : List (Float64 × Nat) → Float64 → Nat
  | [], _ => default
  | (t, v) :: rest, x => if x ≥ t then v else switchGe default rest x


/-- A palette of `n` colors whose `k`-th triplet (from 0) is `(k, k, k)`. -/
def rampPalette (n : Nat) : Palette := (List.range (3 * n)).map (fun j => j / 3)

/-- The index into `iim.Pixels` of the texel that the closure of `RectShaderIndexed` samples. -/
def rectTexelIndex (iim : IndexedImage) (tx0 ty0 tx1 ty1 : Int) (o : RectangleShaderOpts) : Int :=
  let tw : Float64 := ((tx1 - tx0 : Int) : Float64) + 1
  let th : Float64 := ((ty1 - ty0 : Int) : Float64) + 1
  let cx := toInt (tw * o.Px) + tx0
  let cy := toInt (th * o.Py) + ty0
  cx + cy * iim.Width

/-- A row of cells of width `w` that starts at `x` in an atlas of width `W` has
`c` cells: `c` is the least `n ≥ 1` with `x + n * w ≥ W`. -/
def rowCells (W w x : Int) (c : Nat) : Prop :=
  1 ≤ c ∧ W ≤ x + c * w ∧ ∀ n : Nat, 1 ≤ n → n < c → x + n * w < W

/-- An atlas of the given size without pixel data. -/
def blankAtlas (w h : Int) : IndexedImage := { Width := w, Height := h, Pixels := [], Colors := 255 }

/-- A sprite-row definition with 16x16 cells, origin `(0, 0)`, at the given offsets. -/
def row16 (xoffs yoffs : Int) (names : List String) : spritesYaml :=
  { Width := 16, Height := 16, XOffs := xoffs, YOffs := yoffs, XOrig := 0, YOrig := 0,
    Names := names }

/-- The sprite at `(x, y)` of size `w` x `h` in `atl`, with origin `(0, 0)`. -/
def spriteAt (atl : IndexedImage) (x y w h : Int) : Sprite :=
  { Atlas := atl, X := x, Y := y, Width := w, Height := h, XOrigin := 0, YOrigin := 0 }

/-- A rectangle call with a non-nil buffer and shader, and nil lights and indexizer. -/
def rectCallNoLights (bw bh bits : Int) (x y w h : Float64) : RectangleInfo :=
  { Buffer := some [], BufferWidth := bw, BufferHeight := bh, HasShader := true,
    ChunkBits := bits, HasLights := false, HasIndexizer := false, X := x, Y := y, W := w, H := h }

/-- The entry `(i, j)` of the matrix product `m·o`, as the statement words it:
the sum over `k` of `m[3i+k] * o[3k+j]`. -/
def Matrix3.productEntry (m o : Matrix3) (i j : Fin 3) : Float64 :=
  ∑ k : Fin 3, m ⟨3 * i.val + k.val, by omega⟩ * o ⟨3 * k.val + j.val, by omega⟩

/-- An image of one opaque black pixel. -/
def blackPixel : Image := { MaxX := 1, MaxY := 1, At := fun _ _ => (0, 0, 0, 0xffff) }

/-- The texel `(cx, cy)` that the closure of `RectShaderIndexed` samples. -/
def rectTexel (tx0 ty0 tx1 ty1 : Int) (o : RectangleShaderOpts) : Int × Int :=
  let tw : Float64 := ((tx1 - tx0 : Int) : Float64) + 1
  let th : Float64 := ((ty1 - ty0 : Int) : Float64) + 1
  (toInt (tw * o.Px) + tx0, toInt (th * o.Py) + ty0)

/-- A call of `DrawSprite` or of `DrawSpriteAdvanced`. -/
inductive SpriteCall where
  /-- The call `DrawSprite(name, x, y)`. -/
  | sprite (name : String) (x y : Float64)
  /-- The call `DrawSpriteAdvanced(o)`. -/
  | advanced (o : DrawSpriteOpts)

/-- The sprite name of a call. -/
def SpriteCall.Name : SpriteCall → String
  | .sprite name _ _ => name
  | .advanced o => o.Name

/-- One call on the display `d`. -/
def Display.call (d : Display) (fuel : Nat) : SpriteCall → Outcome (Display × List String)
  | .sprite name x y => d.DrawSprite fuel name x y
  | .advanced o => d.DrawSpriteAdvanced fuel o

/-- A sequence of calls on the display `d`: the display after them and all the
lines they write to the log. -/
def Display.callAll (d : Display) (fuel : Nat) : List SpriteCall → Outcome (Display × List String)
  | [] => .returned (d, [])
  | c :: cs =>
    match d.call fuel c with
    | .returned r =>
      match Display.callAll r.1 fuel cs with
      | .returned r2 => .returned (r2.1, r.2 ++ r2.2)
      | .panicked msg => .panicked msg
      | .outOfFuel => .outOfFuel
    | .panicked msg => .panicked msg
    | .outOfFuel => .outOfFuel

/-- The names that `ReportSprite` has reported on `d`. -/
def Display.reported (d : Display) : List String :=
  match d.reportedSprite with
  | none => []
  | some m => m

/-- The line that `ReportSprite` logs for `name`. -/
def reportLine (name : String) : String :=
  "Error: sprite " ++ name ++ " is not loaded. Sprite name format is \x27atlas.sprite\x27."

/-- A 4x4 atlas whose pixels are all 1. -/
def spriteAtlas : IndexedImage :=
  { Width := 4, Height := 4, Pixels := List.replicate 16 1, Colors := 255 }

/-- The 2x2 cell at `(0, 0)` of `spriteAtlas`. -/
def spriteA : Sprite := spriteAt spriteAtlas 0 0 2 2

/-- Options that draw the whole sprite `name` at `(dx, dy)` with the size `dw` x `dh`. -/
def spriteOpts (name : String) (dx dy dw dh : Float64) : DrawSpriteOpts :=
  { Name := name, SX := 0, SY := 0, SW := 0, SH := 0, DX := dx, DY := dy, DH := dh, DW := dw }

/-- A display with an 8x8 screen and the sprite `atl.a`, which is `spriteA`. -/
def spriteDisplay : Display :=
  { Screen := { Width := 8, Height := 8, Pixels := List.replicate 64 0, Colors := 4 },
    RGBA := [], Palette := [], Atlases := [],
    Sprites := [("atl.a", spriteA)],
    Lights := some fun val _ _ => .ok ((val : Float64) / 255),
    Indexizer := some Bits2.Indexize, reportedSprite := none }

/-! ## lights.go with NaN and infinite values -/

/-- A `float64` that may be NaN or infinite.  A finite value is a rational, and
the sum and the product of finite values are the exact ones; negative zero is
not told apart from zero, which no operation of `LightSet.Light` does either. -/
inductive Float64N where
  /-- The value NaN. -/
  | nan
  /-- The value `-Inf` (`negative = true`) or `+Inf`. -/
  | inf (negative : Bool)
  /-- The finite value `q`. -/
  | num (q : ℚ)
deriving DecidableEq

/-- The sum `a + b`. -/
def Float64N.add : Float64N → Float64N → Float64N
  | .nan, _ => .nan
  | _, .nan => .nan
  | .inf a, .inf b => if a = b then .inf a else .nan
  | .inf a, .num _ => .inf a
  | .num _, .inf b => .inf b
  | .num p, .num q => .num (p + q)

/-- The product `a * b`. -/
def Float64N.mul : Float64N → Float64N → Float64N
  | .nan, _ => .nan
  | _, .nan => .nan
  | .inf a, .inf b => .inf (a != b)
  | .inf a, .num q => if q = 0 then .nan else .inf (a != decide (q < 0))
  | .num p, .inf b => if p = 0 then .nan else .inf (decide (p < 0) != b)
  | .num p, .num q => .num (p * q)

/-- The comparison `a < b`, false when one side is NaN. -/
def Float64N.lt : Float64N → Float64N → Bool
  | .nan, _ => false
  | _, .nan => false
  | .inf a, .inf b => a && !b
  | .inf a, .num _ => a
  | .num _, .inf b => !b
  | .num p, .num q => decide (p < q)

/-- The comparison `a <= b`, false when one side is NaN. -/
def Float64N.le : Float64N → Float64N → Bool
  | .nan, _ => false
  | _, .nan => false
  | .inf a, .inf b => a || !b
  | .inf a, .num _ => a
  | .num _, .inf b => !b
  | .num p, .num q => decide (p ≤ q)

namespace WithNaN

/-- The interface `LightSource`, with offsets and scales that may be NaN or infinite. -/
structure LightSource where
  OffsetScale : Int → Int → Float64N × Float64N
  Alive : Bool

/-- The struct `LightSet`. -/
structure LightSet where
  Sources : List LightSource
  MinScale : Float64N
  MaxScale : Float64N
  MinOffset : Float64N
  MaxOffset : Float64N

/-- The loop of `LightSet.Light` from index `i` on: the final `Sources`, `offs`
and `scale`, or the panic of an index out of range. -/
def LightSet.Light.loop (posx posy : Int) (i : Nat) (srcs : List LightSource)
    (offs scale : Float64N) : Except String (List LightSource × Float64N × Float64N) :=
  if h : i < srcs.length then
    have hn : srcs.length - 1 < srcs.length := by omega
    let srcs1 :=
      if !(srcs[i]).Alive then (srcs.set i (srcs[srcs.length - 1])).take (srcs.length - 1)
      else srcs
    if h1 : i < srcs1.length then
      let os := (srcs1[i]).OffsetScale posx posy
      LightSet.Light.loop posx posy (i + 1) srcs1 (offs.add os.1) (scale.add os.2)
    else .error "index out of range"
  else .ok (srcs, offs, scale)
termination_by srcs.length - i
decreasing_by
  simp only [srcs1] at h1 ⊢
  cases hA : (srcs[i]).Alive <;> simp [hA] at h1 ⊢ <;> omega

/-- The method `LightSet.Light`: the intensity and the light set after the call. -/
def LightSet.Light (l : LightSet) (val : Nat) (posx posy : Int) :
    Except String (Float64N × LightSet) :=
  match LightSet.Light.loop posx posy 0 l.Sources l.MinOffset l.MinScale with
  | .error e => .error e
  | .ok (srcs, offs, scale) =>
    let offs := if l.MaxOffset.lt offs then l.MaxOffset
      else if offs.lt l.MinOffset then l.MinOffset else offs
    let scale := if l.MaxScale.lt scale then l.MaxScale
      else if scale.lt l.MinScale then l.MinScale else scale
    .ok (((Float64N.num ((val : ℚ) / 255)).add offs).mul scale, { l with Sources := srcs })

/-- A source that answers the same offset and scale at every position. -/
def constSource (o s : Float64N) (alive : Bool) : LightSource :=
  { OffsetScale := fun _ _ => (o, s), Alive := alive }

/-- A light set with the bounds `[0, 1]` for the offset and for the scale. -/
def lightSetOf (srcs : List LightSource) : LightSet :=
  { Sources := srcs, MinScale := .num 0, MaxScale := .num 1, MinOffset := .num 0,
    MaxOffset := .num 1 }

end WithNaN

/-! ## triangle.go in binary64 arithmetic -/

/-- The `float64` nearest to the real number `q`, ties to the even significand:
the rounding that every `float64` operation applies to its exact result.
Around `q` the `float64` values are the multiples of `2^(e - 52)`, where
`2^e ≤ |q| < 2^(e + 1)` and `e` is at least `-1022`.  A result of magnitude
`2^1024` or more, an infinity in the code, is not modelled. -/
def round64 (q : ℚ) : ℚ :=
  let u : ℚ := 2 ^ (max (Int.log 2 |q|) (-1022) - 52)
  let t := q / u
  let f := ⌊t⌋
  if t - f < 1 / 2 then f * u
  else if 1 / 2 < t - f then (f + 1) * u
  else if f % 2 = 0 then f * u else (f + 1) * u

namespace Binary64

/-- The `float64` sum `a + b`. -/
def add (a b : Float64) : Float64 := round64 (a + b)

/-- The `float64` difference `a - b`. -/
def sub (a b : Float64) : Float64 := round64 (a - b)

/-- The `float64` product `a * b`. -/
def mul (a b : Float64) : Float64 := round64 (a * b)

/-- The `float64` quotient `a / b`. -/
def div (a b : Float64) : Float64 := round64 (a / b)

/-- The conversion `float64(n)` of an `int`. -/
def ofInt (n : Int) : Float64 := round64 n

/-- The function `edgeFunc`. -/
def edgeFunc (ax ay bx by_ cx cy : Float64) : Float64 :=
  sub (mul (sub bx ax) (sub cy ay)) (mul (sub by_ ay) (sub cx ax))

/-- The method `TriangleChunk.Process`: the shader invocations of one chunk, in order. -/
def TriangleChunk.Process (fuel : Nat) (c : TriangleChunk) : Outcome (List TriangleShaderOpts) :=
  let maxX := add c.Xo c.Width
  let maxY := add c.Yo c.Height
  forLoop (fun r : TriRowState => decide (r.y < maxY))
    (fun r =>
      forLoop (fun s : TriColState => decide (s.x < maxX))
        (fun s =>
          if s.w0 ≥ 0 ∧ s.w1 ≥ 0 ∧ s.w2 ≥ 0 then
            .returned [{ toTriangleRasterStatic := c.toTriangleRasterStatic,
                         X := s.x, Y := r.y, W0 := mul s.w0 c.InvArea,
                         W1 := mul s.w1 c.InvArea, W2 := mul s.w2 c.InvArea,
                         BufferOffset := s.boffs }]
          else .returned [])
        (fun s => { x := add s.x 1, w0 := add s.w0 c.A12, w1 := add s.w1 c.A20,
                    w2 := add s.w2 c.A01, boffs := s.boffs + 1 })
        fuel { x := c.Xo, w0 := r.w0o, w1 := r.w1o, w2 := r.w2o, boffs := r.boffso })
    (fun r => { y := add r.y 1, w0o := add r.w0o c.B12, w1o := add r.w1o c.B20,
                w2o := add r.w2o c.B01, boffso := r.boffso + c.BufferWidth })
    fuel { y := c.Yo, w0o := c.W0o, w1o := c.W1o, w2o := c.W2o, boffso := c.BufferOffset }

/-- The clip bounds `(minX, minY, maxX, maxY)` that `DrawTriangle` computes. -/
def TriangleInfo.clip (ti : TriangleInfo) : Float64 × Float64 × Float64 × Float64 :=
  let x0 := Floor (add ti.X0 sm)
  let y0 := Floor (add ti.Y0 sm)
  let x1 := Floor (add ti.X1 sm)
  let y1 := Floor (add ti.Y1 sm)
  let x2 := Floor (add ti.X2 sm)
  let y2 := Floor (add ti.Y2 sm)
  let minX := min x0 (min x1 x2)
  let minY := min y0 (min y1 y2)
  let maxX := max x0 (max x1 x2)
  let maxY := max y0 (max y1 y2)
  (max minX 0, max minY 0, min maxX (ofInt (ti.BufferWidth - 1)),
    min maxY (ofInt (ti.BufferHeight - 1)))

/-- The static part `rs` of `DrawTriangle` once `InvArea` is set. -/
def TriangleInfo.static (ti : TriangleInfo) : TriangleRasterStatic :=
  { toTriangleRasterInput := ti.toTriangleRasterInput,
    A01 := sub ti.Y0 ti.Y1, B01 := sub ti.X1 ti.X0,
    A12 := sub ti.Y1 ti.Y2, B12 := sub ti.X2 ti.X1,
    A20 := sub ti.Y2 ti.Y0, B20 := sub ti.X0 ti.X2,
    InvArea := div 1 (edgeFunc ti.X0 ti.Y0 ti.X1 ti.Y1 ti.X2 ti.Y2) }

/-- The values of `w0o`, `w1o` and `w2o` when the chunk loops of `DrawTriangle`
start: the edge functions at the corner `(minX, minY)` after the statements
`if !isTopLeft(...) { w -= math.SmallestNonzeroFloat64 }`. -/
def TriangleInfo.origin (ti : TriangleInfo) : Float64 × Float64 × Float64 :=
  let x0 := Floor (add ti.X0 sm)
  let y0 := Floor (add ti.Y0 sm)
  let x1 := Floor (add ti.X1 sm)
  let y1 := Floor (add ti.Y1 sm)
  let x2 := Floor (add ti.X2 sm)
  let y2 := Floor (add ti.Y2 sm)
  let minX := (Binary64.TriangleInfo.clip ti).1
  let minY := (Binary64.TriangleInfo.clip ti).2.1
  let w0o := edgeFunc ti.X1 ti.Y1 ti.X2 ti.Y2 minX minY
  let w1o := edgeFunc ti.X2 ti.Y2 ti.X0 ti.Y0 minX minY
  let w2o := edgeFunc ti.X0 ti.Y0 ti.X1 ti.Y1 minX minY
  (if !isTopLeft x1 y1 x2 y2 then subSmallest w0o else w0o,
    if !isTopLeft x2 y2 x0 y0 then subSmallest w1o else w1o,
    if !isTopLeft x0 y0 x1 y1 then subSmallest w2o else w2o)

/-- The two chunk loops of `DrawTriangle` for chunk size `chunkSize`: every
chunk handed to `renderChunk`, with the shader invocations of its `Process`. -/
def TriangleInfo.chunkLoops (fuel : Nat) (ti : TriangleInfo) (chunkSize : Int) :
    Outcome (List (TriangleChunk × List TriangleShaderOpts)) :=
  let rs := Binary64.TriangleInfo.static ti
  let minX := (Binary64.TriangleInfo.clip ti).1
  let minY := (Binary64.TriangleInfo.clip ti).2.1
  let maxX := (Binary64.TriangleInfo.clip ti).2.2.1
  let maxY := (Binary64.TriangleInfo.clip ti).2.2.2
  let chunkSizef : Float64 := ofInt chunkSize
  let w0o := (Binary64.TriangleInfo.origin ti).1
  let w1o := (Binary64.TriangleInfo.origin ti).2.1
  let w2o := (Binary64.TriangleInfo.origin ti).2.2
  let w0xStep := mul rs.A12 chunkSizef
  let w1xStep := mul rs.A20 chunkSizef
  let w2xStep := mul rs.A01 chunkSizef
  let w0yStep := mul rs.B12 chunkSizef
  let w1yStep := mul rs.B20 chunkSizef
  let w2yStep := mul rs.B01 chunkSizef
  let boffso := toInt minX + toInt minY * ti.BufferWidth
  forLoop (fun r : TriRowState => decide (r.y < maxY))
    (fun r =>
      let chunkHeight := if sub maxY r.y > chunkSizef then chunkSizef else sub maxY r.y
      forLoop (fun s : TriColState => decide (s.x < maxX))
        (fun s =>
          let chunk : TriangleChunk :=
            { toTriangleRasterStatic := rs, Xo := s.x, Yo := r.y,
              W0o := s.w0, W1o := s.w1, W2o := s.w2, BufferOffset := s.boffs,
              Width := if sub maxX s.x > chunkSizef then chunkSizef else sub maxX s.x,
              Height := chunkHeight }
          match Binary64.TriangleChunk.Process fuel chunk with
          | .returned calls => .returned [(chunk, calls)]
          | .panicked msg => .panicked msg
          | .outOfFuel => .outOfFuel)
        (fun s => { x := add s.x chunkSizef, w0 := add s.w0 w0xStep, w1 := add s.w1 w1xStep,
                    w2 := add s.w2 w2xStep, boffs := s.boffs + chunkSize })
        fuel { x := minX, w0 := r.w0o, w1 := r.w1o, w2 := r.w2o, boffs := r.boffso })
    (fun r => { y := add r.y chunkSizef, w0o := add r.w0o w0yStep, w1o := add r.w1o w1yStep,
                w2o := add r.w2o w2yStep, boffso := r.boffso + ti.BufferWidth * chunkSize })
    fuel { y := minY, w0o := w0o, w1o := w1o, w2o := w2o, boffso := boffso }

/-- The method `Rasterizer.DrawTriangle`: the chunks of the call in dispatch
order, each with the shader invocations of its `Process`. -/
def DrawTriangle (fuel : Nat) (ti : TriangleInfo) :
    Outcome (List (TriangleChunk × List TriangleShaderOpts)) :=
  if ti.Buffer.isNone then .panicked "Rasterizer.DrawTriangle: buffer is not set"
  else if !ti.HasShader then .panicked "Rasterizer.DrawTriangle: shader is not set"
  else if !ti.HasLights then .panicked "Rasterizer.DrawTriangle: lights is not set"
  else if !ti.HasIndexizer then .panicked "Rasterizer.DrawTriangle: indexizer is not set"
  else
    let ti := ti.normalize
    if ti.ChunkBits < 0 then .panicked "negative shift amount"
    else if edgeFunc ti.X0 ti.Y0 ti.X1 ti.Y1 ti.X2 ti.Y2 = 0 then .returned []
    else Binary64.TriangleInfo.chunkLoops fuel ti (shl1 ti.ChunkBits)

end Binary64

/-- The triangle with the vertices `(0.6, 1.6)`, `(1, 1)`, `(1.4, 0.4)`, each
coordinate the `float64` of the decimal constant, in an 8x8 buffer with the
chunk size `1 << 3`. -/
def sliver : TriangleInfo :=
  triCall 8 8 3 (round64 0.6) (round64 1.6) 1 1 (round64 1.4) (round64 0.4)

/-- The one chunk of the draw call of `sliver`. -/
def sliverChunk : TriangleChunk :=
  { toTriangleRasterStatic := Binary64.TriangleInfo.static sliver, Xo := 1, Yo := 1,
    W0o := 0, W1o := 1 / 2 ^ 54, W2o := 0, BufferOffset := 9, Width := 1, Height := 1 }

/-- The one shader invocation of the draw call of `sliver`. -/
def sliverShade : TriangleShaderOpts :=
  { toTriangleRasterStatic := Binary64.TriangleInfo.static sliver, X := 1, Y := 1,
    W0 := 0, W1 := -1, W2 := 0, BufferOffset := 9 }

/-! ## Lemmas on loops -/

theorem forLoop_returned {σ α : Type} (cond : σ → Bool) (body : σ → Outcome (List α))
    (post : σ → σ) (n : Nat) : ∀ (outs : Nat → List α) (s : σ) (fuel : Nat),
    (∀ k, k < n → cond (post^[k] s) = true) → cond (post^[n] s) = false →
    (∀ k, k < n → body (post^[k] s) = .returned (outs k)) → n < fuel →
    forLoop cond body post fuel s = .returned ((List.range n).flatMap outs) := by
  induction n with
  | zero =>
    intro outs s fuel _ hs _ hf
    obtain ⟨f, rfl⟩ : ∃ f, fuel = f + 1 := ⟨fuel - 1, by omega⟩
    have hs0 : cond s = false := by simpa using hs
    simp [forLoop, hs0]
  | succ n ih =>
    intro outs s fuel hc hs hb hf
    obtain ⟨f, rfl⟩ : ∃ f, fuel = f + 1 := ⟨fuel - 1, by omega⟩
    have hc0 : cond s = true := by simpa using hc 0 (Nat.succ_pos n)
    have hb0 : body s = .returned (outs 0) := by simpa using hb 0 (Nat.succ_pos n)
    have hrec := ih (fun k => outs (k + 1)) (post s) f
      (fun k hk => by simpa [Function.iterate_succ_apply] using hc (k + 1) (by omega))
      (by simpa [Function.iterate_succ_apply] using hs)
      (fun k hk => by simpa [Function.iterate_succ_apply] using hb (k + 1) (by omega))
      (by omega)
    simp [forLoop, hc0, hb0, hrec, List.range_succ_eq_map, List.flatMap_map, Function.comp_def]

theorem forLoop_body_stuck {σ α : Type} (cond : σ → Bool) (body : σ → Outcome (List α))
    (post : σ → σ) (s : σ) (hc : cond s = true) (hb : ∀ out, body s ≠ .returned out)
    (fuel : Nat) (out : List α) : forLoop cond body post fuel s ≠ .returned out := by
  cases fuel with
  | zero => simp [forLoop]
  | succ f =>
    simp only [forLoop, hc, if_true]
    cases h : body s with
    | returned o => exact absurd h (hb o)
    | panicked m => simp
    | outOfFuel => simp

theorem forLoop_cond_stuck {σ α : Type} (cond : σ → Bool) (body : σ → Outcome (List α))
    (post : σ → σ) (fuel : Nat) : ∀ (s : σ), (∀ k, cond (post^[k] s) = true) →
    ∀ out, forLoop cond body post fuel s ≠ .returned out := by
  induction fuel with
  | zero => intro s _ out; simp [forLoop]
  | succ f ih =>
    intro s hc out
    have hc0 : cond s = true := by simpa using hc 0
    have hrec := ih (post s) (fun k => by simpa [Function.iterate_succ_apply] using hc (k + 1))
    simp only [forLoop, hc0, if_true]
    cases h : body s with
    | returned o =>
      cases h2 : forLoop cond body post f (post s) with
      | returned r => exact absurd h2 (hrec r)
      | panicked m => simp
      | outOfFuel => simp
    | panicked m => simp
    | outOfFuel => simp

theorem rectCol_iterate (c : RectangleChunk) (k : Nat) (s : RectColState) :
    (fun s : RectColState => ({ x := s.x + 1, px := s.px + c.Pxs, boffs := s.boffs + 1 } :
      RectColState))^[k] s = { x := s.x + k, px := s.px + k * c.Pxs, boffs := s.boffs + k } := by
  induction k generalizing s with
  | zero => simp
  | succ k ih =>
    rw [Function.iterate_succ_apply, ih]
    simp only [RectColState.mk.injEq]
    push_cast
    refine ⟨by ring, by ring, by ring⟩

theorem rectRow_iterate (c : RectangleChunk) (k : Nat) (r : RectRowState) :
    (fun r : RectRowState =>
      ({ y := r.y + 1, py := r.py + c.Pys,
         BufferOffset := r.BufferOffset + c.BufferWidth } : RectRowState))^[k] r =
    { y := r.y + k, py := r.py + k * c.Pys, BufferOffset := r.BufferOffset + k * c.BufferWidth } := by
  induction k generalizing r with
  | zero => simp
  | succ k ih =>
    rw [Function.iterate_succ_apply, ih]
    simp only [RectRowState.mk.injEq]
    push_cast
    refine ⟨by ring, by ring, by ring⟩

theorem rectProcess_returned (c : RectangleChunk) (fuel : Nat) (hw : ⌈c.Width⌉₊ < fuel)
    (hh : ⌈c.Height⌉₊ < fuel) : c.Process fuel = .returned c.calls := by
  unfold RectangleChunk.Process RectangleChunk.calls
  refine forLoop_returned _ _ _ ⌈c.Height⌉₊ _ _ fuel ?_ ?_ ?_ hh
  · intro k hk
    rw [rectRow_iterate]
    simpa using Nat.lt_ceil.1 hk
  · rw [rectRow_iterate]
    simpa using Nat.le_of_ceil_le (le_refl _)
  · intro k hk
    rw [rectRow_iterate]
    refine forLoop_returned _ _ _ ⌈c.Width⌉₊ _ _ fuel ?_ ?_ ?_ hw
    · intro i hi
      rw [rectCol_iterate]
      simpa using Nat.lt_ceil.1 hi
    · rw [rectCol_iterate]
      simpa using Nat.le_of_ceil_le (le_refl _)
    · intro i hi
      rw [rectCol_iterate]
      simp [RectangleChunk.optsAt]


theorem lt_tileCount (lo hi c : Float64) (hc : 0 < c) (k : Nat) :
    k < tileCount lo hi c ↔ lo + k * c < hi := by
  unfold tileCount
  rw [Nat.lt_ceil, lt_div_iff₀ hc]
  constructor <;> intro h <;> linarith

theorem rectChunkCol_iterate (dx dp : Float64) (db : Int) (k : Nat) (s : RectChunkColState) :
    (fun s : RectChunkColState =>
      ({ x := s.x + dx, px := s.px + dp, boffs := s.boffs + db } : RectChunkColState))^[k] s =
    { x := s.x + k * dx, px := s.px + k * dp, boffs := s.boffs + k * db } := by
  induction k generalizing s with
  | zero => simp
  | succ k ih =>
    rw [Function.iterate_succ_apply, ih]
    simp only [RectChunkColState.mk.injEq]
    push_cast
    refine ⟨by ring, by ring, by ring⟩

theorem rectChunkRow_iterate (dy dp : Float64) (db : Int) (k : Nat) (r : RectChunkRowState) :
    (fun r : RectChunkRowState =>
      ({ y := r.y + dy, py := r.py + dp, boffso := r.boffso + db } : RectChunkRowState))^[k] r =
    { y := r.y + k * dy, py := r.py + k * dp, boffso := r.boffso + k * db } := by
  induction k generalizing r with
  | zero => simp
  | succ k ih =>
    rw [Function.iterate_succ_apply, ih]
    simp only [RectChunkRowState.mk.injEq]
    push_cast
    refine ⟨by ring, by ring, by ring⟩

theorem ceil_min_le (c : Int) (d : Float64) :
    ⌈(if d > (c : Float64) then (c : Float64) else d)⌉₊ ≤ c.toNat := by
  rw [Nat.ceil_le]
  have h1 : (c : Float64) ≤ ((c.toNat : Int) : Float64) := by exact_mod_cast Int.self_le_toNat c
  have h2 : ((c.toNat : Int) : Float64) = (c.toNat : Float64) := by norm_cast
  split_ifs with h
  · linarith
  · push_neg at h; linarith

theorem rectChunkLoops_returned (ri : RectangleInfo) (cs : Int) (hcs : 0 < cs) (fuel : Nat)
    (hx : tileCount ri.clip.1 ri.clip.2.2.1 cs < fuel)
    (hy : tileCount ri.clip.2.1 ri.clip.2.2.2 cs < fuel) (hc : cs.toNat < fuel) :
    ri.chunkLoops fuel cs = .returned (ri.chunks cs) := by
  have hcq : (0 : Float64) < (cs : Float64) := by exact_mod_cast hcs
  unfold RectangleInfo.chunkLoops RectangleInfo.chunks
  refine forLoop_returned _ _ _ _ _ _ fuel ?_ ?_ ?_ hy
  · intro k hk
    rw [rectChunkRow_iterate]
    simpa using (lt_tileCount _ _ _ hcq k).1 hk
  · rw [rectChunkRow_iterate]
    have := (lt_tileCount ri.clip.2.1 ri.clip.2.2.2 cs hcq _).not.1 (lt_irrefl _)
    simpa using this
  · intro k hk
    rw [rectChunkRow_iterate]
    refine forLoop_returned _ _ _ _ _ _ fuel ?_ ?_ ?_ hx
    · intro i hi
      rw [rectChunkCol_iterate]
      simpa using (lt_tileCount _ _ _ hcq i).1 hi
    · rw [rectChunkCol_iterate]
      have := (lt_tileCount ri.clip.1 ri.clip.2.2.1 cs hcq _).not.1 (lt_irrefl _)
      simpa using this
    · intro i hi
      rw [rectChunkCol_iterate]
      simp only []
      rw [rectProcess_returned]
      · rfl
      · exact lt_of_le_of_lt (ceil_min_le cs _) hc
      · exact lt_of_le_of_lt (ceil_min_le cs _) hc


theorem lt_tileLen (c d : Float64) (a : Nat) :
    a < ⌈(if d > c then c else d)⌉₊ ↔ (a : Float64) < c ∧ (a : Float64) < d := by
  rw [Nat.lt_ceil]
  split_ifs with h
  · constructor
    · intro h1; exact ⟨h1, lt_trans h1 h⟩
    · intro h1; exact h1.1
  · push_neg at h
    constructor
    · intro h1; exact ⟨lt_of_lt_of_le h1 h, h1⟩
    · intro h1; exact h1.2

theorem tile_unique (cs : Int) (i a i' a' : Nat) (ha : (a : Int) < cs) (ha' : (a' : Int) < cs)
    (h : (i : Int) * cs + a = i' * cs + a') : i = i' ∧ a = a' := by
  have hi : i = i' := by
    rcases lt_trichotomy i i' with hlt | heq | hgt
    · exfalso
      have : (i : Int) + 1 ≤ i' := by exact_mod_cast hlt
      nlinarith
    · exact heq
    · exfalso
      have : (i' : Int) + 1 ≤ i := by exact_mod_cast hgt
      nlinarith
  subst hi
  refine ⟨rfl, ?_⟩
  have : (a : Int) = a' := by linarith
  exact_mod_cast this

theorem tile_mem (lo hi cs : Int) (hcs : 0 < cs) (X : Float64) :
    (∃ i a : Nat, i < tileCount lo hi cs ∧
      a < ⌈(if (hi : Float64) - (lo + i * (cs : Float64)) > (cs : Float64) then (cs : Float64)
        else (hi : Float64) - (lo + i * (cs : Float64)))⌉₊ ∧
      X = lo + i * (cs : Float64) + a) ↔ ∃ m : Int, X = m ∧ lo ≤ m ∧ m < hi := by
  have hcq : (0 : Float64) < (cs : Float64) := by exact_mod_cast hcs
  constructor
  · rintro ⟨i, a, _, ha, rfl⟩
    rw [lt_tileLen] at ha
    refine ⟨lo + i * cs + a, by push_cast; ring, ?_, ?_⟩
    · have : (0 : Int) ≤ i * cs := by positivity
      omega
    · have h2 := ha.2
      have : ((lo + i * cs + a : Int) : Float64) < (hi : Float64) := by push_cast; linarith
      exact_mod_cast this
  · rintro ⟨m, rfl, h1, h2⟩
    have hd : 0 ≤ m - lo := by omega
    have hq : 0 ≤ (m - lo) / cs := Int.ediv_nonneg hd hcs.le
    have hr : 0 ≤ (m - lo) % cs := Int.emod_nonneg _ hcs.ne'
    have hr2 : (m - lo) % cs < cs := Int.emod_lt_of_pos _ hcs
    have hsum : cs * ((m - lo) / cs) + (m - lo) % cs = m - lo := Int.ediv_add_emod _ _
    have e1 : (((m - lo) / cs).toNat : Int) = (m - lo) / cs := Int.toNat_of_nonneg hq
    have e2 : (((m - lo) % cs).toNat : Int) = (m - lo) % cs := Int.toNat_of_nonneg hr
    have e1q : ((((m - lo) / cs).toNat : Nat) : Float64) = (((m - lo) / cs : Int) : Float64) := by
      exact_mod_cast e1
    have e2q : ((((m - lo) % cs).toNat : Nat) : Float64) = (((m - lo) % cs : Int) : Float64) := by
      exact_mod_cast e2
    have hsumq : (cs : Float64) * (((m - lo) / cs : Int) : Float64) + (((m - lo) % cs : Int) : Float64)
        = (m : Float64) - lo := by exact_mod_cast hsum
    have hrq : (((m - lo) % cs : Int) : Float64) < cs := by exact_mod_cast hr2
    have hr0 : (0 : Float64) ≤ (((m - lo) % cs : Int) : Float64) := by exact_mod_cast hr
    have h2q : (m : Float64) < hi := by exact_mod_cast h2
    refine ⟨((m - lo) / cs).toNat, ((m - lo) % cs).toNat, ?_, ?_, ?_⟩
    · rw [lt_tileCount _ _ _ hcq, e1q]; linarith
    · rw [lt_tileLen, e1q, e2q]
      exact ⟨hrq, by linarith⟩
    · rw [e1q, e2q]; linarith

theorem nodup_map_flatMap_range {β γ : Type} (key : β → γ) (n : Nat) (f : Nat → List β)
    (h1 : ∀ k, k < n → ((f k).map key).Nodup)
    (h2 : ∀ k k' x y, k < n → k' < n → x ∈ f k → y ∈ f k' → key x = key y → k = k') :
    (((List.range n).flatMap f).map key).Nodup := by
  rw [List.map_flatMap, List.nodup_flatMap]
  refine ⟨fun k hk => h1 k (List.mem_range.1 hk), ?_⟩
  refine (List.nodup_range n).pairwise_of_forall_ne ?_
  intro k hk k' hk' hne
  simp only [Function.onFun]
  rw [List.disjoint_left]
  intro p hp hp'
  obtain ⟨x, hx, rfl⟩ := List.mem_map.1 hp
  obtain ⟨y, hy, hxy⟩ := List.mem_map.1 hp'
  exact hne (h2 k k' x y (List.mem_range.1 hk) (List.mem_range.1 hk') hx hy hxy.symm)

theorem mem_gridList {β : Type} (ny nx : Nat) (h w : Nat → Nat)
    (g : Nat → Nat → Nat → Nat → List β) (e : β) :
    e ∈ gridList ny nx h w g ↔
      ∃ j i b a, j < ny ∧ i < nx ∧ b < h j ∧ a < w i ∧ e ∈ g j i b a := by
  simp only [gridList, List.mem_flatMap, List.mem_range]
  constructor
  · rintro ⟨j, hj, i, hi, b, hb, a, ha, he⟩
    exact ⟨j, i, b, a, hj, hi, hb, ha, he⟩
  · rintro ⟨j, i, b, a, hj, hi, hb, ha, he⟩
    exact ⟨j, hj, i, hi, b, hb, a, ha, he⟩

theorem gridList_nodup {β : Type} (key : β → Float64 × Float64) (lox loy hix hiy : Float64)
    (cs : Int) (ny nx : Nat) (g : Nat → Nat → Nat → Nat → List β)
    (hkey : ∀ j i b a e, e ∈ g j i b a →
      key e = (lox + i * (cs : Float64) + a, loy + j * (cs : Float64) + b))
    (hleaf : ∀ j i b a, ((g j i b a).map key).Nodup) :
    ((gridList ny nx (tileLen loy hiy cs) (tileLen lox hix cs) g).map key).Nodup := by
  have huniq : ∀ (i a i' a' : Nat) (lo hi : Float64), a < tileLen lo hi cs i →
      a' < tileLen lo hi cs i' →
      lo + i * (cs : Float64) + a = lo + i' * (cs : Float64) + a' → i = i' ∧ a = a' := by
    intro i a i' a' lo hi ha ha' h
    have h1 := ((lt_tileLen _ _ _).1 ha).1
    have h2 := ((lt_tileLen _ _ _).1 ha').1
    refine tile_unique cs i a i' a' (by exact_mod_cast h1) (by exact_mod_cast h2) ?_
    have : (((i : Int) * cs + a : Int) : Float64) = ((i' * cs + a' : Int) : Float64) := by
      push_cast; linarith
    exact_mod_cast this
  unfold gridList
  refine nodup_map_flatMap_range key _ _ ?_ ?_
  · intro j _
    refine nodup_map_flatMap_range key _ _ ?_ ?_
    · intro i _
      refine nodup_map_flatMap_range key _ _ ?_ ?_
      · intro b _
        refine nodup_map_flatMap_range key _ _ ?_ ?_
        · intro a _
          exact hleaf j i b a
        · intro a a' x y _ _ hx hy hxy
          rw [hkey _ _ _ _ _ hx, hkey _ _ _ _ _ hy] at hxy
          have := (Prod.mk.injEq _ _ _ _ ▸ hxy : _ ∧ _).1
          have h3 : (a : Float64) = a' := by linarith
          exact_mod_cast h3
      · intro b b' x y _ _ hx hy hxy
        simp only [List.mem_flatMap, List.mem_range] at hx hy
        obtain ⟨a, _, hx⟩ := hx
        obtain ⟨a', _, hy⟩ := hy
        rw [hkey _ _ _ _ _ hx, hkey _ _ _ _ _ hy] at hxy
        have := (Prod.mk.injEq _ _ _ _ ▸ hxy : _ ∧ _).2
        have h3 : (b : Float64) = b' := by linarith
        exact_mod_cast h3
    · intro i i' x y _ _ hx hy hxy
      simp only [List.mem_flatMap, List.mem_range] at hx hy
      obtain ⟨b, _, a, ha, hx⟩ := hx
      obtain ⟨b', _, a', ha', hy⟩ := hy
      rw [hkey _ _ _ _ _ hx, hkey _ _ _ _ _ hy] at hxy
      have := (Prod.mk.injEq _ _ _ _ ▸ hxy : _ ∧ _).1
      exact (huniq i a i' a' lox hix ha ha' this).1
  · intro j j' x y _ _ hx hy hxy
    simp only [List.mem_flatMap, List.mem_range] at hx hy
    obtain ⟨i, _, b, hb, a, _, hx⟩ := hx
    obtain ⟨i', _, b', hb', a', _, hy⟩ := hy
    rw [hkey _ _ _ _ _ hx, hkey _ _ _ _ _ hy] at hxy
    have := (Prod.mk.injEq _ _ _ _ ▸ hxy : _ ∧ _).2
    exact (huniq j b j' b' loy hiy hb hb' this).1

theorem Floor_eq_iff (X : Float64) : Floor X = X ↔ ∃ m : Int, X = m := by
  unfold Floor
  constructor
  · intro h; exact ⟨⌊X⌋, h.symm⟩
  · rintro ⟨m, rfl⟩; simp

theorem shl1_pos (n : Int) (h0 : 0 ≤ n) (h62 : n ≤ 62) : 0 < shl1 n ∧ shl1 n = 2 ^ n.toNat := by
  have hk : n.toNat ≤ 62 := by omega
  have h1 : (2 : Int) ^ n.toNat ≤ 2 ^ 62 := pow_le_pow_right₀ (by norm_num) hk
  have h2 : (0 : Int) < 2 ^ n.toNat := by positivity
  have h3 : (2 : Int) ^ n.toNat % 2 ^ 64 = 2 ^ n.toNat :=
    Int.emod_eq_of_lt h2.le (lt_of_le_of_lt h1 (by norm_num))
  have h4 : (2 : Int) ^ n.toNat < 2 ^ 63 := lt_of_le_of_lt h1 (by norm_num)
  unfold shl1
  simp only [h3, h4, if_true]
  exact ⟨h2, trivial⟩

theorem rectClip_int (ri : RectangleInfo) : ∃ a b c d : Int,
    ri.clip.1 = a ∧ ri.clip.2.1 = b ∧ ri.clip.2.2.1 = c ∧ ri.clip.2.2.2 = d := by
  refine ⟨max ⌊ri.X + sm⌋ 0, max ⌊ri.Y + sm⌋ 0, min (⌊ri.X + sm⌋ + ⌊ri.W⌋) (ri.BufferWidth - 1),
    min (⌊ri.Y + sm⌋ + ⌊ri.H⌋) (ri.BufferHeight - 1), ?_, ?_, ?_, ?_⟩ <;>
  simp [RectangleInfo.clip, Floor]

theorem rectCalls_chunks (ri : RectangleInfo) (cs : Int) :
    rectCalls (ri.chunks cs) =
      gridList (tileCount ri.clip.2.1 ri.clip.2.2.2 cs) (tileCount ri.clip.1 ri.clip.2.2.1 cs)
        (tileLen ri.clip.2.1 ri.clip.2.2.2 cs) (tileLen ri.clip.1 ri.clip.2.2.1 cs)
        (fun j i b a => [(ri.chunkAt cs j i).optsAt b a]) := by
  simp only [rectCalls, RectangleInfo.chunks, List.flatMap_assoc, List.flatMap_singleton,
    RectangleChunk.calls, gridList]
  rfl

theorem rectChunks_nodup (ri : RectangleInfo) (cs : Int) :
    ((rectCalls (ri.chunks cs)).map RectangleShaderOpts.pixel).Nodup := by
  rw [rectCalls_chunks]
  refine gridList_nodup _ ri.clip.1 ri.clip.2.1 _ _ cs _ _ _ ?_ ?_
  · intro j i b a e he
    rw [List.mem_singleton] at he
    subst he
    rfl
  · intro j i b a
    simp

theorem rectChunks_mem (ri : RectangleInfo) (cs : Int) (hcs : 0 < cs) (X Y : Float64) :
    (X, Y) ∈ (rectCalls (ri.chunks cs)).map RectangleShaderOpts.pixel ↔ ri.inClip X Y := by
  obtain ⟨x0, y0, x1, y1, hx0, hy0, hx1, hy1⟩ := rectClip_int ri
  have hX := tile_mem x0 x1 cs hcs X
  have hY := tile_mem y0 y1 cs hcs Y
  rw [rectCalls_chunks, List.mem_map]
  simp only [mem_gridList, List.mem_singleton, RectangleInfo.inClip, Floor_eq_iff]
  rw [hx0, hy0, hx1, hy1]
  constructor
  · rintro ⟨e, ⟨j, i, b, a, hj, hi, hb, ha, rfl⟩, hpix⟩
    have hpx : ri.clip.1 + i * (cs : Float64) + a = X := congrArg Prod.fst hpix
    have hpy : ri.clip.2.1 + j * (cs : Float64) + b = Y := congrArg Prod.snd hpix
    rw [hx0] at hpx
    rw [hy0] at hpy
    obtain ⟨m, hm, hm1, hm2⟩ := hX.1 ⟨i, a, hi, ha, hpx.symm⟩
    obtain ⟨n, hn, hn1, hn2⟩ := hY.1 ⟨j, b, hj, hb, hpy.symm⟩
    subst hm hn
    exact ⟨⟨m, rfl⟩, ⟨n, rfl⟩, by exact_mod_cast hm1, by exact_mod_cast hm2,
      by exact_mod_cast hn1, by exact_mod_cast hn2⟩
  · rintro ⟨⟨m, rfl⟩, ⟨n, rfl⟩, h1, h2, h3, h4⟩
    obtain ⟨i, a, hi, ha, hxe⟩ := hX.2 ⟨m, rfl, by exact_mod_cast h1, by exact_mod_cast h2⟩
    obtain ⟨j, b, hj, hb, hye⟩ := hY.2 ⟨n, rfl, by exact_mod_cast h3, by exact_mod_cast h4⟩
    refine ⟨_, ⟨j, i, b, a, hj, hi, hb, ha, rfl⟩, ?_⟩
    show (ri.clip.1 + i * (cs : Float64) + a, ri.clip.2.1 + j * (cs : Float64) + b) = _
    rw [hx0, hy0, hxe, hye]

theorem Floor_int_add_sm (n : Int) : Floor ((n : Float64) + sm) = ((n + 1 : Int) : Float64) := by
  unfold Floor sm
  have h : ⌊(n : Float64) + 1⌋ = n + 1 := by
    rw [Int.floor_eq_iff]
    constructor <;> push_cast <;> linarith
  rw [h]

theorem Floor_int (n : Int) : Floor (n : Float64) = n := by
  simp [Floor]

theorem normalize_ChunkBits (ri : RectangleInfo) :
    ri.normalize.ChunkBits = if ri.ChunkBits = 0 then 3 else ri.ChunkBits := by
  dsimp only [RectangleInfo.normalize]
  split_ifs <;> rfl

theorem normalize_W (ri : RectangleInfo) : ri.normalize.W = |ri.W| ∧ ri.normalize.H = |ri.H| := by
  dsimp only [RectangleInfo.normalize]
  constructor
  · split_ifs with h1 h2 h3 h4 h5 h6 h7 <;>
      first
        | exact (abs_of_neg (by assumption)).symm
        | exact (abs_of_nonneg (not_lt.1 (by assumption))).symm
  · split_ifs with h1 h2 h3 h4 h5 h6 h7 <;>
      first
        | exact (abs_of_neg (by assumption)).symm
        | exact (abs_of_nonneg (not_lt.1 (by assumption))).symm

theorem rectClip_empty (ri : RectangleInfo) (h : ri.W = 0 ∨ ri.H = 0) (X Y : Float64) :
    ¬ ri.normalize.inClip X Y := by
  rintro ⟨_, _, h1, h2, h3, h4⟩
  have hx : ri.normalize.clip.1 ≤ ri.normalize.clip.2.2.1 := le_of_lt (lt_of_le_of_lt h1 h2)
  unfold RectangleInfo.clip at h1 h2 h3 h4
  simp only [] at h1 h2 h3 h4
  rcases h with h | h
  · have hw : ri.normalize.W = 0 := by rw [(normalize_W ri).1, h, abs_zero]
    rw [hw] at h2
    have : Floor (0 : Float64) = 0 := by simp [Floor]
    rw [this, add_zero] at h2
    have := lt_of_lt_of_le h2 (min_le_left _ _)
    have := le_max_left (Floor (ri.normalize.X + sm)) 0
    linarith
  · have hw : ri.normalize.H = 0 := by rw [(normalize_W ri).2, h, abs_zero]
    rw [hw] at h4
    have : Floor (0 : Float64) = 0 := by simp [Floor]
    rw [this, add_zero] at h4
    have := lt_of_lt_of_le h4 (min_le_left _ _)
    have := le_max_left (Floor (ri.normalize.Y + sm)) 0
    linarith

theorem DrawRectangle_returned (ri : RectangleInfo) (hbuf : ri.Buffer.isSome = true)
    (hsh : ri.HasShader = true) (h0 : 0 ≤ ri.ChunkBits) (h62 : ri.ChunkBits ≤ 62)
    (hW : ri.W ≠ 0) (hH : ri.H ≠ 0) (fuel : Nat) (hfuel : rectFuel ri ≤ fuel) :
    DrawRectangle fuel ri = .returned (ri.normalize.chunks (shl1 ri.normalize.ChunkBits)) := by
  have hb : 0 ≤ ri.normalize.ChunkBits ∧ ri.normalize.ChunkBits ≤ 62 := by
    rw [normalize_ChunkBits]; split_ifs <;> omega
  have hbn : ri.Buffer.isNone = false := by
    cases hB : ri.Buffer with
    | none => rw [hB] at hbuf; simp at hbuf
    | some b => rfl
  unfold DrawRectangle
  simp only [hbn, hsh, hW, hH, or_self, if_false, Bool.not_true, Bool.false_eq_true,
    not_lt.2 hb.1]
  unfold rectFuel at hfuel
  simp only [] at hfuel
  refine rectChunkLoops_returned _ _ (shl1_pos _ hb.1 hb.2).1 fuel ?_ ?_ ?_
  · have := le_max_left (tileCount ri.normalize.clip.1 ri.normalize.clip.2.2.1
      (shl1 ri.normalize.ChunkBits)) (max (tileCount ri.normalize.clip.2.1 ri.normalize.clip.2.2.2
      (shl1 ri.normalize.ChunkBits)) (shl1 ri.normalize.ChunkBits).toNat)
    omega
  · have := le_max_right (tileCount ri.normalize.clip.1 ri.normalize.clip.2.2.1
      (shl1 ri.normalize.ChunkBits)) (max (tileCount ri.normalize.clip.2.1 ri.normalize.clip.2.2.2
      (shl1 ri.normalize.ChunkBits)) (shl1 ri.normalize.ChunkBits).toNat)
    have := le_max_left (tileCount ri.normalize.clip.2.1 ri.normalize.clip.2.2.2
      (shl1 ri.normalize.ChunkBits)) (shl1 ri.normalize.ChunkBits).toNat
    omega
  · have := le_max_right (tileCount ri.normalize.clip.1 ri.normalize.clip.2.2.1
      (shl1 ri.normalize.ChunkBits)) (max (tileCount ri.normalize.clip.2.1 ri.normalize.clip.2.2.2
      (shl1 ri.normalize.ChunkBits)) (shl1 ri.normalize.ChunkBits).toNat)
    have := le_max_right (tileCount ri.normalize.clip.2.1 ri.normalize.clip.2.2.2
      (shl1 ri.normalize.ChunkBits)) (shl1 ri.normalize.ChunkBits).toNat
    omega

theorem rectChunk_calls_mem (c : RectangleChunk) (X Y : Float64) :
    (X, Y) ∈ c.calls.map RectangleShaderOpts.pixel ↔
      ∃ a b : Nat, X = c.Xo + a ∧ Y = c.Yo + b ∧ (a : Float64) < c.Width ∧
        (b : Float64) < c.Height := by
  simp only [RectangleChunk.calls, List.mem_map, List.mem_flatMap, List.mem_range,
    List.mem_singleton, Nat.lt_ceil]
  constructor
  · rintro ⟨e, ⟨b, hb, a, ha, rfl⟩, hp⟩
    exact ⟨a, b, (congrArg Prod.fst hp).symm, (congrArg Prod.snd hp).symm, ha, hb⟩
  · rintro ⟨a, b, rfl, rfl, ha, hb⟩
    exact ⟨_, ⟨b, hb, a, ha, rfl⟩, rfl⟩

theorem rectChunks_snd (ri : RectangleInfo) (cs : Int)
    (c : RectangleChunk × List RectangleShaderOpts) (hc : c ∈ ri.chunks cs) : c.2 = c.1.calls := by
  simp only [RectangleInfo.chunks, List.mem_flatMap, List.mem_range, List.mem_singleton] at hc
  obtain ⟨j, _, i, _, rfl⟩ := hc
  rfl

theorem pixelCount_eq_zero (l : List (Float64 × Float64)) (X Y : Float64)
    (hm : (X, Y) ∉ l) : pixelCount l X Y = 0 := by
  unfold pixelCount
  rw [List.countP_eq_zero]
  intro p hp
  simp only [decide_eq_true_eq]
  rintro rfl
  exact hm hp

theorem pixelCount_eq_one (l : List (Float64 × Float64)) (X Y : Float64) (hn : l.Nodup)
    (hm : (X, Y) ∈ l) : pixelCount l X Y = 1 := by
  induction l with
  | nil => simp at hm
  | cons a l ih =>
    rw [List.nodup_cons] at hn
    by_cases ha : a = (X, Y)
    · subst ha
      have h0 := pixelCount_eq_zero l X Y hn.1
      unfold pixelCount at h0 ⊢
      rw [List.countP_cons, h0]
      simp
    · have hm2 : (X, Y) ∈ l := by
        rcases List.mem_cons.1 hm with h | h
        · exact absurd h.symm ha
        · exact h
      have h1 := ih hn.2 hm2
      unfold pixelCount at h1 ⊢
      rw [List.countP_cons, h1]
      simp [ha]

theorem normalize_Buffer (ri : RectangleInfo) :
    ri.normalize.BufferWidth = ri.BufferWidth ∧ ri.normalize.BufferHeight = ri.BufferHeight := by
  dsimp only [RectangleInfo.normalize]
  split_ifs <;> exact ⟨rfl, rfl⟩

theorem rect_inClip_iff (ri : RectangleInfo) (X Y : Float64) :
    ri.inClip X Y ↔ ri.inBox X Y ∧ 0 ≤ X ∧ X < ((ri.BufferWidth - 1 : Int) : Float64) ∧
      0 ≤ Y ∧ Y < ((ri.BufferHeight - 1 : Int) : Float64) := by
  simp only [RectangleInfo.inClip, RectangleInfo.inBox, RectangleInfo.clip, max_le_iff,
    lt_min_iff]
  constructor
  · rintro ⟨h1, h2, ⟨h3, h4⟩, ⟨h5, h6⟩, ⟨h7, h8⟩, h9, h10⟩
    exact ⟨⟨h1, h2, h3, h5, h7, h9⟩, h4, h6, h8, h10⟩
  · rintro ⟨⟨h1, h2, h3, h5, h7, h9⟩, h4, h6, h8, h10⟩
    exact ⟨h1, h2, ⟨h3, h4⟩, ⟨h5, h6⟩, ⟨h7, h8⟩, h9, h10⟩

/-- Claim C1, amended to chunk sizes that fit an `int` (`0 ≤ ChunkBits ≤ 62`): a
`DrawRectangle` call with a non-nil buffer and shader returns (with enough
fuel); its chunks have pairwise disjoint pixel lists, no chunk repeats a
pixel, and the pixels of a chunk are those of
`[Xo, Xo + Width) × [Yo, Yo + Height)`.  The shader is invoked exactly once
for every pixel of the rectangle's pixel box that is in the buffer and not
in its last column or last row, and never for a pixel outside the box or
outside the buffer.  (Nothing is said of the pixels of the box in the last
column and in the last row of the buffer.) -/
theorem DrawRectangle_chunks_partition (ri : RectangleInfo) (hbuf : ri.Buffer.isSome = true)
    (hsh : ri.HasShader = true) (h0 : 0 ≤ ri.ChunkBits) (h62 : ri.ChunkBits ≤ 62) :
    ∀ fuel, rectFuel ri ≤ fuel → ∃ res, DrawRectangle fuel ri = .returned res ∧
      res.Pairwise (fun c d => (c.2.map RectangleShaderOpts.pixel).Disjoint
        (d.2.map RectangleShaderOpts.pixel)) ∧
      (∀ c, c ∈ res → (c.2.map RectangleShaderOpts.pixel).Nodup) ∧
      (∀ c, c ∈ res → ∀ X Y, (X, Y) ∈ c.2.map RectangleShaderOpts.pixel ↔
        ∃ a b : Nat, X = c.1.Xo + a ∧ Y = c.1.Yo + b ∧ (a : Float64) < c.1.Width ∧
          (b : Float64) < c.1.Height) ∧
      (∀ X Y, ri.normalize.inBox X Y → 0 ≤ X → X < ((ri.BufferWidth - 1 : Int) : Float64) →
        0 ≤ Y → Y < ((ri.BufferHeight - 1 : Int) : Float64) →
        pixelCount ((rectCalls res).map RectangleShaderOpts.pixel) X Y = 1) ∧
      (∀ X Y, ¬ (ri.normalize.inBox X Y ∧ 0 ≤ X ∧ X ≤ ((ri.BufferWidth - 1 : Int) : Float64) ∧
          0 ≤ Y ∧ Y ≤ ((ri.BufferHeight - 1 : Int) : Float64)) →
        pixelCount ((rectCalls res).map RectangleShaderOpts.pixel) X Y = 0) := by
  intro fuel hfuel
  have hin : ∀ X Y, ri.normalize.inClip X Y ↔ ri.normalize.inBox X Y ∧ 0 ≤ X ∧
      X < ((ri.BufferWidth - 1 : Int) : Float64) ∧ 0 ≤ Y ∧
      Y < ((ri.BufferHeight - 1 : Int) : Float64) := by
    intro X Y
    rw [rect_inClip_iff, (normalize_Buffer ri).1, (normalize_Buffer ri).2]
  by_cases hz : ri.W = 0 ∨ ri.H = 0
  · refine ⟨[], ?_, List.Pairwise.nil, by simp, by simp, ?_, by simp [rectCalls, pixelCount]⟩
    · have hbn : ri.Buffer.isNone = false := by
        cases hB : ri.Buffer with
        | none => rw [hB] at hbuf; simp at hbuf
        | some b => rfl
      unfold DrawRectangle
      simp only [hbn, hsh, hz, if_true, if_false, Bool.not_true, Bool.false_eq_true]
    · intro X Y h g1 g2 g3 g4
      exact absurd ((hin X Y).2 ⟨h, g1, g2, g3, g4⟩) (rectClip_empty ri hz X Y)
  · push_neg at hz
    have hb : 0 ≤ ri.normalize.ChunkBits ∧ ri.normalize.ChunkBits ≤ 62 := by
      rw [normalize_ChunkBits]; split_ifs <;> omega
    have hcs := (shl1_pos _ hb.1 hb.2).1
    refine ⟨_, DrawRectangle_returned ri hbuf hsh h0 h62 hz.1 hz.2 fuel hfuel, ?_⟩
    have hnd := rectChunks_nodup ri.normalize (shl1 ri.normalize.ChunkBits)
    have hnd2 := hnd
    rw [rectCalls, List.map_flatMap, List.nodup_flatMap] at hnd2
    refine ⟨hnd2.2, hnd2.1, ?_, ?_, ?_⟩
    · intro c hc X Y
      rw [rectChunks_snd _ _ c hc]
      exact rectChunk_calls_mem c.1 X Y
    · intro X Y h g1 g2 g3 g4
      exact pixelCount_eq_one _ X Y hnd
        ((rectChunks_mem _ _ hcs X Y).2 ((hin X Y).2 ⟨h, g1, g2, g3, g4⟩))
    · intro X Y h
      refine pixelCount_eq_zero _ X Y (fun hm => h ?_)
      obtain ⟨k1, k2, k3, k4, k5⟩ := (hin X Y).1 ((rectChunks_mem _ _ hcs X Y).1 hm)
      exact ⟨k1, k2, le_of_lt k3, k4, le_of_lt k5⟩

theorem rectCall_clip (bw bh bits x y w h : Int) (hw : 0 ≤ w) (hh : 0 ≤ h) :
    (rectCall bw bh bits x y w h).normalize.clip =
      (((max (x + 1) 0 : Int) : Float64), ((max (y + 1) 0 : Int) : Float64),
        ((min (x + 1 + w) (bw - 1) : Int) : Float64),
        ((min (y + 1 + h) (bh - 1) : Int) : Float64)) := by
  have hwq : ¬ ((w : Float64) < 0) := by exact_mod_cast not_lt.2 hw
  have hhq : ¬ ((h : Float64) < 0) := by exact_mod_cast not_lt.2 hh
  dsimp only [RectangleInfo.normalize, rectCall]
  split_ifs <;>
    simp [RectangleInfo.clip, Floor_int_add_sm, Floor_int]

theorem rectCall_inBox (bw bh bits x y w h : Int) (hw : 0 ≤ w) (hh : 0 ≤ h) (X Y : Int) :
    (rectCall bw bh bits x y w h).normalize.inBox X Y ↔
      x + 1 ≤ X ∧ X < x + 1 + w ∧ y + 1 ≤ Y ∧ Y < y + 1 + h := by
  have hwq : ¬ ((w : Float64) < 0) := by exact_mod_cast not_lt.2 hw
  have hhq : ¬ ((h : Float64) < 0) := by exact_mod_cast not_lt.2 hh
  have e : (rectCall bw bh bits x y w h).normalize.inBox X Y ↔
      (((x + 1 : Int) : Float64) ≤ X ∧ (X : Float64) < ((x + 1 : Int) : Float64) + w ∧
        ((y + 1 : Int) : Float64) ≤ Y ∧ (Y : Float64) < ((y + 1 : Int) : Float64) + h) := by
    dsimp only [RectangleInfo.normalize, rectCall]
    split_ifs <;>
      simp only [RectangleInfo.inBox, Floor_int_add_sm, Floor_int, true_and]
  rw [e]
  constructor
  · rintro ⟨h1, h2, h3, h4⟩
    exact ⟨by exact_mod_cast h1, by exact_mod_cast h2, by exact_mod_cast h3,
      by exact_mod_cast h4⟩
  · rintro ⟨h1, h2, h3, h4⟩
    exact ⟨by exact_mod_cast h1, by exact_mod_cast h2, by exact_mod_cast h3,
      by exact_mod_cast h4⟩

/-- Witness of claim C1: a 10x10 rectangle at `(1, 1)` in a 20x20 buffer with
the default 8x8 chunks (the last chunk of each row and column is narrower);
its pixel box is the columns and rows `2 .. 11`; the pixel `(3, 9)` is
shaded once and the pixel `(12, 9)` never. -/
theorem DrawRectangle_chunks_partition_witness :
    ∃ res, DrawRectangle 9 (rectCall 20 20 0 1 1 10 10) = .returned res ∧
      pixelCount ((rectCalls res).map RectangleShaderOpts.pixel) 3 9 = 1 ∧
      pixelCount ((rectCalls res).map RectangleShaderOpts.pixel) 12 9 = 0 := by
  have hfuel : rectFuel (rectCall 20 20 0 1 1 10 10) ≤ 9 := by
    have hc := rectCall_clip 20 20 0 1 1 10 10 (by norm_num) (by norm_num)
    have hs : shl1 (rectCall 20 20 0 1 1 10 10).normalize.ChunkBits = 8 := by
      rw [normalize_ChunkBits]; decide
    simp only [rectFuel, hs, tileCount]
    push_cast at hc
    rw [hc]
    norm_num
    decide
  obtain ⟨res, h1, -, -, -, h5, h6⟩ :=
    DrawRectangle_chunks_partition (rectCall 20 20 0 1 1 10 10) (by decide) (by decide)
      (by decide) (by decide) 9 hfuel
  have hb3 := (rectCall_inBox 20 20 0 1 1 10 10 (by norm_num) (by norm_num) 3 9).2
    (by decide)
  have hb12 := (rectCall_inBox 20 20 0 1 1 10 10 (by norm_num) (by norm_num) 12 9).not.2
    (by decide)
  refine ⟨res, h1, ?_, ?_⟩
  · have := h5 ((3 : Int) : Float64) ((9 : Int) : Float64) hb3 (by norm_num)
      (by norm_num [rectCall]) (by norm_num) (by norm_num [rectCall])
    simpa using this
  · have := h6 ((12 : Int) : Float64) ((9 : Int) : Float64) (fun h => hb12 h.1)
    simpa using this

theorem shl1_64 : shl1 64 = 0 := by decide

/-- Counterexample to claim C1 as stated: with `ChunkBits = 64` the chunk size
`1 << 64` is `0`, the clip bounds are not empty (they hold the pixel `(1, 1)`)
and the call never returns, whatever the fuel. -/
theorem DrawRectangle_chunkBits_64_never_returns :
    0 ≤ (rectCall 4 4 64 0 0 2 2).ChunkBits ∧ (rectCall 4 4 64 0 0 2 2).normalize.inClip 1 1 ∧
      ∀ fuel res, DrawRectangle fuel (rectCall 4 4 64 0 0 2 2) ≠ .returned res := by
  have hc : (rectCall 4 4 64 0 0 2 2).normalize.clip = (1, 1, 3, 3) := by
    have := rectCall_clip 4 4 64 0 0 2 2 (by norm_num) (by norm_num)
    push_cast at this
    rw [this]
    norm_num
  have hbits : (rectCall 4 4 64 0 0 2 2).normalize.ChunkBits = 64 := by
    rw [normalize_ChunkBits]; decide
  refine ⟨by decide, ?_, ?_⟩
  · simp only [RectangleInfo.inClip, hc, Floor]
    norm_num
  · intro fuel res
    have hbn : (rectCall 4 4 64 0 0 2 2).Buffer.isNone = false := rfl
    have hsh : (rectCall 4 4 64 0 0 2 2).HasShader = true := rfl
    have hW : ¬ ((rectCall 4 4 64 0 0 2 2).W = 0 ∨ (rectCall 4 4 64 0 0 2 2).H = 0) := by
      simp [rectCall]
    unfold DrawRectangle
    simp only [hbn, hsh, hW, if_false, Bool.not_true, Bool.false_eq_true, hbits]
    rw [if_neg (by decide), shl1_64]
    unfold RectangleInfo.chunkLoops
    refine forLoop_body_stuck _ _ _ _ ?_ ?_ fuel res
    · simp [hc]
    · intro out
      refine forLoop_cond_stuck _ _ _ fuel _ ?_ out
      intro k
      rw [rectChunkCol_iterate]
      simp [hc]

/-- Claim C2 at the failing inputs.  A rectangle at `(0, 0)` of size 2x2 drawn
into a 2x2 buffer shades no pixel: its origin is rounded to `(1, 1)` and the
clip bounds are empty.  A rectangle at `(-1, -1)` of size 2x2, whose origin
is rounded to `(0, 0)` and whose pixel box is the whole 2x2 buffer, shades
the pixel `(0, 0)` only: column `BufferWidth - 1` and row `BufferHeight - 1`
are not shaded. -/
theorem DrawRectangle_full_buffer_2x2 :
    (∃ res, DrawRectangle 9 (rectCall 2 2 0 0 0 2 2) = .returned res ∧ rectCalls res = []) ∧
    (∀ X Y : Int, (rectCall 2 2 0 (-1) (-1) 2 2).normalize.inBox X Y ↔
      0 ≤ X ∧ X < 2 ∧ 0 ≤ Y ∧ Y < 2) ∧
    ∃ res, DrawRectangle 9 (rectCall 2 2 0 (-1) (-1) 2 2) = .returned res ∧
      ∀ X Y, (X, Y) ∈ (rectCalls res).map RectangleShaderOpts.pixel ↔ X = 0 ∧ Y = 0 := by
  refine ⟨?_, ?_, ?_⟩
  · have hc : (rectCall 2 2 0 0 0 2 2).normalize.clip = (1, 1, 1, 1) := by
      have := rectCall_clip 2 2 0 0 0 2 2 (by norm_num) (by norm_num)
      push_cast at this
      rw [this]
      norm_num
    have hs : shl1 (rectCall 2 2 0 0 0 2 2).normalize.ChunkBits = 8 := by
      rw [normalize_ChunkBits]; decide
    have hfuel : rectFuel (rectCall 2 2 0 0 0 2 2) ≤ 9 := by
      simp only [rectFuel, hs, tileCount, hc]
      norm_num
      decide
    refine ⟨_, DrawRectangle_returned _ (by rfl) (by rfl) (by decide) (by decide)
      (by simp [rectCall]) (by simp [rectCall]) 9 hfuel, ?_⟩
    rw [hs, List.eq_nil_iff_forall_not_mem]
    intro so hso
    have hp : so.pixel ∈ (rectCalls ((rectCall 2 2 0 0 0 2 2).normalize.chunks 8)).map
        RectangleShaderOpts.pixel := List.mem_map_of_mem _ hso
    rw [show so.pixel = (so.pixel.1, so.pixel.2) from rfl,
      rectChunks_mem _ _ (by norm_num)] at hp
    simp only [RectangleInfo.inClip, hc] at hp
    obtain ⟨-, -, h1, h2, -⟩ := hp
    linarith
  · intro X Y
    have e := rectCall_inBox 2 2 0 (-1) (-1) 2 2 (by norm_num) (by norm_num) X Y
    push_cast at e
    exact e.trans (by
      constructor <;> rintro ⟨h1, h2, h3, h4⟩ <;> exact ⟨by omega, by omega, by omega, by omega⟩)
  · have hc : (rectCall 2 2 0 (-1) (-1) 2 2).normalize.clip = (0, 0, 1, 1) := by
      have := rectCall_clip 2 2 0 (-1) (-1) 2 2 (by norm_num) (by norm_num)
      push_cast at this
      rw [this]
      norm_num
    have hs : shl1 (rectCall 2 2 0 (-1) (-1) 2 2).normalize.ChunkBits = 8 := by
      rw [normalize_ChunkBits]; decide
    have hfuel : rectFuel (rectCall 2 2 0 (-1) (-1) 2 2) ≤ 9 := by
      simp only [rectFuel, hs, tileCount, hc]
      norm_num
      decide
    refine ⟨_, DrawRectangle_returned _ (by rfl) (by rfl) (by decide) (by decide)
      (by simp [rectCall]) (by simp [rectCall]) 9 hfuel, ?_⟩
    intro X Y
    rw [hs, rectChunks_mem _ _ (by norm_num)]
    simp only [RectangleInfo.inClip, hc, Floor_eq_iff]
    constructor
    · rintro ⟨⟨m, rfl⟩, ⟨n, rfl⟩, h1, h2, h3, h4⟩
      have h1z : 0 ≤ m := by exact_mod_cast h1
      have h2z : m < 1 := by exact_mod_cast h2
      have h3z : 0 ≤ n := by exact_mod_cast h3
      have h4z : n < 1 := by exact_mod_cast h4
      have hm : m = 0 := by omega
      have hn : n = 0 := by omega
      subst hm hn
      simp
    · rintro ⟨rfl, rfl⟩
      exact ⟨⟨0, by simp⟩, ⟨0, by simp⟩, le_refl _, by norm_num, le_refl _, by norm_num⟩

theorem lightLoop_all_alive (posx posy : Int) (srcs : List LightSource)
    (halive : ∀ s, s ∈ srcs → s.Alive = true) : ∀ (n i : Nat) (offs scale : Float64),
    srcs.length - i = n →
    LightSet.Light.loop posx posy i srcs offs scale =
      .ok (srcs, offs + ((srcs.drop i).map fun s => (s.OffsetScale posx posy).1).sum,
        scale + ((srcs.drop i).map fun s => (s.OffsetScale posx posy).2).sum) := by
  intro n
  induction n with
  | zero =>
    intro i offs scale hn
    have hi : ¬ i < srcs.length := by omega
    rw [LightSet.Light.loop, dif_neg hi, List.drop_eq_nil_of_le (by omega)]
    simp
  | succ n ih =>
    intro i offs scale hn
    have hi : i < srcs.length := by omega
    have ha : (srcs[i]).Alive = true := halive _ (List.getElem_mem _)
    rw [LightSet.Light.loop, dif_pos hi]
    simp only [ha, Bool.not_true, Bool.false_eq_true, if_false, dif_pos hi]
    rw [ih (i + 1) _ _ (by omega), List.drop_eq_getElem_cons hi]
    simp only [List.map_cons, List.sum_cons]
    rw [add_assoc, add_assoc]

theorem clamp_code (v lo hi : Float64) (h : lo ≤ hi) :
    (if v > hi then hi else if v < lo then lo else v) = clamp v lo hi := by
  unfold clamp
  split_ifs with h1 h2
  · rw [min_eq_right h1.le, max_eq_right h]
  · rw [min_eq_left (not_lt.1 h1), max_eq_left h2.le]
  · rw [min_eq_left (not_lt.1 h1), max_eq_right (not_lt.1 h2)]

theorem clamp_bounds (v lo hi : Float64) (h : lo ≤ hi) :
    lo ≤ clamp v lo hi ∧ clamp v lo hi ≤ hi := by
  unfold clamp
  exact ⟨le_max_left _ _, max_le h (min_le_right _ _)⟩

/-- Claim C6: when `MinOffset ≤ MaxOffset`, `MinScale ≤ MaxScale` and every
source is alive, `LightSet.Light` returns the intensity of the
specification, with the sums over all sources clamped once at the end, and
leaves the light set unchanged. -/
theorem Light_all_alive_accumulate_then_clamp (l : LightSet) (val : Nat) (posx posy : Int)
    (ho : l.MinOffset ≤ l.MaxOffset) (hs : l.MinScale ≤ l.MaxScale)
    (halive : ∀ s, s ∈ l.Sources → s.Alive = true) :
    l.Light val posx posy = .ok (l.lightSpec l.Sources val posx posy, l) := by
  unfold LightSet.Light
  rw [lightLoop_all_alive posx posy l.Sources halive _ 0 _ _ rfl]
  simp only [List.drop_zero, clamp_code _ _ _ ho, clamp_code _ _ _ hs]
  rfl

/-- Witness of claim C6: two alive sources whose offsets sum to `3/2`, above
`MaxOffset = 1`. -/
theorem Light_all_alive_accumulate_then_clamp_witness :
    (lightSetOf [constSource (3 / 4) 2 true, constSource (3 / 4) 3 true]).Light 255 0 0 =
      .ok ((lightSetOf [constSource (3 / 4) 2 true, constSource (3 / 4) 3 true]).lightSpec
        [constSource (3 / 4) 2 true, constSource (3 / 4) 3 true] 255 0 0,
        lightSetOf [constSource (3 / 4) 2 true, constSource (3 / 4) 3 true]) :=
  Light_all_alive_accumulate_then_clamp _ 255 0 0 (by norm_num [lightSetOf])
    (by norm_num [lightSetOf]) (by simp [lightSetOf, constSource])

theorem Light_dead_first_eval :
    (lightSetOf [constSource 0 1 false, constSource 0 2 true, constSource 0 4 false]).Light
      255 0 0 = .ok (6, lightSetOf [constSource 0 4 false, constSource 0 2 true]) := by
  simp [LightSet.Light, LightSet.Light.loop, lightSetOf, constSource]
  norm_num

/-- Claim C8 at the failing input: for the sources `[dead, alive, dead]` the
call returns and leaves `Sources = [dead, alive]`; the not-alive source that
was swapped in from the end is still there. -/
theorem Light_keeps_swapped_in_dead_source :
    ∃ r l', (lightSetOf [constSource 0 1 false, constSource 0 2 true,
        constSource 0 4 false]).Light 255 0 0 = .ok (r, l') ∧
      l'.Sources = [constSource 0 4 false, constSource 0 2 true] ∧
      ∃ s, s ∈ l'.Sources ∧ s.Alive = false :=
  ⟨6, _, Light_dead_first_eval, rfl, constSource 0 4 false, by simp [lightSetOf], rfl⟩

/-- Claim C9 at the failing input: for the sources `[dead, alive, dead]` with
scales `1, 2, 4` the call returns the intensity `6`, which includes the scale
of the swapped-in not-alive source; the alive sources alone give `2`. -/
theorem Light_counts_swapped_in_dead_source :
    ∃ l', (lightSetOf [constSource 0 1 false, constSource 0 2 true,
        constSource 0 4 false]).Light 255 0 0 = .ok (6, l') ∧
      (lightSetOf [constSource 0 1 false, constSource 0 2 true, constSource 0 4 false]).lightSpec
        ([constSource 0 1 false, constSource 0 2 true, constSource 0 4 false].filter
          fun s => s.Alive) 255 0 0 = 2 := by
  refine ⟨_, Light_dead_first_eval, ?_⟩
  simp [LightSet.lightSpec, lightSetOf, constSource, clamp]
  norm_num

/-- Claim C10 at the failing input: a circle source of intensity `1` and fall
radius `1` whose tracked object sits at `(0, 0)` with size modifier `1`
returns offset `0` and scale `1/11` at the pixel `(1, 0)`, at distance
exactly the fall radius (not `1/2`). -/
theorem CircleSource_at_fall_radius_eleventh :
    CircleSource.OffsetScale
      { Tracked := some { Pos := (0, 0), Alive := true, SizeMod := 1 },
        Intensity := 1, FallRadius := 1 } 1 0 = .ok (0, 1 / 11) := by
  simp [CircleSource.OffsetScale]
  norm_num

theorem triCol_iterate (dx d0 d1 d2 : Float64) (db : Int) (k : Nat) (s : TriColState) :
    (fun s : TriColState =>
      ({ x := s.x + dx, w0 := s.w0 + d0, w1 := s.w1 + d1, w2 := s.w2 + d2,
         boffs := s.boffs + db } : TriColState))^[k] s =
    { x := s.x + k * dx, w0 := s.w0 + k * d0, w1 := s.w1 + k * d1, w2 := s.w2 + k * d2,
      boffs := s.boffs + k * db } := by
  induction k generalizing s with
  | zero => simp
  | succ k ih =>
    rw [Function.iterate_succ_apply, ih]
    simp only [TriColState.mk.injEq]
    push_cast
    refine ⟨by ring, by ring, by ring, by ring, by ring⟩

theorem triRow_iterate (dy d0 d1 d2 : Float64) (db : Int) (k : Nat) (r : TriRowState) :
    (fun r : TriRowState =>
      ({ y := r.y + dy, w0o := r.w0o + d0, w1o := r.w1o + d1, w2o := r.w2o + d2,
         boffso := r.boffso + db } : TriRowState))^[k] r =
    { y := r.y + k * dy, w0o := r.w0o + k * d0, w1o := r.w1o + k * d1, w2o := r.w2o + k * d2,
      boffso := r.boffso + k * db } := by
  induction k generalizing r with
  | zero => simp
  | succ k ih =>
    rw [Function.iterate_succ_apply, ih]
    simp only [TriRowState.mk.injEq]
    push_cast
    refine ⟨by ring, by ring, by ring, by ring, by ring⟩

theorem triProcess_returned (c : TriangleChunk) (fuel : Nat) (hw : ⌈c.Width⌉₊ < fuel)
    (hh : ⌈c.Height⌉₊ < fuel) : c.Process fuel = .returned c.calls := by
  unfold TriangleChunk.Process TriangleChunk.calls
  refine forLoop_returned _ _ _ ⌈c.Height⌉₊ _ _ fuel ?_ ?_ ?_ hh
  · intro k hk
    rw [triRow_iterate]
    simpa using Nat.lt_ceil.1 hk
  · rw [triRow_iterate]
    simpa using Nat.le_of_ceil_le (le_refl _)
  · intro k hk
    rw [triRow_iterate]
    refine forLoop_returned _ _ _ ⌈c.Width⌉₊ _ _ fuel ?_ ?_ ?_ hw
    · intro i hi
      rw [triCol_iterate]
      simpa using Nat.lt_ceil.1 hi
    · rw [triCol_iterate]
      simpa using Nat.le_of_ceil_le (le_refl _)
    · intro i hi
      rw [triCol_iterate]
      simp only [TriangleChunk.edgeAt, TriangleChunk.optsAt, mul_one]
      split_ifs <;> rfl

theorem triChunkLoops_returned (ti : TriangleInfo) (cs : Int) (hcs : 0 < cs) (fuel : Nat)
    (hx : tileCount ti.clip.1 ti.clip.2.2.1 cs < fuel)
    (hy : tileCount ti.clip.2.1 ti.clip.2.2.2 cs < fuel) (hc : cs.toNat < fuel) :
    ti.chunkLoops fuel cs = .returned (ti.chunks cs) := by
  have hcq : (0 : Float64) < (cs : Float64) := by exact_mod_cast hcs
  unfold TriangleInfo.chunkLoops TriangleInfo.chunks
  refine forLoop_returned _ _ _ _ _ _ fuel ?_ ?_ ?_ hy
  · intro k hk
    rw [triRow_iterate]
    simpa using (lt_tileCount _ _ _ hcq k).1 hk
  · rw [triRow_iterate]
    have := (lt_tileCount ti.clip.2.1 ti.clip.2.2.2 cs hcq _).not.1 (lt_irrefl _)
    simpa using this
  · intro k hk
    rw [triRow_iterate]
    refine forLoop_returned _ _ _ _ _ _ fuel ?_ ?_ ?_ hx
    · intro i hi
      rw [triCol_iterate]
      simpa using (lt_tileCount _ _ _ hcq i).1 hi
    · rw [triCol_iterate]
      have := (lt_tileCount ti.clip.1 ti.clip.2.2.1 cs hcq _).not.1 (lt_irrefl _)
      simpa using this
    · intro i hi
      rw [triCol_iterate]
      simp only []
      rw [triProcess_returned]
      · rfl
      · exact lt_of_le_of_lt (ceil_min_le cs _) hc
      · exact lt_of_le_of_lt (ceil_min_le cs _) hc

theorem forLoop_mem {σ α : Type} (cond : σ → Bool) (body : σ → Outcome (List α))
    (post : σ → σ) (fuel : Nat) : ∀ (s : σ) (res : List α),
    forLoop cond body post fuel s = .returned res → ∀ e, e ∈ res →
      ∃ k out, cond (post^[k] s) = true ∧ body (post^[k] s) = .returned out ∧ e ∈ out := by
  induction fuel with
  | zero => intro s res h; simp [forLoop] at h
  | succ f ih =>
    intro s res h e he
    unfold forLoop at h
    by_cases hc : cond s = true
    · rw [if_pos hc] at h
      cases hb : body s with
      | returned out =>
        rw [hb] at h
        cases hr : forLoop cond body post f (post s) with
        | returned rest =>
          rw [hr] at h
          simp only [Outcome.returned.injEq] at h
          subst h
          rcases List.mem_append.1 he with h1 | h1
          · exact ⟨0, out, by simpa using hc, by simpa using hb, h1⟩
          · obtain ⟨k, o, h2, h3, h4⟩ := ih (post s) rest hr e h1
            exact ⟨k + 1, o, by simpa [Function.iterate_succ_apply] using h2,
              by simpa [Function.iterate_succ_apply] using h3, h4⟩
        | panicked m => rw [hr] at h; simp at h
        | outOfFuel => rw [hr] at h; simp at h
      | panicked m => rw [hb] at h; simp at h
      | outOfFuel => rw [hb] at h; simp at h
    · rw [if_neg hc] at h
      simp only [Outcome.returned.injEq] at h
      subst h
      simp at he

theorem triProcess_sound (c : TriangleChunk) (fuel : Nat) (calls : List TriangleShaderOpts)
    (h : c.Process fuel = .returned calls) (so : TriangleShaderOpts) (hso : so ∈ calls) :
    ∃ b a : Nat, so = c.optsAt b a ∧
      (c.edgeAt b a).1 ≥ 0 ∧ (c.edgeAt b a).2.1 ≥ 0 ∧ (c.edgeAt b a).2.2 ≥ 0 := by
  unfold TriangleChunk.Process at h
  obtain ⟨b, out, -, hb, hmem⟩ := forLoop_mem _ _ _ fuel _ _ h so hso
  rw [triRow_iterate] at hb
  obtain ⟨a, out2, -, ha, hmem2⟩ := forLoop_mem _ _ _ fuel _ _ hb so hmem
  rw [triCol_iterate] at ha
  simp only [mul_one] at ha
  refine ⟨b, a, ?_⟩
  by_cases hin : (c.edgeAt b a).1 ≥ 0 ∧ (c.edgeAt b a).2.1 ≥ 0 ∧ (c.edgeAt b a).2.2 ≥ 0
  · refine ⟨?_, hin⟩
    have hin2 := hin
    simp only [TriangleChunk.edgeAt] at hin2
    rw [if_pos hin2] at ha
    simp only [Outcome.returned.injEq] at ha
    subst ha
    rw [List.mem_singleton] at hmem2
    rw [hmem2]
    rfl
  · exfalso
    have hin2 := hin
    simp only [TriangleChunk.edgeAt] at hin2
    rw [if_neg hin2] at ha
    simp only [Outcome.returned.injEq] at ha
    subst ha
    simp at hmem2

theorem triChunkLoops_sound (ti : TriangleInfo) (cs : Int) (fuel : Nat)
    (res : List (TriangleChunk × List TriangleShaderOpts))
    (h : ti.chunkLoops fuel cs = .returned res) (so : TriangleShaderOpts) (hso : so ∈ triCalls res) :
    ∃ j i b a : Nat, so = (ti.chunkAt cs j i).optsAt b a ∧
      ((ti.chunkAt cs j i).edgeAt b a).1 ≥ 0 ∧ ((ti.chunkAt cs j i).edgeAt b a).2.1 ≥ 0 ∧
      ((ti.chunkAt cs j i).edgeAt b a).2.2 ≥ 0 := by
  unfold triCalls at hso
  obtain ⟨c, hc, hsoc⟩ := List.mem_flatMap.1 hso
  unfold TriangleInfo.chunkLoops at h
  obtain ⟨j, out, -, hj, hmem⟩ := forLoop_mem _ _ _ fuel _ _ h c hc
  rw [triRow_iterate] at hj
  obtain ⟨i, out2, -, hi, hmem2⟩ := forLoop_mem _ _ _ fuel _ _ hj c hmem
  rw [triCol_iterate] at hi
  simp only [] at hi
  split at hi
  · next calls hP =>
    simp only [Outcome.returned.injEq] at hi
    subst hi
    rw [List.mem_singleton] at hmem2
    subst hmem2
    obtain ⟨b, a, h1, h2⟩ := triProcess_sound _ fuel calls hP so hsoc
    exact ⟨j, i, b, a, h1, h2⟩
  · simp at hi
  · simp at hi

theorem triChunk_edgeAt (ti : TriangleInfo) (cs : Int) (j i b a : Nat) :
    (ti.chunkAt cs j i).edgeAt b a =
      ti.edges (ti.clip.1 + i * (cs : Float64) + a) (ti.clip.2.1 + j * (cs : Float64) + b) := by
  simp only [TriangleChunk.edgeAt, TriangleInfo.chunkAt, TriangleInfo.edges, TriangleInfo.static,
    edgeFunc, Prod.mk.injEq]
  refine ⟨by ring, by ring, by ring⟩

theorem triClip_int (ti : TriangleInfo) : ∃ a b c d : Int,
    ti.clip.1 = a ∧ ti.clip.2.1 = b ∧ ti.clip.2.2.1 = c ∧ ti.clip.2.2.2 = d := by
  refine ⟨max (min ⌊ti.X0 + sm⌋ (min ⌊ti.X1 + sm⌋ ⌊ti.X2 + sm⌋)) 0,
    max (min ⌊ti.Y0 + sm⌋ (min ⌊ti.Y1 + sm⌋ ⌊ti.Y2 + sm⌋)) 0,
    min (max ⌊ti.X0 + sm⌋ (max ⌊ti.X1 + sm⌋ ⌊ti.X2 + sm⌋)) (ti.BufferWidth - 1),
    min (max ⌊ti.Y0 + sm⌋ (max ⌊ti.Y1 + sm⌋ ⌊ti.Y2 + sm⌋)) (ti.BufferHeight - 1), ?_, ?_, ?_, ?_⟩ <;>
  simp only [TriangleInfo.clip, Floor, Int.cast_max, Int.cast_min, Int.cast_zero, Int.cast_sub,
    Int.cast_one]

theorem triCalls_chunks (ti : TriangleInfo) (cs : Int) :
    triCalls (ti.chunks cs) =
      gridList (tileCount ti.clip.2.1 ti.clip.2.2.2 cs) (tileCount ti.clip.1 ti.clip.2.2.1 cs)
        (tileLen ti.clip.2.1 ti.clip.2.2.2 cs) (tileLen ti.clip.1 ti.clip.2.2.1 cs)
        (fun j i b a =>
          if ((ti.chunkAt cs j i).edgeAt b a).1 ≥ 0 ∧ ((ti.chunkAt cs j i).edgeAt b a).2.1 ≥ 0 ∧
            ((ti.chunkAt cs j i).edgeAt b a).2.2 ≥ 0 then [(ti.chunkAt cs j i).optsAt b a]
          else []) := by
  simp only [triCalls, TriangleInfo.chunks, List.flatMap_assoc, List.flatMap_singleton,
    TriangleChunk.calls, gridList]
  rfl

theorem triChunks_nodup (ti : TriangleInfo) (cs : Int) :
    ((triCalls (ti.chunks cs)).map TriangleShaderOpts.pixel).Nodup := by
  rw [triCalls_chunks]
  refine gridList_nodup _ ti.clip.1 ti.clip.2.1 _ _ cs _ _ _ ?_ ?_
  · intro j i b a e he
    split_ifs at he
    · rw [List.mem_singleton] at he
      subst he
      rfl
    · simp at he
  · intro j i b a
    split_ifs <;> simp

theorem triChunks_mem (ti : TriangleInfo) (cs : Int) (hcs : 0 < cs) (X Y : Float64) :
    (X, Y) ∈ (triCalls (ti.chunks cs)).map TriangleShaderOpts.pixel ↔
      ti.inClip X Y ∧ (ti.edges X Y).1 ≥ 0 ∧ (ti.edges X Y).2.1 ≥ 0 ∧ (ti.edges X Y).2.2 ≥ 0 := by
  obtain ⟨x0, y0, x1, y1, hx0, hy0, hx1, hy1⟩ := triClip_int ti
  have hX := tile_mem x0 x1 cs hcs X
  have hY := tile_mem y0 y1 cs hcs Y
  rw [triCalls_chunks, List.mem_map]
  simp only [mem_gridList, TriangleInfo.inClip, Floor_eq_iff, triChunk_edgeAt]
  constructor
  · rintro ⟨e, ⟨j, i, b, a, hj, hi, hb, ha, he⟩, hpix⟩
    split_ifs at he with hin
    · rw [List.mem_singleton] at he
      subst he
      have hpx : ti.clip.1 + i * (cs : Float64) + a = X := congrArg Prod.fst hpix
      have hpy : ti.clip.2.1 + j * (cs : Float64) + b = Y := congrArg Prod.snd hpix
      rw [hpx, hpy] at hin
      rw [hx0] at hpx hi ha
      rw [hy0] at hpy hj hb
      rw [hx1] at hi ha
      rw [hy1] at hj hb
      obtain ⟨m, hm, hm1, hm2⟩ := hX.1 ⟨i, a, hi, ha, hpx.symm⟩
      obtain ⟨n, hn, hn1, hn2⟩ := hY.1 ⟨j, b, hj, hb, hpy.symm⟩
      rw [hx0, hy0, hx1, hy1]
      subst hm hn
      exact ⟨⟨⟨m, rfl⟩, ⟨n, rfl⟩, by exact_mod_cast hm1, by exact_mod_cast hm2,
        by exact_mod_cast hn1, by exact_mod_cast hn2⟩, hin⟩
    · simp at he
  · rintro ⟨⟨⟨m, rfl⟩, ⟨n, rfl⟩, h1, h2, h3, h4⟩, hin⟩
    rw [hx0] at h1
    rw [hx1] at h2
    rw [hy0] at h3
    rw [hy1] at h4
    obtain ⟨i, a, hi, ha, hxe⟩ := hX.2 ⟨m, rfl, by exact_mod_cast h1, by exact_mod_cast h2⟩
    obtain ⟨j, b, hj, hb, hye⟩ := hY.2 ⟨n, rfl, by exact_mod_cast h3, by exact_mod_cast h4⟩
    rw [← hx0, ← hx1] at hi ha
    rw [← hy0, ← hy1] at hj hb
    have hxe2 : ti.clip.1 + i * (cs : Float64) + a = m := by rw [hx0]; exact hxe.symm
    have hye2 : ti.clip.2.1 + j * (cs : Float64) + b = n := by rw [hy0]; exact hye.symm
    refine ⟨(ti.chunkAt cs j i).optsAt b a, ⟨j, i, b, a, hj, hi, hb, ha, ?_⟩, ?_⟩
    · rw [hxe2, hye2, if_pos hin]
      exact List.mem_singleton.2 rfl
    · show (ti.clip.1 + i * (cs : Float64) + a, ti.clip.2.1 + j * (cs : Float64) + b) = _
      rw [hxe2, hye2]

theorem tri_normalize (ti : TriangleInfo) :
    ti.normalize.clip = ti.clip ∧ ti.normalize.bias = ti.bias ∧
      ti.normalize.edges = ti.edges ∧ ti.normalize.inClip = ti.inClip ∧
      ti.normalize.X0 = ti.X0 ∧ ti.normalize.Y0 = ti.Y0 ∧ ti.normalize.X1 = ti.X1 ∧
      ti.normalize.Y1 = ti.Y1 ∧ ti.normalize.X2 = ti.X2 ∧ ti.normalize.Y2 = ti.Y2 ∧
      ti.normalize.ChunkBits = (if ti.ChunkBits = 0 then 3 else ti.ChunkBits) := by
  unfold TriangleInfo.normalize
  split_ifs with h
  · exact ⟨rfl, rfl, rfl, rfl, rfl, rfl, rfl, rfl, rfl, rfl, rfl⟩
  · exact ⟨rfl, rfl, rfl, rfl, rfl, rfl, rfl, rfl, rfl, rfl, rfl⟩

theorem DrawTriangle_returned (ti : TriangleInfo) (hbuf : ti.Buffer.isSome = true)
    (hsh : ti.HasShader = true) (hl : ti.HasLights = true) (hi : ti.HasIndexizer = true)
    (h0 : 0 ≤ ti.ChunkBits) (h62 : ti.ChunkBits ≤ 62)
    (harea : edgeFunc ti.X0 ti.Y0 ti.X1 ti.Y1 ti.X2 ti.Y2 ≠ 0)
    (fuel : Nat) (hfuel : triFuel ti ≤ fuel) :
    DrawTriangle fuel ti = .returned (ti.normalize.chunks (shl1 ti.normalize.ChunkBits)) := by
  obtain ⟨-, -, -, -, e0, e1, e2, e3, e4, e5, eb⟩ := tri_normalize ti
  have hb : 0 ≤ ti.normalize.ChunkBits ∧ ti.normalize.ChunkBits ≤ 62 := by
    rw [eb]; split_ifs <;> omega
  have hbn : ti.Buffer.isNone = false := by
    cases hB : ti.Buffer with
    | none => rw [hB] at hbuf; simp at hbuf
    | some b => rfl
  unfold DrawTriangle
  simp only [hbn, hsh, hl, hi, if_false, Bool.not_true, Bool.false_eq_true, not_lt.2 hb.1,
    e0, e1, e2, e3, e4, e5, harea]
  unfold triFuel at hfuel
  simp only [] at hfuel
  refine triChunkLoops_returned _ _ (shl1_pos _ hb.1 hb.2).1 fuel ?_ ?_ ?_
  · have := le_max_left (tileCount ti.normalize.clip.1 ti.normalize.clip.2.2.1
      (shl1 ti.normalize.ChunkBits)) (max (tileCount ti.normalize.clip.2.1 ti.normalize.clip.2.2.2
      (shl1 ti.normalize.ChunkBits)) (shl1 ti.normalize.ChunkBits).toNat)
    omega
  · have := le_max_right (tileCount ti.normalize.clip.1 ti.normalize.clip.2.2.1
      (shl1 ti.normalize.ChunkBits)) (max (tileCount ti.normalize.clip.2.1 ti.normalize.clip.2.2.2
      (shl1 ti.normalize.ChunkBits)) (shl1 ti.normalize.ChunkBits).toNat)
    have := le_max_left (tileCount ti.normalize.clip.2.1 ti.normalize.clip.2.2.2
      (shl1 ti.normalize.ChunkBits)) (shl1 ti.normalize.ChunkBits).toNat
    omega
  · have := le_max_right (tileCount ti.normalize.clip.1 ti.normalize.clip.2.2.1
      (shl1 ti.normalize.ChunkBits)) (max (tileCount ti.normalize.clip.2.1 ti.normalize.clip.2.2.2
      (shl1 ti.normalize.ChunkBits)) (shl1 ti.normalize.ChunkBits).toNat)
    have := le_max_right (tileCount ti.normalize.clip.2.1 ti.normalize.clip.2.2.2
      (shl1 ti.normalize.ChunkBits)) (shl1 ti.normalize.ChunkBits).toNat
    omega

theorem edge_sum (x0 y0 x1 y1 x2 y2 X Y : Float64) :
    edgeFunc x1 y1 x2 y2 X Y + edgeFunc x2 y2 x0 y0 X Y + edgeFunc x0 y0 x1 y1 X Y =
      edgeFunc x0 y0 x1 y1 x2 y2 := by
  unfold edgeFunc; ring

theorem smallest_pos : 0 < SmallestNonzeroFloat64 ∧ SmallestNonzeroFloat64 < 1 := by
  unfold SmallestNonzeroFloat64
  constructor
  · positivity
  · rw [div_lt_one (by positivity)]
    exact one_lt_pow₀ (by norm_num) (by norm_num)

theorem smallestDrop_nonneg (w : Float64) : 0 ≤ smallestDrop w := by
  have := smallest_pos.1
  unfold smallestDrop subSmallest
  split_ifs <;> linarith

theorem smallestDrop_int (n : Int) :
    smallestDrop (n : Float64) = if n = 0 then SmallestNonzeroFloat64 else 0 := by
  unfold smallestDrop subSmallest
  by_cases hn : n = 0
  · subst hn
    rw [if_pos rfl, if_neg (by norm_num), if_pos (by norm_num), if_neg (by norm_num)]
    simp
  · rw [if_neg hn]
    have h1 : (1 : Float64) ≤ |(n : Float64)| := by
      have : (1 : Int) ≤ |n| := Int.one_le_abs hn
      exact_mod_cast this
    have h2 : (1 : Float64) / 2 ^ 1020 ≤ 1 := by
      rw [div_le_one (by positivity)]
      exact one_le_pow₀ (by norm_num)
    rw [if_pos (le_trans h2 h1), sub_self]

theorem bias_nonneg (ti : TriangleInfo) :
    0 ≤ ti.bias.1 ∧ 0 ≤ ti.bias.2.1 ∧ 0 ≤ ti.bias.2.2 := by
  simp only [TriangleInfo.bias]
  refine ⟨?_, ?_, ?_⟩ <;> split_ifs <;>
    first
      | exact smallestDrop_nonneg _
      | exact le_refl _

theorem DrawTriangle_sound (ti : TriangleInfo) (fuel : Nat)
    (res : List (TriangleChunk × List TriangleShaderOpts))
    (h : DrawTriangle fuel ti = .returned res) (so : TriangleShaderOpts) (hso : so ∈ triCalls res) :
    (ti.edges so.X so.Y).1 ≥ 0 ∧ (ti.edges so.X so.Y).2.1 ≥ 0 ∧ (ti.edges so.X so.Y).2.2 ≥ 0 ∧
      so.W0 = (ti.edges so.X so.Y).1 * (1 / edgeFunc ti.X0 ti.Y0 ti.X1 ti.Y1 ti.X2 ti.Y2) ∧
      so.W1 = (ti.edges so.X so.Y).2.1 * (1 / edgeFunc ti.X0 ti.Y0 ti.X1 ti.Y1 ti.X2 ti.Y2) ∧
      so.W2 = (ti.edges so.X so.Y).2.2 * (1 / edgeFunc ti.X0 ti.Y0 ti.X1 ti.Y1 ti.X2 ti.Y2) := by
  obtain ⟨-, -, ee, -, e0, e1, e2, e3, e4, e5, -⟩ := tri_normalize ti
  dsimp only [DrawTriangle] at h
  split_ifs at h with h1 h2 h3 h4 h5 h6
  · simp only [Outcome.returned.injEq] at h
    subst h
    simp [triCalls] at hso
  · obtain ⟨j, i, b, a, hso, hin⟩ := triChunkLoops_sound _ _ fuel res h so hso
    rw [triChunk_edgeAt, ee] at hin
    have hX : so.X = ti.normalize.clip.1 + i * ((shl1 ti.normalize.ChunkBits : Int) : Float64) + a := by
      rw [hso]; rfl
    have hY : so.Y = ti.normalize.clip.2.1 + j * ((shl1 ti.normalize.ChunkBits : Int) : Float64) + b := by
      rw [hso]; rfl
    have hW0 : so.W0 = ((ti.normalize.chunkAt (shl1 ti.normalize.ChunkBits) j i).edgeAt b a).1 *
        (1 / edgeFunc ti.normalize.X0 ti.normalize.Y0 ti.normalize.X1 ti.normalize.Y1
          ti.normalize.X2 ti.normalize.Y2) := by
      rw [hso]; rfl
    have hW1 : so.W1 = ((ti.normalize.chunkAt (shl1 ti.normalize.ChunkBits) j i).edgeAt b a).2.1 *
        (1 / edgeFunc ti.normalize.X0 ti.normalize.Y0 ti.normalize.X1 ti.normalize.Y1
          ti.normalize.X2 ti.normalize.Y2) := by
      rw [hso]; rfl
    have hW2 : so.W2 = ((ti.normalize.chunkAt (shl1 ti.normalize.ChunkBits) j i).edgeAt b a).2.2 *
        (1 / edgeFunc ti.normalize.X0 ti.normalize.Y0 ti.normalize.X1 ti.normalize.Y1
          ti.normalize.X2 ti.normalize.Y2) := by
      rw [hso]; rfl
    rw [triChunk_edgeAt, ee, ← hX, ← hY, e0, e1, e2, e3, e4, e5] at hW0 hW1 hW2
    rw [← hX, ← hY] at hin
    exact ⟨hin.1, hin.2.1, hin.2.2, hW0, hW1, hW2⟩

/-- Claim C4: at every shader invocation of a `DrawTriangle` call that returned,
each weight `W_k` is the edge function evaluated at the pixel `(X, Y)`, less
the fill-rule bias, times `1 / area`; the three weights are non-negative; the
area is positive and the three edge functions are non-negative at the pixel,
so the pixel is inside the triangle or on its boundary. -/
theorem DrawTriangle_shader_only_inside (ti : TriangleInfo) (fuel : Nat)
    (res : List (TriangleChunk × List TriangleShaderOpts))
    (h : DrawTriangle fuel ti = .returned res) (so : TriangleShaderOpts) (hso : so ∈ triCalls res) :
    so.W0 = (edgeFunc ti.X1 ti.Y1 ti.X2 ti.Y2 so.X so.Y - ti.bias.1) *
        (1 / edgeFunc ti.X0 ti.Y0 ti.X1 ti.Y1 ti.X2 ti.Y2) ∧
      so.W1 = (edgeFunc ti.X2 ti.Y2 ti.X0 ti.Y0 so.X so.Y - ti.bias.2.1) *
        (1 / edgeFunc ti.X0 ti.Y0 ti.X1 ti.Y1 ti.X2 ti.Y2) ∧
      so.W2 = (edgeFunc ti.X0 ti.Y0 ti.X1 ti.Y1 so.X so.Y - ti.bias.2.2) *
        (1 / edgeFunc ti.X0 ti.Y0 ti.X1 ti.Y1 ti.X2 ti.Y2) ∧
      0 ≤ so.W0 ∧ 0 ≤ so.W1 ∧ 0 ≤ so.W2 ∧
      0 < edgeFunc ti.X0 ti.Y0 ti.X1 ti.Y1 ti.X2 ti.Y2 ∧
      0 ≤ edgeFunc ti.X1 ti.Y1 ti.X2 ti.Y2 so.X so.Y ∧
      0 ≤ edgeFunc ti.X2 ti.Y2 ti.X0 ti.Y0 so.X so.Y ∧
      0 ≤ edgeFunc ti.X0 ti.Y0 ti.X1 ti.Y1 so.X so.Y := by
  obtain ⟨g0, g1, g2, hW0, hW1, hW2⟩ := DrawTriangle_sound ti fuel res h so hso
  obtain ⟨b0, b1, b2⟩ := bias_nonneg ti
  simp only [TriangleInfo.edges] at g0 g1 g2 hW0 hW1 hW2
  have hsum := edge_sum ti.X0 ti.Y0 ti.X1 ti.Y1 ti.X2 ti.Y2 so.X so.Y
  have hne : edgeFunc ti.X0 ti.Y0 ti.X1 ti.Y1 ti.X2 ti.Y2 ≠ 0 := by
    intro h0
    dsimp only [DrawTriangle] at h
    obtain ⟨-, -, -, -, e0, e1, e2, e3, e4, e5, -⟩ := tri_normalize ti
    simp only [e0, e1, e2, e3, e4, e5, h0, if_true] at h
    split_ifs at h
    simp only [Outcome.returned.injEq] at h
    subst h
    simp [triCalls] at hso
  have hpos : 0 < edgeFunc ti.X0 ti.Y0 ti.X1 ti.Y1 ti.X2 ti.Y2 :=
    lt_of_le_of_ne (by linarith) (Ne.symm hne)
  have hinv : 0 ≤ 1 / edgeFunc ti.X0 ti.Y0 ti.X1 ti.Y1 ti.X2 ti.Y2 := by positivity
  refine ⟨hW0, hW1, hW2, ?_, ?_, ?_, hpos, by linarith, by linarith, by linarith⟩
  · rw [hW0]; exact mul_nonneg g0 hinv
  · rw [hW1]; exact mul_nonneg g1 hinv
  · rw [hW2]; exact mul_nonneg g2 hinv

theorem tri_int_clip (ti : TriangleInfo) (x0 y0 x1 y1 x2 y2 : Int)
    (hv : ti.hasVertices x0 y0 x1 y1 x2 y2) :
    ti.clip = (((max (min (x0 + 1) (min (x1 + 1) (x2 + 1))) 0 : Int) : Float64),
      ((max (min (y0 + 1) (min (y1 + 1) (y2 + 1))) 0 : Int) : Float64),
      ((min (max (x0 + 1) (max (x1 + 1) (x2 + 1))) (ti.BufferWidth - 1) : Int) : Float64),
      ((min (max (y0 + 1) (max (y1 + 1) (y2 + 1))) (ti.BufferHeight - 1) : Int) : Float64)) := by
  obtain ⟨h0, h1, h2, h3, h4, h5⟩ := hv
  simp only [TriangleInfo.clip, h0, h1, h2, h3, h4, h5, Floor_int_add_sm, Int.cast_max,
    Int.cast_min, Int.cast_zero, Int.cast_sub, Int.cast_one]

theorem isTopLeft_int (ax ay bx by_ : Int) :
    isTopLeft ((ax + 1 : Int) : Float64) ((ay + 1 : Int) : Float64) ((bx + 1 : Int) : Float64)
      ((by_ + 1 : Int) : Float64) = (decide (ay = by_ ∧ ax < bx) || decide (ay > by_)) := by
  unfold isTopLeft
  simp only [Int.cast_inj, Int.cast_lt, add_left_inj, add_lt_add_iff_right, gt_iff_lt,
    Bool.decide_and]

theorem edgeFunc_int (ax ay bx by_ cx cy : Int) :
    edgeFunc ax ay bx by_ cx cy = (((bx - ax) * (cy - ay) - (by_ - ay) * (cx - ax) : Int) :
      Float64) := by
  unfold edgeFunc
  push_cast
  ring

/-- The fill-rule corrections of a triangle with integer vertices whose clip
corner is `(mx, my)`: `SmallestNonzeroFloat64` for an edge that is not
top-left and passes through the corner, and `0` for every other edge. -/
theorem tri_int_bias (ti : TriangleInfo) (x0 y0 x1 y1 x2 y2 mx my : Int)
    (hv : ti.hasVertices x0 y0 x1 y1 x2 y2) (hmx : ti.clip.1 = mx) (hmy : ti.clip.2.1 = my) :
    ti.bias =
      (if (decide (y1 = y2 ∧ x1 < x2) || decide (y1 > y2)) = false ∧
          (x2 - x1) * (my - y1) - (y2 - y1) * (mx - x1) = 0
        then SmallestNonzeroFloat64 else 0,
        if (decide (y2 = y0 ∧ x2 < x0) || decide (y2 > y0)) = false ∧
          (x0 - x2) * (my - y2) - (y0 - y2) * (mx - x2) = 0
        then SmallestNonzeroFloat64 else 0,
        if (decide (y0 = y1 ∧ x0 < x1) || decide (y0 > y1)) = false ∧
          (x1 - x0) * (my - y0) - (y1 - y0) * (mx - x0) = 0
        then SmallestNonzeroFloat64 else 0) := by
  obtain ⟨h0, h1, h2, h3, h4, h5⟩ := hv
  simp only [TriangleInfo.bias, hmx, hmy, h0, h1, h2, h3, h4, h5, Floor_int_add_sm,
    isTopLeft_int, edgeFunc_int, smallestDrop_int]
  refine Prod.ext ?_ (Prod.ext ?_ ?_)
  · cases hb : (decide (y1 = y2 ∧ x1 < x2) || decide (y1 > y2)) <;> simp
  · cases hb : (decide (y2 = y0 ∧ x2 < x0) || decide (y2 > y0)) <;> simp
  · cases hb : (decide (y0 = y1 ∧ x0 < x1) || decide (y0 > y1)) <;> simp

theorem triShades_iff (ti : TriangleInfo) (hwf : ti.wellFormed)
    (harea : edgeFunc ti.X0 ti.Y0 ti.X1 ti.Y1 ti.X2 ti.Y2 ≠ 0) (fuel : Nat)
    (hfuel : triFuel ti ≤ fuel) (X Y : Float64) :
    triShades fuel ti X Y ↔
      ti.inClip X Y ∧ (ti.edges X Y).1 ≥ 0 ∧ (ti.edges X Y).2.1 ≥ 0 ∧ (ti.edges X Y).2.2 ≥ 0 := by
  obtain ⟨hb, hs, hl, hi, h0, h62⟩ := hwf
  obtain ⟨-, -, ee, ec, -, -, -, -, -, -, eb⟩ := tri_normalize ti
  have hbits : 0 ≤ ti.normalize.ChunkBits ∧ ti.normalize.ChunkBits ≤ 62 := by
    rw [eb]; split_ifs <;> omega
  have hret := DrawTriangle_returned ti hb hs hl hi h0 h62 harea fuel hfuel
  have hmem := triChunks_mem ti.normalize _ (shl1_pos _ hbits.1 hbits.2).1 X Y
  rw [ee, ec] at hmem
  unfold triShades
  constructor
  · rintro ⟨res, hres, hp⟩
    rw [hret] at hres
    simp only [Outcome.returned.injEq] at hres
    subst hres
    exact hmem.1 hp
  · intro h
    exact ⟨_, hret, hmem.2 h⟩

theorem rightTriangle_facts :
    (triCall 10 10 0 0 0 10 0 0 10).wellFormed ∧
    edgeFunc (triCall 10 10 0 0 0 10 0 0 10).X0 (triCall 10 10 0 0 0 10 0 0 10).Y0
      (triCall 10 10 0 0 0 10 0 0 10).X1 (triCall 10 10 0 0 0 10 0 0 10).Y1
      (triCall 10 10 0 0 0 10 0 0 10).X2 (triCall 10 10 0 0 0 10 0 0 10).Y2 = 100 ∧
    (triCall 10 10 0 0 0 10 0 0 10).clip = (1, 1, 9, 9) ∧
    (triCall 10 10 0 0 0 10 0 0 10).bias = (0, 0, 0) ∧
    triFuel (triCall 10 10 0 0 0 10 0 0 10) ≤ 9 := by
  have hv : (triCall 10 10 0 0 0 10 0 0 10).hasVertices 0 0 10 0 0 10 := by
    simp [TriangleInfo.hasVertices, triCall]
  have hclip : (triCall 10 10 0 0 0 10 0 0 10).clip = (1, 1, 9, 9) := by
    rw [tri_int_clip _ _ _ _ _ _ _ hv]
    simp [triCall]
  refine ⟨⟨rfl, rfl, rfl, rfl, by decide, by decide⟩, ?_, hclip, ?_, ?_⟩
  · simp [edgeFunc, triCall]
    norm_num
  · rw [tri_int_bias _ 0 0 10 0 0 10 1 1 hv (by rw [hclip]; simp) (by rw [hclip]; simp)]
    simp
  · have hs : shl1 (triCall 10 10 0 0 0 10 0 0 10).normalize.ChunkBits = 8 := by
      rw [(tri_normalize _).2.2.2.2.2.2.2.2.2.2]; decide
    simp only [triFuel, hs, tileCount, (tri_normalize _).1, hclip]
    norm_num
    decide

theorem rightTriangle_shaded (X Y : Float64) :
    ((triCall 10 10 0 0 0 10 0 0 10).inClip X Y ∧
      ((triCall 10 10 0 0 0 10 0 0 10).edges X Y).1 ≥ 0 ∧
      ((triCall 10 10 0 0 0 10 0 0 10).edges X Y).2.1 ≥ 0 ∧
      ((triCall 10 10 0 0 0 10 0 0 10).edges X Y).2.2 ≥ 0) ↔
    ∃ m n : Nat, 1 ≤ m ∧ m < 9 ∧ 1 ≤ n ∧ n < 9 ∧ m + n ≤ 10 ∧ X = m ∧ Y = n := by
  obtain ⟨-, -, hclip, hbias, -⟩ := rightTriangle_facts
  simp only [TriangleInfo.inClip, TriangleInfo.edges, hclip, hbias, Floor_eq_iff]
  simp only [triCall, edgeFunc]
  constructor
  · rintro ⟨⟨⟨m, rfl⟩, ⟨n, rfl⟩, h1, h2, h3, h4⟩, g0, -, -⟩
    have h1z : 1 ≤ m := by exact_mod_cast h1
    have h2z : m < 9 := by exact_mod_cast h2
    have h3z : 1 ≤ n := by exact_mod_cast h3
    have h4z : n < 9 := by exact_mod_cast h4
    have hsum : ((m + n : Int) : Float64) ≤ 10 := by push_cast; linarith
    have hsumz : m + n ≤ 10 := by exact_mod_cast hsum
    refine ⟨m.toNat, n.toNat, by omega, by omega, by omega, by omega, by omega, ?_, ?_⟩
    · have : ((m.toNat : Int) : Float64) = (m : Float64) := by
        rw [Int.toNat_of_nonneg (by omega)]
      exact_mod_cast this.symm
    · have : ((n.toNat : Int) : Float64) = (n : Float64) := by
        rw [Int.toNat_of_nonneg (by omega)]
      exact_mod_cast this.symm
  · rintro ⟨m, n, hm1, hm, hn1, hn, hmn, rfl, rfl⟩
    have hmq : (m : Float64) < 9 := by exact_mod_cast hm
    have hnq : (n : Float64) < 9 := by exact_mod_cast hn
    have hsq : (m : Float64) + n ≤ 10 := by exact_mod_cast hmn
    have hm0 : (1 : Float64) ≤ m := by exact_mod_cast hm1
    have hn0 : (1 : Float64) ≤ n := by exact_mod_cast hn1
    refine ⟨⟨⟨m, by simp⟩, ⟨n, by simp⟩, hm0, hmq, hn0, hnq⟩, ?_, ?_, ?_⟩
    · linarith
    · linarith
    · linarith

/-- Claim C3 at its input: `DrawTriangle` on `(0,0), (10,0), (0,10)` in a 10x10
buffer invokes the shader 43 times, at pairwise distinct pixels, not 55: the
pixels are those of the columns and rows `1 .. 8` with `X + Y ≤ 10`. -/
theorem DrawTriangle_right_triangle_43 :
    ∃ res, DrawTriangle 9 (triCall 10 10 0 0 0 10 0 0 10) = .returned res ∧
      (triCalls res).length = 43 ∧ ((triCalls res).map TriangleShaderOpts.pixel).Nodup ∧
      ∀ X Y, (X, Y) ∈ (triCalls res).map TriangleShaderOpts.pixel ↔
        ∃ m n : Nat, 1 ≤ m ∧ m < 9 ∧ 1 ≤ n ∧ n < 9 ∧ m + n ≤ 10 ∧ X = m ∧ Y = n := by
  obtain ⟨hwf, harea, -, -, hfuel⟩ := rightTriangle_facts
  have hne : edgeFunc (triCall 10 10 0 0 0 10 0 0 10).X0 (triCall 10 10 0 0 0 10 0 0 10).Y0
      (triCall 10 10 0 0 0 10 0 0 10).X1 (triCall 10 10 0 0 0 10 0 0 10).Y1
      (triCall 10 10 0 0 0 10 0 0 10).X2 (triCall 10 10 0 0 0 10 0 0 10).Y2 ≠ 0 := by
    rw [harea]; norm_num
  obtain ⟨hb, hs, hl, hi, h0, h62⟩ := hwf
  have hret := DrawTriangle_returned _ hb hs hl hi h0 h62 hne 9 hfuel
  have hnd := triChunks_nodup (triCall 10 10 0 0 0 10 0 0 10).normalize
    (shl1 (triCall 10 10 0 0 0 10 0 0 10).normalize.ChunkBits)
  have hmem : ∀ X Y, (X, Y) ∈ (triCalls ((triCall 10 10 0 0 0 10 0 0 10).normalize.chunks
      (shl1 (triCall 10 10 0 0 0 10 0 0 10).normalize.ChunkBits))).map
        TriangleShaderOpts.pixel ↔
      ∃ m n : Nat, 1 ≤ m ∧ m < 9 ∧ 1 ≤ n ∧ n < 9 ∧ m + n ≤ 10 ∧ X = m ∧ Y = n := by
    intro X Y
    have h1 := triShades_iff _ ⟨hb, hs, hl, hi, h0, h62⟩ hne 9 hfuel X Y
    rw [rightTriangle_shaded] at h1
    have h2 : triShades 9 (triCall 10 10 0 0 0 10 0 0 10) X Y ↔
        (X, Y) ∈ (triCalls ((triCall 10 10 0 0 0 10 0 0 10).normalize.chunks
          (shl1 (triCall 10 10 0 0 0 10 0 0 10).normalize.ChunkBits))).map
            TriangleShaderOpts.pixel := by
      unfold triShades
      constructor
      · rintro ⟨res, hres, hp⟩
        rw [hret] at hres
        simp only [Outcome.returned.injEq] at hres
        subst hres
        exact hp
      · intro hp
        exact ⟨_, hret, hp⟩
    rw [← h2, h1]
  refine ⟨_, hret, ?_, hnd, hmem⟩
  have hset : ((triCalls ((triCall 10 10 0 0 0 10 0 0 10).normalize.chunks
      (shl1 (triCall 10 10 0 0 0 10 0 0 10).normalize.ChunkBits))).map
        TriangleShaderOpts.pixel).toFinset =
      (((Finset.range 9 ×ˢ Finset.range 9).filter
        (fun p : Nat × Nat => 1 ≤ p.1 ∧ 1 ≤ p.2 ∧ p.1 + p.2 ≤ 10)).image
        (fun p : Nat × Nat => ((p.1 : Float64), (p.2 : Float64)))) := by
    ext ⟨X, Y⟩
    rw [List.mem_toFinset, hmem]
    simp only [Finset.mem_image, Finset.mem_filter, Finset.mem_product, Finset.mem_range,
      Prod.mk.injEq, Prod.exists]
    constructor
    · rintro ⟨m, n, hm1, hm, hn1, hn, hmn, rfl, rfl⟩
      exact ⟨m, n, ⟨⟨hm, hn⟩, hm1, hn1, hmn⟩, rfl, rfl⟩
    · rintro ⟨m, n, ⟨⟨hm, hn⟩, hm1, hn1, hmn⟩, rfl, rfl⟩
      exact ⟨m, n, hm1, hm, hn1, hn, hmn, rfl, rfl⟩
  have hlen : (triCalls ((triCall 10 10 0 0 0 10 0 0 10).normalize.chunks
      (shl1 (triCall 10 10 0 0 0 10 0 0 10).normalize.ChunkBits))).length =
      ((triCalls ((triCall 10 10 0 0 0 10 0 0 10).normalize.chunks
        (shl1 (triCall 10 10 0 0 0 10 0 0 10).normalize.ChunkBits))).map
          TriangleShaderOpts.pixel).toFinset.card := by
    rw [List.toFinset_card_of_nodup hnd, List.length_map]
  rw [hlen, hset, Finset.card_image_of_injective]
  · decide
  · intro p q hpq
    simp only [Prod.mk.injEq, Nat.cast_inj] at hpq
    exact Prod.ext hpq.1 hpq.2

/-- Witness of claim C4: the right triangle `(0,0), (10,0), (0,10)` in a 10x10
buffer has a shader invocation at the pixel `(1, 1)`, with non-negative
weights and edge functions. -/
theorem DrawTriangle_shader_only_inside_witness :
    ∃ res so, DrawTriangle 9 (triCall 10 10 0 0 0 10 0 0 10) = .returned res ∧
      so ∈ triCalls res ∧ so.pixel = (1, 1) ∧ 0 ≤ so.W0 ∧ 0 ≤ so.W1 ∧ 0 ≤ so.W2 ∧
      0 ≤ edgeFunc 10 0 0 10 so.X so.Y ∧ 0 ≤ edgeFunc 0 10 0 0 so.X so.Y ∧
      0 ≤ edgeFunc 0 0 10 0 so.X so.Y := by
  obtain ⟨hwf, harea, -, -, hfuel⟩ := rightTriangle_facts
  have hne : edgeFunc (triCall 10 10 0 0 0 10 0 0 10).X0 (triCall 10 10 0 0 0 10 0 0 10).Y0
      (triCall 10 10 0 0 0 10 0 0 10).X1 (triCall 10 10 0 0 0 10 0 0 10).Y1
      (triCall 10 10 0 0 0 10 0 0 10).X2 (triCall 10 10 0 0 0 10 0 0 10).Y2 ≠ 0 := by
    rw [harea]; norm_num
  have hsh : triShades 9 (triCall 10 10 0 0 0 10 0 0 10) 1 1 := by
    rw [triShades_iff _ hwf hne 9 hfuel, rightTriangle_shaded]
    exact ⟨1, 1, by norm_num, by norm_num, by norm_num, by norm_num, by norm_num, by norm_num,
      by norm_num⟩
  obtain ⟨res, hres, hp⟩ := hsh
  obtain ⟨so, hso, hpix⟩ := List.mem_map.1 hp
  have h := DrawTriangle_shader_only_inside (triCall 10 10 0 0 0 10 0 0 10) 9 res hres so hso
  exact ⟨res, so, hres, hso, hpix, h.2.2.2.1, h.2.2.2.2.1, h.2.2.2.2.2.1, h.2.2.2.2.2.2.2.1,
    h.2.2.2.2.2.2.2.2.1, h.2.2.2.2.2.2.2.2.2⟩

theorem edgeTri_facts :
    edgeTriA.wellFormed ∧ edgeTriB.wellFormed ∧
    edgeFunc edgeTriA.X0 edgeTriA.Y0 edgeTriA.X1 edgeTriA.Y1 edgeTriA.X2 edgeTriA.Y2 = 6 ∧
    edgeFunc edgeTriB.X0 edgeTriB.Y0 edgeTriB.X1 edgeTriB.Y1 edgeTriB.X2 edgeTriB.Y2 = 6 ∧
    edgeTriA.clip = (1, 3, 5, 5) ∧ edgeTriB.clip = (3, 3, 7, 5) ∧
    edgeTriA.bias = (0, 0, 0) ∧ edgeTriB.bias = (0, 0, 0) ∧
    triFuel edgeTriA ≤ 9 ∧ triFuel edgeTriB ≤ 9 := by
  have hvA : edgeTriA.hasVertices 2 2 4 4 0 3 := by
    simp [TriangleInfo.hasVertices, edgeTriA, triCall]
  have hvB : edgeTriB.hasVertices 4 4 2 2 6 3 := by
    simp [TriangleInfo.hasVertices, edgeTriB, triCall]
  have hcA : edgeTriA.clip = (1, 3, 5, 5) := by
    rw [tri_int_clip _ _ _ _ _ _ _ hvA]
    simp [edgeTriA, triCall]
  have hcB : edgeTriB.clip = (3, 3, 7, 5) := by
    rw [tri_int_clip _ _ _ _ _ _ _ hvB]
    simp [edgeTriB, triCall]
  have hsA : shl1 edgeTriA.normalize.ChunkBits = 8 := by
    rw [(tri_normalize _).2.2.2.2.2.2.2.2.2.2]; decide
  have hsB : shl1 edgeTriB.normalize.ChunkBits = 8 := by
    rw [(tri_normalize _).2.2.2.2.2.2.2.2.2.2]; decide
  refine ⟨⟨rfl, rfl, rfl, rfl, by decide, by decide⟩, ⟨rfl, rfl, rfl, rfl, by decide, by decide⟩,
    ?_, ?_, hcA, hcB, ?_, ?_, ?_, ?_⟩
  · simp [edgeFunc, edgeTriA, triCall]
    norm_num
  · simp [edgeFunc, edgeTriB, triCall]
    norm_num
  · rw [tri_int_bias _ 2 2 4 4 0 3 1 3 hvA (by rw [hcA]; simp) (by rw [hcA]; simp)]
    simp
  · rw [tri_int_bias _ 4 4 2 2 6 3 3 3 hvB (by rw [hcB]; simp) (by rw [hcB]; simp)]
    simp
  · simp only [triFuel, hsA, tileCount, (tri_normalize _).1, hcA]
    norm_num
    decide
  · simp only [triFuel, hsB, tileCount, (tri_normalize _).1, hcB]
    norm_num
    decide

/-- Claim C5 at the failing input: the triangles `(2,2), (4,4), (0,3)` and
`(4,4), (2,2), (6,3)`, drawn into an 8x8 buffer, share the edge between
`(2,2)` and `(4,4)`.  The pixel `(3, 3)` lies on that edge and the shader is
invoked for it by both calls. -/
theorem shared_edge_pixel_shaded_twice :
    edgeFunc 2 2 4 4 3 3 = 0 ∧ triShades 9 edgeTriA 3 3 ∧ triShades 9 edgeTriB 3 3 := by
  obtain ⟨hwA, hwB, haA, haB, hcA, hcB, hbA, hbB, hfA, hfB⟩ := edgeTri_facts
  refine ⟨by norm_num [edgeFunc], ?_, ?_⟩
  · rw [triShades_iff _ hwA (by rw [haA]; norm_num) 9 hfA]
    simp only [TriangleInfo.inClip, TriangleInfo.edges, hcA, hbA, Floor]
    norm_num [edgeTriA, triCall, edgeFunc]
  · rw [triShades_iff _ hwB (by rw [haB]; norm_num) 9 hfB]
    simp only [TriangleInfo.inClip, TriangleInfo.edges, hcB, hbB, Floor]
    norm_num [edgeTriB, triCall, edgeFunc]

/-! ## Quantizer, palette, image conversion, shader and sprite layout -/

theorem colorDither_level (i : Ind2Bit) (intens : Float64) (p : Bool) :
    (if (i.colorDither intens).2 && p then ((i.colorDither intens).1 + 255) % 256
      else (i.colorDither intens).1) =
    if intens ≥ i.Threshold4 then 4
    else if intens ≥ i.Threshold3_5 then (if p then 3 else 4)
    else if intens ≥ i.Threshold3 then 3
    else if intens ≥ i.Threshold2_5 then (if p then 2 else 3)
    else if intens ≥ i.Threshold2 then 2
    else if intens ≥ i.Threshold1_5 then (if p then 1 else 2)
    else 1 := by
  unfold Ind2Bit.colorDither
  by_cases h4 : intens ≥ i.Threshold4
  · simp only [if_pos h4]; cases p <;> rfl
  by_cases h35 : intens ≥ i.Threshold3_5
  · simp only [if_neg h4, if_pos h35]; cases p <;> rfl
  by_cases h3 : intens ≥ i.Threshold3
  · simp only [if_neg h4, if_neg h35, if_pos h3]; cases p <;> rfl
  by_cases h25 : intens ≥ i.Threshold2_5
  · simp only [if_neg h4, if_neg h35, if_neg h3, if_pos h25]; cases p <;> rfl
  by_cases h2 : intens ≥ i.Threshold2
  · simp only [if_neg h4, if_neg h35, if_neg h3, if_neg h25, if_pos h2]; cases p <;> rfl
  by_cases h15 : intens ≥ i.Threshold1_5
  · simp only [if_neg h4, if_neg h35, if_neg h3, if_neg h25, if_neg h2, if_pos h15]
    cases p <;> rfl
  · simp only [if_neg h4, if_neg h35, if_neg h3, if_neg h25, if_neg h2, if_neg h15]
    cases p <;> rfl

/-- Claim C11: for every threshold configuration, every intensity and all
integer pixel coordinates, `Indexize` returns 1, 2, 3 or 4, never 0. -/
theorem Indexize_range (i : Ind2Bit) (intens : Float64) (posx posy : Int) :
    i.Indexize intens posx posy = 1 ∨ i.Indexize intens posx posy = 2 ∨
      i.Indexize intens posx posy = 3 ∨ i.Indexize intens posx posy = 4 := by
  unfold Ind2Bit.Indexize
  dsimp only
  rw [colorDither_level]
  split_ifs <;>
    first
      | exact Or.inl rfl
      | exact Or.inr (Or.inl rfl)
      | exact Or.inr (Or.inr (Or.inl rfl))
      | exact Or.inr (Or.inr (Or.inr rfl))

theorem switchGe_le (default m : Nat) (l : List (Float64 × Nat)) (x : Float64)
    (hd : default ≤ m) (hl : ∀ tv, tv ∈ l → tv.2 ≤ m) : switchGe default l x ≤ m := by
  induction l with
  | nil => exact hd
  | cons tv rest ih =>
    obtain ⟨t, v⟩ := tv
    unfold switchGe
    split_ifs
    · exact hl (t, v) (List.mem_cons_self _ _)
    · exact ih (fun tv h => hl tv (List.mem_cons_of_mem _ h))

theorem switchGe_mono (default : Nat) (l : List (Float64 × Nat))
    (hs : ((l.map Prod.snd) ++ [default]).Pairwise (fun u v => v ≤ u))
    (a b : Float64) (hab : a ≤ b) : switchGe default l a ≤ switchGe default l b := by
  induction l with
  | nil => exact le_refl _
  | cons tv rest ih =>
    obtain ⟨t, v⟩ := tv
    simp only [List.map_cons, List.cons_append, List.pairwise_cons] at hs
    unfold switchGe
    by_cases hb : b ≥ t
    · rw [if_pos hb]
      split_ifs
      · exact le_refl _
      · refine switchGe_le default v rest a (hs.1 default (by simp)) ?_
        intro tv htv
        exact hs.1 tv.2 (by simp; exact Or.inl ⟨tv.1, htv⟩)
    · have ha : ¬ a ≥ t := fun h => hb (le_trans h hab)
      rw [if_neg hb, if_neg ha]
      exact ih hs.2

theorem Indexize_eq_switchGe (i : Ind2Bit) (intens : Float64) (posx posy : Int) :
    i.Indexize intens posx posy =
      switchGe 1 [(i.Threshold4, 4),
        (i.Threshold3_5, if decide (goMod posx 2 = goMod posy 2) then 3 else 4),
        (i.Threshold3, 3),
        (i.Threshold2_5, if decide (goMod posx 2 = goMod posy 2) then 2 else 3),
        (i.Threshold2, 2),
        (i.Threshold1_5, if decide (goMod posx 2 = goMod posy 2) then 1 else 2)] intens := by
  unfold Ind2Bit.Indexize
  dsimp only
  rw [colorDither_level]
  rfl

/-- Claim C13: for every `Ind2Bit` (whatever the order of its thresholds, so for
`Bits2` and for every ascending configuration) and every fixed pixel,
`Indexize` is non-decreasing in the intensity. -/
theorem Indexize_monotone (i : Ind2Bit) (a b : Float64) (hab : a ≤ b) (posx posy : Int) :
    i.Indexize a posx posy ≤ i.Indexize b posx posy := by
  rw [Indexize_eq_switchGe, Indexize_eq_switchGe]
  refine switchGe_mono _ _ ?_ a b hab
  cases decide (goMod posx 2 = goMod posy 2) <;> simp

/-- Witness of claim C13: `Bits2` at the pixel `(3, 5)` and the intensities
`0.2 ≤ 0.5`. -/
theorem Indexize_monotone_witness :
    Bits2.Indexize 0.2 3 5 ≤ Bits2.Indexize 0.5 3 5 :=
  Indexize_monotone Bits2 0.2 0.5 (by norm_num) 3 5

/-- Claim C12 at the failing input: for the intensity `0.2` of the band
`[0.15, 0.3)` the pixels `(-1, 1)` and `(0, 1)` both get the index 2; the
pixel `(-1, 1)`, whose coordinates have equal parity, is not reduced, because
`-1 % 2` is `-1` in Go. -/
theorem Indexize_negative_odd_breaks_checkerboard :
    Bits2.Indexize 0.2 (-1) 1 = 2 ∧ Bits2.Indexize 0.2 (-1 + 1) 1 = 2 := by
  constructor
  · unfold Ind2Bit.Indexize
    dsimp only
    rw [colorDither_level]
    norm_num [Bits2, goMod]
    decide
  · unfold Ind2Bit.Indexize
    dsimp only
    rw [colorDither_level]
    norm_num [Bits2, goMod]
    decide

set_option maxRecDepth 20000 in
/-- Claim C14 at the failing inputs: in a palette of 87 colors the index 87
yields the bytes 2..4 of the palette (`(0, 1, 1)`), not the 87th triplet
`(86, 86, 86)`; in a palette of 86 colors the index 86 panics; the index 85
still yields the 85th triplet `(84, 84, 84)`. -/
theorem Colorize_byte_overflow :
    Palette.Colorize (rampPalette 87) [9, 9, 9, 9] 87 = .ok [0, 1, 1, 255] ∧
      Palette.Colorize (rampPalette 86) [9, 9, 9, 9] 86 = .error "slice bounds out of range" ∧
      Palette.Colorize (rampPalette 87) [9, 9, 9, 9] 85 = .ok [84, 84, 84, 255] := by
  refine ⟨?_, ?_, ?_⟩ <;> rfl

/-- Claim C15 at the failing input: for the pixels `[1, 0]`, the palette
`[10, 20, 30]` and the buffer `[0, 0, 0, 0, 9, 9, 9, 9]`, `ToRGBA` returns
`[10, 20, 30, 0, 0, 0, 0, 9]`: the alpha bytes keep their old values. -/
theorem ToRGBA_leaves_alpha :
    IndexedImage.ToRGBA { Width := 2, Height := 1, Pixels := [1, 0], Colors := 255 }
      { Pixels := some [0, 0, 0, 0, 9, 9, 9, 9], Palette := [10, 20, 30] } =
      .ok [10, 20, 30, 0, 0, 0, 0, 9] := by
  rfl

/-- Claim C16 at the failing input: without a prepared buffer, `ToRGBA` of a
1x1 image returns a slice of length 16, not 4. -/
theorem ToRGBA_nil_buffer_length :
    ∃ out, IndexedImage.ToRGBA { Width := 1, Height := 1, Pixels := [1], Colors := 255 }
      { Pixels := none, Palette := [10, 20, 30] } = .ok out ∧ out.length = 16 :=
  ⟨[10, 20, 30, 0, 0, 0, 0, 0, 0, 0, 0, 0, 0, 0, 0, 0], by rfl, by rfl⟩

/-- Claim C17: an invocation of the closure of `RectShaderIndexed` does one of
three things.  It panics, which happens exactly when the texel index is out
of range or the texel is non-zero and the lights are nil or panic, the
indexizer is nil, or `BufferOffset` is outside the buffer; nothing is written
then.  Or it samples the texel 0 and leaves `o.Buffer` as it is.  Or it
samples a non-zero texel and returns with a buffer of the same length whose
entry at `BufferOffset` is `Indexize(Light(texel, X, Y), X, Y)` and whose
other entries are unchanged. -/
theorem RectShaderIndexed_frame (iim : IndexedImage) (tx0 ty0 tx1 ty1 : Int)
    (lights : Nat → Int → Int → Except String Float64) (indexizer : Float64 → Int → Int → Nat)
    (o : RectangleShaderOpts) :
    ((∃ msg, RectShaderIndexed iim tx0 ty0 tx1 ty1 lights indexizer o = .error msg) ∧
      (rectTexelIndex iim tx0 ty0 tx1 ty1 o < 0 ∨
        (iim.Pixels.length : Int) ≤ rectTexelIndex iim tx0 ty0 tx1 ty1 o ∨
        (iim.Pixels.getD (rectTexelIndex iim tx0 ty0 tx1 ty1 o).toNat 0 ≠ 0 ∧
          (o.HasLights = false ∨
            (∃ e, lights (iim.Pixels.getD (rectTexelIndex iim tx0 ty0 tx1 ty1 o).toNat 0)
              (toInt o.X) (toInt o.Y) = .error e) ∨
            o.HasIndexizer = false ∨ o.Buffer = none ∨
            ∃ buf, o.Buffer = some buf ∧
              (o.BufferOffset < 0 ∨ (buf.length : Int) ≤ o.BufferOffset))))) ∨
    (iim.Pixels.getD (rectTexelIndex iim tx0 ty0 tx1 ty1 o).toNat 0 = 0 ∧
      RectShaderIndexed iim tx0 ty0 tx1 ty1 lights indexizer o = .ok o.Buffer) ∨
    (iim.Pixels.getD (rectTexelIndex iim tx0 ty0 tx1 ty1 o).toNat 0 ≠ 0 ∧
      ∃ (buf buf' : List Nat) (intens : Float64),
        o.Buffer = some buf ∧ 0 ≤ o.BufferOffset ∧ o.BufferOffset < buf.length ∧
        lights (iim.Pixels.getD (rectTexelIndex iim tx0 ty0 tx1 ty1 o).toNat 0)
          (toInt o.X) (toInt o.Y) = .ok intens ∧
        RectShaderIndexed iim tx0 ty0 tx1 ty1 lights indexizer o = .ok (some buf') ∧
        buf'.length = buf.length ∧
        buf'[o.BufferOffset.toNat]? = some (indexizer intens (toInt o.X) (toInt o.Y)) ∧
        ∀ j : Nat, j ≠ o.BufferOffset.toNat → buf'[j]? = buf[j]?) := by
  unfold RectShaderIndexed
  dsimp only
  have hidx : toInt ((((tx1 - tx0 : Int) : Float64) + 1) * o.Px) + tx0 +
      (toInt ((((ty1 - ty0 : Int) : Float64) + 1) * o.Py) + ty0) * iim.Width =
      rectTexelIndex iim tx0 ty0 tx1 ty1 o := rfl
  rw [hidx]
  split_ifs with h1 h2 h3 h4
  · exact Or.inl ⟨⟨_, rfl⟩, by rcases h1 with h | h; exacts [Or.inl h, Or.inr (Or.inl h)]⟩
  · exact Or.inr (Or.inl ⟨h2, rfl⟩)
  · exact Or.inl ⟨⟨_, rfl⟩, Or.inr (Or.inr ⟨h2, Or.inl (by simpa using h3)⟩)⟩
  · cases hl : lights (iim.Pixels.getD (rectTexelIndex iim tx0 ty0 tx1 ty1 o).toNat 0)
      (toInt o.X) (toInt o.Y) with
    | error e => exact Or.inl ⟨⟨e, rfl⟩, Or.inr (Or.inr ⟨h2, Or.inr (Or.inl ⟨e, rfl⟩)⟩)⟩
    | ok intens =>
      exact Or.inl ⟨⟨_, rfl⟩, Or.inr (Or.inr ⟨h2, Or.inr (Or.inr (Or.inl (by simpa using h4)))⟩)⟩
  · cases hl : lights (iim.Pixels.getD (rectTexelIndex iim tx0 ty0 tx1 ty1 o).toNat 0)
      (toInt o.X) (toInt o.Y) with
    | error e => exact Or.inl ⟨⟨e, rfl⟩, Or.inr (Or.inr ⟨h2, Or.inr (Or.inl ⟨e, rfl⟩)⟩)⟩
    | ok intens =>
      cases hb : o.Buffer with
      | none =>
        exact Or.inl ⟨⟨_, rfl⟩,
          Or.inr (Or.inr ⟨h2, Or.inr (Or.inr (Or.inr (Or.inl rfl)))⟩)⟩
      | some buf =>
        dsimp only
        split_ifs with h5
        · exact Or.inl ⟨⟨_, rfl⟩,
            Or.inr (Or.inr ⟨h2, Or.inr (Or.inr (Or.inr (Or.inr ⟨buf, rfl, h5⟩)))⟩)⟩
        · push_neg at h5
          refine Or.inr (Or.inr ⟨h2, buf, _, intens, rfl, h5.1, h5.2, rfl, rfl, by simp, ?_, ?_⟩)
          · have : o.BufferOffset.toNat < buf.length := by omega
            simp [List.getElem?_set, this]
          · intro j hj
            rw [List.getElem?_set_ne (Ne.symm hj)]

theorem addSpritesLoop_row (atl : IndexedImage) (spr : spritesYaml) (pref : String) (y : Int)
    (c : Nat) : ∀ (x : Int) (names : List String) (k : Nat) (kv : String × Sprite),
    rowCells atl.Width spr.Width x c →
    (addSpritesLoop atl spr pref x y names)[k]? = some kv →
    (k < c ∧ (∃ n, names[k]? = some n ∧ kv.1 = pref ++ "." ++ n) ∧
        kv.2.X = x + k * spr.Width ∧ kv.2.Y = y) ∨
      (c ≤ k ∧ (addSpritesLoop atl spr pref 0 (y + spr.Height) (names.drop c))[k - c]? =
        some kv) := by
  induction c with
  | zero =>
    intro x names k kv hc
    exact absurd hc.1 (by omega)
  | succ c ih =>
    intro x names k kv hc hk
    obtain ⟨-, hW, hlt⟩ := hc
    cases names with
    | nil => simp [addSpritesLoop] at hk
    | cons n ns =>
      unfold addSpritesLoop at hk
      dsimp only at hk
      cases c with
      | zero =>
        have hw : x + spr.Width ≥ atl.Width := by
          simpa using hW
        rw [if_pos hw] at hk
        split_ifs at hk with hy
        · cases k with
          | zero =>
            simp only [List.getElem?_cons_zero, Option.some.injEq] at hk
            subst hk
            exact Or.inl ⟨by omega, ⟨n, by simp, rfl⟩, by simp, rfl⟩
          | succ k => simp at hk
        · cases k with
          | zero =>
            simp only [List.getElem?_cons_zero, Option.some.injEq] at hk
            subst hk
            exact Or.inl ⟨by omega, ⟨n, by simp, rfl⟩, by simp, rfl⟩
          | succ k =>
            simp only [List.getElem?_cons_succ] at hk
            exact Or.inr ⟨by omega, by simpa using hk⟩
      | succ c =>
        have hw : ¬ (x + spr.Width ≥ atl.Width) := by
          have := hlt 1 (le_refl _) (by omega)
          simp only [Nat.cast_one, one_mul] at this
          omega
        rw [if_neg hw] at hk
        cases k with
        | zero =>
          simp only [List.getElem?_cons_zero, Option.some.injEq] at hk
          subst hk
          exact Or.inl ⟨by omega, ⟨n, by simp, rfl⟩, by simp, rfl⟩
        | succ k =>
          simp only [List.getElem?_cons_succ] at hk
          have hc' : rowCells atl.Width spr.Width (x + spr.Width) (c + 1) := by
            refine ⟨by omega, ?_, ?_⟩
            · push_cast at hW ⊢
              linarith
            · intro m hm1 hm2
              have := hlt (m + 1) (by omega) (by omega)
              push_cast at this
              linarith
          rcases ih (x + spr.Width) ns k kv hc' hk with ⟨h1, ⟨m, h2, h3⟩, h4, h5⟩ | ⟨h1, h2⟩
          · refine Or.inl ⟨by omega, ⟨m, by simpa using h2, h3⟩, ?_, h5⟩
            rw [h4]; push_cast; ring
          · refine Or.inr ⟨by omega, ?_⟩
            have e : k + 1 - (c + 1 + 1) = k - (c + 1) := by omega
            rw [e]
            simpa using h2

theorem addSpritesLoop_rows (atl : IndexedImage) (spr : spritesYaml) (pref : String)
    (c : Nat) (hc : rowCells atl.Width spr.Width 0 c) :
    ∀ (k : Nat) (y : Int) (names : List String) (kv : String × Sprite),
    (addSpritesLoop atl spr pref 0 y names)[k]? = some kv →
    (∃ n, names[k]? = some n ∧ kv.1 = pref ++ "." ++ n) ∧
      kv.2.X = ((k % c : Nat) : Int) * spr.Width ∧
      kv.2.Y = y + ((k / c : Nat) : Int) * spr.Height := by
  have hc1 : 1 ≤ c := hc.1
  intro k
  induction k using Nat.strong_induction_on with
  | _ k ih =>
    intro y names kv hk
    rcases addSpritesLoop_row atl spr pref y c 0 names k kv hc hk with
      ⟨h1, h2, h3, h4⟩ | ⟨h1, h2⟩
    · refine ⟨h2, ?_, ?_⟩
      · rw [Nat.mod_eq_of_lt h1, h3]; ring
      · rw [Nat.div_eq_of_lt h1, h4]; simp
    · obtain ⟨⟨n, h3, h4⟩, h5, h6⟩ := ih (k - c) (by omega) (y + spr.Height) (names.drop c) kv h2
      refine ⟨⟨n, ?_, h4⟩, ?_, ?_⟩
      · rw [List.getElem?_drop] at h3
        have e : c + (k - c) = k := by omega
        rw [e] at h3
        exact h3
      · rw [h5, ← Nat.mod_eq_sub_mod h1]
      · rw [h6]
        have e : k / c = (k - c) / c + 1 := by
          rw [Nat.div_eq_sub_div (by omega) h1]
        rw [e]
        push_cast
        ring

/-- Claim C20, amended for the rows after the first, which start at `x = 0`:
when the first row (from `XOffs`) has `c0` cells and a row from `0` has `c`
cells, the `k`-th assignment of `addSprites` is made for the `k`-th name,
under the key `pref.name`; the sprite is at `(XOffs + k * Width, YOffs)` for
`k < c0` and at `(((k - c0) mod c) * Width, YOffs + (1 + (k - c0) div c) *
Height)` for `k ≥ c0`. -/
theorem addSprites_layout (atl : IndexedImage) (spr : spritesYaml) (pref : String)
    (c0 c : Nat) (h0 : rowCells atl.Width spr.Width spr.XOffs c0)
    (hc : rowCells atl.Width spr.Width 0 c) (k : Nat) (kv : String × Sprite)
    (hk : (addSpritesLoop atl spr pref spr.XOffs spr.YOffs spr.Names)[k]? = some kv) :
    (∃ n, spr.Names[k]? = some n ∧ kv.1 = pref ++ "." ++ n) ∧
      (k < c0 → kv.2.X = spr.XOffs + k * spr.Width ∧ kv.2.Y = spr.YOffs) ∧
      (c0 ≤ k → kv.2.X = (((k - c0) % c : Nat) : Int) * spr.Width ∧
        kv.2.Y = spr.YOffs + (1 + (((k - c0) / c : Nat) : Int)) * spr.Height) := by
  rcases addSpritesLoop_row atl spr pref spr.YOffs c0 spr.XOffs spr.Names k kv h0 hk with
    ⟨h1, h2, h3, h4⟩ | ⟨h1, h2⟩
  · exact ⟨h2, fun _ => ⟨h3, h4⟩, fun h => absurd h1 (by omega)⟩
  · obtain ⟨⟨n, h3, h4⟩, h5, h6⟩ :=
      addSpritesLoop_rows atl spr pref c hc (k - c0) (spr.YOffs + spr.Height)
        (spr.Names.drop c0) kv h2
    refine ⟨⟨n, ?_, h4⟩, fun h => absurd h (by omega), fun _ => ⟨h5, ?_⟩⟩
    · rw [List.getElem?_drop] at h3
      have e : c0 + (k - c0) = k := by omega
      rw [e] at h3
      exact h3
    · rw [h6]; ring

theorem rowCells_32_16 : rowCells 32 16 0 2 ∧ rowCells 32 16 16 1 := by
  refine ⟨⟨by norm_num, by norm_num, ?_⟩, ⟨by norm_num, by norm_num, ?_⟩⟩
  · intro n h1 h2
    have : n = 1 := by omega
    subst this
    norm_num
  · intro n h1 h2
    omega

/-- Witness of claim C20: of three 16x16 names in a 32x32 atlas the third is
registered as `atl.c` at `(0, 16)`. -/
theorem addSprites_layout_witness :
    ∃ kv, (addSpritesLoop (blankAtlas 32 32) (row16 0 0 ["a", "b", "c"]) "atl" 0 0
        ["a", "b", "c"])[2]? = some kv ∧ kv.1 = "atl.c" ∧ kv.2.X = 0 ∧ kv.2.Y = 16 := by
  have hk : (addSpritesLoop (blankAtlas 32 32) (row16 0 0 ["a", "b", "c"]) "atl"
      (row16 0 0 ["a", "b", "c"]).XOffs (row16 0 0 ["a", "b", "c"]).YOffs
      (row16 0 0 ["a", "b", "c"]).Names)[2]? =
      some ("atl.c", spriteAt (blankAtlas 32 32) 0 16 16 16) := by rfl
  obtain ⟨⟨n, h1, h2⟩, -, h3⟩ := addSprites_layout (blankAtlas 32 32)
    (row16 0 0 ["a", "b", "c"]) "atl" 2 2 rowCells_32_16.1 rowCells_32_16.1 2 _ hk
  exact ⟨_, hk, rfl, (h3 (le_refl _)).1.trans (by simp), (h3 (le_refl _)).2.trans (by simp [row16])⟩

/-- Counterexample to claim C20 as stated: with `XOffs = 16` in a 32x32 atlas
the second 16x16 name is at `(0, 16)`; its `x` is not
`XOffs + (1 mod c) * Width` for any number `c` of cells per row. -/
theorem addSprites_second_row_starts_at_zero :
    ∃ kv, (addSpritesLoop (blankAtlas 32 32) (row16 16 0 ["a", "b"]) "atl"
        (row16 16 0 ["a", "b"]).XOffs (row16 16 0 ["a", "b"]).YOffs
        (row16 16 0 ["a", "b"]).Names)[1]? = some kv ∧
      kv.1 = "atl.b" ∧ kv.2.X = 0 ∧ kv.2.Y = 16 ∧
      ∀ c : Nat, kv.2.X ≠ (row16 16 0 ["a", "b"]).XOffs +
        ((1 % c : Nat) : Int) * (row16 16 0 ["a", "b"]).Width := by
  refine ⟨("atl.b", spriteAt (blankAtlas 32 32) 0 16 16 16), by rfl, rfl, rfl, rfl, ?_⟩
  intro c
  show (0 : Int) ≠ 16 + ((1 % c : Nat) : Int) * 16
  have : (0 : Int) ≤ ((1 % c : Nat) : Int) := Int.natCast_nonneg _
  omega

theorem addSprites_spec_example :
    (addSpritesLoop (blankAtlas 32 16) (row16 0 0 ["a", "b"]) "atl" 0 0 ["a", "b"]).map
      (fun kv => (kv.1, kv.2.X, kv.2.Y, kv.2.Width, kv.2.Height)) =
      [("atl.a", 0, 0, 16, 16), ("atl.b", 16, 0, 16, 16)] := by
  rfl

theorem rect_int_clip (ri : RectangleInfo) (x y w h : Int) (hx : ri.X = x) (hy : ri.Y = y)
    (hw : ri.W = w) (hh : ri.H = h) (hw0 : 0 ≤ w) (hh0 : 0 ≤ h) :
    ri.normalize.clip =
      (((max (x + 1) 0 : Int) : Float64), ((max (y + 1) 0 : Int) : Float64),
        ((min (x + 1 + w) (ri.BufferWidth - 1) : Int) : Float64),
        ((min (y + 1 + h) (ri.BufferHeight - 1) : Int) : Float64)) := by
  have hwq : ¬ (ri.W < 0) := by rw [hw]; exact_mod_cast not_lt.2 hw0
  have hhq : ¬ (ri.H < 0) := by rw [hh]; exact_mod_cast not_lt.2 hh0
  dsimp only [RectangleInfo.normalize]
  split_ifs <;>
    simp [RectangleInfo.clip, hx, hy, hw, hh, Floor_int_add_sm, Floor_int]

/-- Claim C18 at the failing input: `DrawRectangle` with a buffer and a shader
but nil lights and nil indexizer does not abort; it returns and has invoked
the shader for the pixel `(1, 1)`. -/
theorem DrawRectangle_nil_lights_draws :
    (rectCallNoLights 4 4 0 0 0 2 2).HasLights = false ∧
      (rectCallNoLights 4 4 0 0 0 2 2).HasIndexizer = false ∧
      ∃ res, DrawRectangle (rectFuel (rectCallNoLights 4 4 0 0 0 2 2))
          (rectCallNoLights 4 4 0 0 0 2 2) = .returned res ∧
        (1, 1) ∈ (rectCalls res).map RectangleShaderOpts.pixel := by
  have hc : (rectCallNoLights 4 4 0 0 0 2 2).normalize.clip = (1, 1, 3, 3) := by
    rw [rect_int_clip _ 0 0 2 2 (by simp [rectCallNoLights]) (by simp [rectCallNoLights])
      (by simp [rectCallNoLights]) (by simp [rectCallNoLights]) (by norm_num) (by norm_num)]
    simp [rectCallNoLights]
  have hs : shl1 (rectCallNoLights 4 4 0 0 0 2 2).normalize.ChunkBits = 8 := by
    rw [normalize_ChunkBits]; decide
  refine ⟨rfl, rfl, _, DrawRectangle_returned _ (by rfl) (by rfl) (by decide) (by decide)
    (by simp [rectCallNoLights]) (by simp [rectCallNoLights]) _ (le_refl _), ?_⟩
  rw [hs, rectChunks_mem _ _ (by norm_num)]
  simp only [RectangleInfo.inClip, hc, Floor]
  norm_num

/-- Claim C19: for a triangle of edge-function area 0, `DrawTriangle` with
non-nil buffer, shader, lights and indexizer and a non-negative `ChunkBits`
returns, with any fuel, without a chunk and without a shader invocation. -/
theorem DrawTriangle_degenerate_noop (ti : TriangleInfo) (hbuf : ti.Buffer.isSome = true)
    (hsh : ti.HasShader = true) (hl : ti.HasLights = true) (hi : ti.HasIndexizer = true)
    (hbits : 0 ≤ ti.ChunkBits)
    (harea : edgeFunc ti.X0 ti.Y0 ti.X1 ti.Y1 ti.X2 ti.Y2 = 0) (fuel : Nat) :
    DrawTriangle fuel ti = .returned [] := by
  obtain ⟨-, -, -, -, e0, e1, e2, e3, e4, e5, eb⟩ := tri_normalize ti
  have hb : 0 ≤ ti.normalize.ChunkBits := by
    rw [eb]; split_ifs <;> omega
  have hbn : ti.Buffer.isNone = false := by
    cases hB : ti.Buffer with
    | none => rw [hB] at hbuf; simp at hbuf
    | some b => rfl
  unfold DrawTriangle
  simp only [hbn, hsh, hl, hi, if_false, Bool.not_true, Bool.false_eq_true, not_lt.2 hb,
    e0, e1, e2, e3, e4, e5, harea, if_true]

/-- Witness of claim C19: the collinear vertices `(0,0), (1,1), (2,2)`. -/
theorem DrawTriangle_degenerate_noop_witness :
    DrawTriangle 0 (triCall 10 10 0 0 0 1 1 2 2) = .returned [] :=
  DrawTriangle_degenerate_noop _ (by rfl) (by rfl) (by rfl) (by rfl) (by decide)
    (by simp [edgeFunc, triCall]) 0

/-! ## Sprite drawing, image conversion, alignment, matrices and buffer offsets -/

/-- Claim C21 at the failing input: in an atlas of 32x24 with cells of 16x16
the names of the second row are registered at `y = 16`.  The sprite `atl.d`,
at which the row wraps, is clipped to the height 8; the sprite `atl.c` before
it keeps the height 16 and ends at `Y + Height = 32 > 24`. -/
theorem addSprites_last_row_not_clipped :
    (addSpritesLoop (blankAtlas 32 24) (row16 0 0 ["a", "b", "c", "d"]) "atl"
        (row16 0 0 ["a", "b", "c", "d"]).XOffs (row16 0 0 ["a", "b", "c", "d"]).YOffs
        (row16 0 0 ["a", "b", "c", "d"]).Names).map
      (fun kv => (kv.1, kv.2.X, kv.2.Y, kv.2.Width, kv.2.Height)) =
      [("atl.a", 0, 0, 16, 16), ("atl.b", 16, 0, 16, 16), ("atl.c", 0, 16, 16, 16),
        ("atl.d", 16, 16, 16, 8)] ∧
      (16 : Int) + 16 > (blankAtlas 32 24).Height := by
  constructor
  · rfl
  · decide

/-- Claim C23 at the failing input: with `AlphaThreshold = -1` the image of one
opaque black pixel is converted to the pixel index 0, the no-color value. -/
theorem IndexedImageFromImage_black_pixel_invisible :
    IndexedImageFromImage blackPixel { Colors := 0, AlphaThreshold := -1 } =
      .ok (some { Width := 1, Height := 1, Pixels := [0], Colors := 255 }) := by
  have hp : IndexedImageFromImage.pixel blackPixel 255 (-1) 1 0 = some 0 := by
    simp only [IndexedImageFromImage.pixel, blackPixel]
    norm_num [toInt]
  have hr : List.range (1 * 1 : Int).toNat = [0] := by decide
  simp only [IndexedImageFromImage]
  norm_num [blackPixel] at hp ⊢
  simp [blackPixel, hr, IndexedImageFromImage.loop, hp]

/-- Claim C24 at the failing input: `Identity3.DotMatrix(Identity3)` has the
entry 0 at index 8, where `Identity3` and the matrix product have 1. -/
theorem DotMatrix_identity_not_identity :
    Matrix3.DotMatrix Identity3 Identity3 8 = 0 ∧ Identity3 8 = 1 ∧
      Matrix3.productEntry Identity3 Identity3 2 2 = 1 := by
  have h2 : Identity3 2 = 0 := rfl
  have h5 : Identity3 5 = 0 := rfl
  have h6 : Identity3 6 = 0 := rfl
  have h7 : Identity3 7 = 0 := rfl
  have h8 : Identity3 8 = 1 := rfl
  refine ⟨?_, rfl, ?_⟩
  · show Identity3 6 * Identity3 2 + Identity3 7 * Identity3 5 + Identity3 7 * Identity3 8 = 0
    rw [h6, h7]; ring
  · simp only [Matrix3.productEntry, Fin.sum_univ_succ, Fin.sum_univ_zero]
    show Identity3 6 * Identity3 2 + (Identity3 7 * Identity3 5 +
      (Identity3 8 * Identity3 8 + 0)) = 1
    rw [h6, h7, h8]; ring

/-- Claim C25 at the failing inputs: for every `x` and `w`, `Center.LineInt`
returns `x - w` and `Right.LineInt` returns `x - w/2` (the two are swapped;
`Left` returns `x`), and so `Center.RectInt(10, 10, 4, 4)` is `(6, 6)` and
`BottomRight.RectInt(10, 10, 4, 4)` is `(8, 8)`. -/
theorem LineInt_center_right_swapped :
    (∀ x w : Int, Align.LineInt Center x w = x - w ∧
      Align.LineInt Right x w = x - Int.tdiv w 2 ∧ Align.LineInt Left x w = x) ∧
    Align.RectInt Center 10 10 4 4 = (6, 6) ∧ Align.RectInt BottomRight 10 10 4 4 = (8, 8) ∧
    Align.RectInt TopLeft 10 10 4 4 = (10, 10) := by
  refine ⟨fun x w => ⟨rfl, rfl, rfl⟩, ?_, ?_, ?_⟩ <;> decide

/-- Claim C29 at the failing input: the coordinate `1/4` is rounded to
`floor(1/4 + sm) = 1`, at the distance `3/4` from it, not to the nearest
pixel 0. -/
theorem Floor_add_sm_quarter :
    Floor ((1 / 4 : Float64) + sm) = 1 ∧ ¬ |(1 : Float64) - 1 / 4| ≤ 1 / 2 := by
  constructor
  · rw [Floor]
    have : ⌊(1 / 4 : Float64) + sm⌋ = 1 := by
      rw [Int.floor_eq_iff]
      unfold sm
      constructor <;> norm_num
    exact_mod_cast this
  · norm_num [abs_of_pos]

theorem ReportSprite_spec (d : Display) (name : String) :
    (d.ReportSprite name).2 = (if name ∈ d.reported then [] else [reportLine name]) ∧
      name ∈ (d.ReportSprite name).1.reported ∧
      (d.ReportSprite name).1.Screen = d.Screen ∧ (d.ReportSprite name).1.RGBA = d.RGBA ∧
      (d.ReportSprite name).1.Sprites = d.Sprites := by
  unfold Display.ReportSprite Display.reported
  dsimp only
  split_ifs with h
  · exact ⟨rfl, h, rfl, rfl, rfl⟩
  · exact ⟨rfl, List.mem_cons_self _ _, rfl, rfl, rfl⟩

theorem call_missing (d : Display) (fuel : Nat) (c : SpriteCall)
    (hmiss : List.lookup c.Name d.Sprites = none) :
    d.call fuel c = .returned (d.ReportSprite c.Name) := by
  cases c with
  | sprite name x y =>
    simp only [SpriteCall.Name] at hmiss
    simp only [Display.call, Display.DrawSprite, Display.DrawSpriteAdvanced, hmiss,
      SpriteCall.Name]
  | advanced o =>
    simp only [SpriteCall.Name] at hmiss
    simp only [Display.call, Display.DrawSpriteAdvanced, hmiss, SpriteCall.Name]

theorem callAll_missing (name : String) (fuel : Nat) (calls : List SpriteCall) :
    ∀ d : Display, List.lookup name d.Sprites = none → (∀ c, c ∈ calls → c.Name = name) →
    ∃ d1 : Display, d.callAll fuel calls =
        .returned (d1, if calls.length = 0 ∨ name ∈ d.reported then [] else [reportLine name]) ∧
      d1.Screen = d.Screen ∧ d1.RGBA = d.RGBA ∧ d1.Sprites = d.Sprites := by
  induction calls with
  | nil =>
    intro d _ _
    exact ⟨d, by simp [Display.callAll], rfl, rfl, rfl⟩
  | cons c cs ih =>
    intro d hmiss hn
    have hc : c.Name = name := hn c (List.mem_cons_self _ _)
    obtain ⟨h1, h2, h3, h4, h5⟩ := ReportSprite_spec d name
    obtain ⟨d1, g1, g2, g3, g4⟩ := ih (d.ReportSprite name).1 (by rw [h5]; exact hmiss)
      (fun c2 hc2 => hn c2 (List.mem_cons_of_mem _ hc2))
    refine ⟨d1, ?_, g2.trans h3, g3.trans h4, g4.trans h5⟩
    rw [Display.callAll, call_missing d fuel c (by rw [hc]; exact hmiss), hc]
    simp [g1, h1, h2]

/-- Claim C22: for a name that is not a key of `Sprites`, every sequence of one
or more `DrawSprite` and `DrawSpriteAdvanced` calls with that name returns,
with any fuel, leaves the screen buffer, the RGBA buffer and the sprites
unchanged, and writes exactly one line to the log in total, for that name,
when the name was not reported on the display before (and none when it was). -/
theorem DrawSprite_missing_logs_once (d : Display) (name : String) (fuel : Nat)
    (calls : List SpriteCall) (hmiss : List.lookup name d.Sprites = none)
    (hne : 1 ≤ calls.length) (hn : ∀ c, c ∈ calls → c.Name = name) :
    ∃ d1 : Display, d.callAll fuel calls =
        .returned (d1, if name ∈ d.reported then [] else [reportLine name]) ∧
      d1.Screen = d.Screen ∧ d1.RGBA = d.RGBA ∧ d1.Sprites = d.Sprites := by
  obtain ⟨d1, h1, h2⟩ := callAll_missing name fuel calls d hmiss hn
  refine ⟨d1, ?_, h2⟩
  rw [h1]
  have : ¬ calls.length = 0 := by omega
  simp [this]

/-- Witness of claim C22: three calls for the unregistered name `atl.b` on a
display that has reported nothing write one line. -/
theorem DrawSprite_missing_logs_once_witness :
    ∃ d1 : Display, spriteDisplay.callAll 0
        [.sprite "atl.b" 1 2, .advanced (spriteOpts "atl.b" 3 4 8 8), .sprite "atl.b" 5 6] =
        .returned (d1, [reportLine "atl.b"]) ∧
      d1.Screen = spriteDisplay.Screen ∧ d1.RGBA = spriteDisplay.RGBA ∧
      d1.Sprites = spriteDisplay.Sprites :=
  DrawSprite_missing_logs_once spriteDisplay "atl.b" 0 _ (by simp [spriteDisplay, List.lookup])
    (by decide)
    (by intro c hc; simp at hc; rcases hc with h | h | h <;> subst h <;> rfl)


theorem goCopy_length (dst src : List Nat) : (goCopy dst src).length = dst.length := by
  simp only [goCopy, List.length_append, List.length_take, List.length_drop]
  omega

theorem Fill_loop_spec (v : Nat) (n : Nat) : ∀ (i : Nat) (hi : 0 < i) (px : List Nat),
    px.length - i ≤ n →
    px = List.replicate (min i px.length) v ++ px.drop (min i px.length) →
    IndexedImage.Fill.loop i hi px = List.replicate px.length v := by
  induction n with
  | zero =>
    intro i hi px hn hpx
    have hle : px.length ≤ i := by omega
    rw [IndexedImage.Fill.loop, dif_neg (by omega)]
    rw [min_eq_right hle, List.drop_length, List.append_nil] at hpx
    exact hpx
  | succ n ih =>
    intro i hi px hn hpx
    by_cases h : i < px.length
    · rw [IndexedImage.Fill.loop, dif_pos h]
      have hlen : (px.take i ++ goCopy (px.drop i) (px.take i)).length = px.length := by
        rw [List.length_append, goCopy_length, List.length_take, List.length_drop]
        omega
      rw [ih (i * 2) (by omega) _ (by rw [hlen]; omega), hlen]
      rw [hlen]
      rw [min_eq_left (le_of_lt h)] at hpx
      have ht : px.take i = List.replicate i v := by
        conv_lhs => rw [hpx]
        rw [List.take_append_of_le_length (by simp)]
        simp
      rw [ht]
      simp only [goCopy, List.length_drop, List.length_replicate, List.take_replicate,
        List.drop_drop]
      have hm : (px.length - i) ⊓ i ⊓ i = (px.length - i) ⊓ i := by omega
      have e : i * 2 ⊓ px.length = i + (px.length - i) ⊓ i := by omega
      rw [hm, e, ← List.append_assoc, ← List.replicate_add]
      have hl : (List.replicate (i + (px.length - i) ⊓ i) v).length = i + (px.length - i) ⊓ i :=
        List.length_replicate _ _
      rw [List.drop_left' hl]
    · have hle : px.length ≤ i := by omega
      rw [IndexedImage.Fill.loop, dif_neg h]
      rw [min_eq_right hle, List.drop_length, List.append_nil] at hpx
      exact hpx

/-- Claim C30: for an image with at least one pixel, `Fill(v)` returns and
leaves `Pixels` with the same length and every entry equal to `v`; the other
fields are unchanged. -/
theorem Fill_fills (iim : IndexedImage) (v : Nat) (h : 1 ≤ iim.Pixels.length) :
    iim.Fill v = .ok { iim with Pixels := List.replicate iim.Pixels.length v } := by
  have hne : iim.Pixels.length ≠ 0 := by omega
  rw [IndexedImage.Fill, if_neg hne]
  have hs : (iim.Pixels.set 0 v).length = iim.Pixels.length := List.length_set _ _ _
  have := Fill_loop_spec v (iim.Pixels.set 0 v).length 1 (by decide) (iim.Pixels.set 0 v)
    (by omega) (by
      rw [hs, min_eq_left h]
      cases hp : iim.Pixels with
      | nil => rw [hp] at h; simp at h
      | cons a t => simp)
  rw [this, hs]

/-- Witness of claim C30: three pixels, a length that is not a power of two. -/
theorem Fill_fills_witness :
    IndexedImage.Fill { Width := 3, Height := 1, Pixels := [1, 2, 3], Colors := 255 } 7 =
      .ok { Width := 3, Height := 1, Pixels := [7, 7, 7], Colors := 255 } :=
  Fill_fills _ 7 (by decide)


theorem toInt_intCast (n : Int) : toInt (n : Float64) = n := by
  unfold toInt
  split_ifs <;> simp

theorem rectProcess_sound (c : RectangleChunk) (fuel : Nat) (calls : List RectangleShaderOpts)
    (h : c.Process fuel = .returned calls) (so : RectangleShaderOpts) (hso : so ∈ calls) :
    ∃ b a : Nat, so = c.optsAt b a ∧ (a : Float64) < c.Width ∧ (b : Float64) < c.Height := by
  unfold RectangleChunk.Process at h
  obtain ⟨b, out, hcb, hb, hmem⟩ := forLoop_mem _ _ _ fuel _ _ h so hso
  rw [rectRow_iterate] at hb hcb
  obtain ⟨a, out2, hca, ha, hmem2⟩ := forLoop_mem _ _ _ fuel _ _ hb so hmem
  rw [rectCol_iterate] at ha hca
  simp only [Outcome.returned.injEq] at ha
  subst ha
  rw [List.mem_singleton] at hmem2
  refine ⟨b, a, ?_, ?_, ?_⟩
  · rw [hmem2]; rfl
  · simpa using hca
  · simpa using hcb

theorem rectChunkLoops_sound (ri : RectangleInfo) (cs : Int) (fuel : Nat)
    (res : List (RectangleChunk × List RectangleShaderOpts))
    (h : ri.chunkLoops fuel cs = .returned res) (so : RectangleShaderOpts)
    (hso : so ∈ rectCalls res) :
    ∃ j i b a : Nat, so = (ri.chunkAt cs j i).optsAt b a ∧
      (a : Float64) < (ri.chunkAt cs j i).Width ∧ (b : Float64) < (ri.chunkAt cs j i).Height := by
  unfold rectCalls at hso
  obtain ⟨c, hc, hsoc⟩ := List.mem_flatMap.1 hso
  unfold RectangleInfo.chunkLoops at h
  obtain ⟨j, out, -, hj, hmem⟩ := forLoop_mem _ _ _ fuel _ _ h c hc
  rw [rectChunkRow_iterate] at hj
  obtain ⟨i, out2, -, hi, hmem2⟩ := forLoop_mem _ _ _ fuel _ _ hj c hmem
  rw [rectChunkCol_iterate] at hi
  simp only [] at hi
  split at hi
  · next calls hP =>
    simp only [Outcome.returned.injEq] at hi
    subst hi
    rw [List.mem_singleton] at hmem2
    subst hmem2
    obtain ⟨b, a, h1, h2, h3⟩ := rectProcess_sound _ fuel calls hP so hsoc
    exact ⟨j, i, b, a, h1, h2, h3⟩
  · simp at hi
  · simp at hi

/-- Arithmetic of a pixel of a chunk: column `a` of chunk column `i` in the
tiling of the integer interval `[x0, x1)` with chunks of size `cs`. -/
theorem tile_pixel (x0 x1 cs : Int) (i a : Nat)
    (ha : (a : Float64) < if (x1 : Float64) - (x0 + i * (cs : Float64)) > (cs : Float64)
      then (cs : Float64) else (x1 : Float64) - (x0 + i * (cs : Float64))) :
    0 < cs ∧ x0 ≤ x0 + i * cs + a ∧ x0 + i * cs + a < x1 := by
  have ha0 : (0 : Float64) ≤ (a : Float64) := Nat.cast_nonneg a
  have hi0 : (0 : Float64) ≤ (i : Float64) := Nat.cast_nonneg i
  have key : (0 : Float64) < cs ∧ (x0 : Float64) + i * cs + a < x1 := by
    split_ifs at ha with h
    · exact ⟨by linarith, by linarith⟩
    · push_neg at h
      exact ⟨by linarith, by linarith⟩
  have hcs : 0 < cs := by exact_mod_cast key.1
  refine ⟨hcs, ?_, ?_⟩
  · have : 0 ≤ (i : Int) * cs := mul_nonneg (Int.natCast_nonneg i) (le_of_lt hcs)
    have := Int.natCast_nonneg a
    omega
  · have := key.2
    exact_mod_cast this

theorem offset_core (x0 y0 x1 y1 bw bh cs : Int) (j i b a : Nat)
    (hx0 : 0 ≤ x0) (hy0 : 0 ≤ y0) (hx1 : x1 ≤ bw - 1) (hy1 : y1 ≤ bh - 1)
    (ha : (a : Float64) < if (x1 : Float64) - (x0 + i * (cs : Float64)) > (cs : Float64)
      then (cs : Float64) else (x1 : Float64) - (x0 + i * (cs : Float64)))
    (hb : (b : Float64) < if (y1 : Float64) - (y0 + j * (cs : Float64)) > (cs : Float64)
      then (cs : Float64) else (y1 : Float64) - (y0 + j * (cs : Float64))) :
    ∃ X Y : Int, (x0 : Float64) + i * (cs : Float64) + a = X ∧
      (y0 : Float64) + j * (cs : Float64) + b = Y ∧
      toInt (x0 : Float64) + toInt (y0 : Float64) * bw + j * (bw * cs) + i * cs + b * bw + a =
        X + Y * bw ∧
      0 ≤ X ∧ X < bw - 1 ∧ 0 ≤ Y ∧ Y < bh - 1 := by
  obtain ⟨-, hX0, hX1⟩ := tile_pixel x0 x1 cs i a ha
  obtain ⟨-, hY0, hY1⟩ := tile_pixel y0 y1 cs j b hb
  refine ⟨x0 + i * cs + a, y0 + j * cs + b, by push_cast; ring, by push_cast; ring, ?_,
    by omega, by omega, by omega, by omega⟩
  rw [toInt_intCast, toInt_intCast]
  ring

theorem offset_range (X Y bw bh : Int) (hX0 : 0 ≤ X) (hX1 : X < bw - 1) (hY0 : 0 ≤ Y)
    (hY1 : Y < bh - 1) : 0 ≤ X + Y * bw ∧ X + Y * bw < bw * bh := by
  have hbw : 0 ≤ bw := by omega
  constructor
  · have := mul_nonneg hY0 hbw
    omega
  · have h1 : Y * bw ≤ (bh - 2) * bw := mul_le_mul_of_nonneg_right (by omega) hbw
    have h2 : (bh - 2) * bw = bw * bh - 2 * bw := by ring
    omega

theorem offset_inj (X Y X2 Y2 bw : Int) (hX0 : 0 ≤ X) (hX1 : X < bw - 1) (hX20 : 0 ≤ X2)
    (hX21 : X2 < bw - 1) (h : X + Y * bw = X2 + Y2 * bw) : X = X2 ∧ Y = Y2 := by
  have hbw : 0 < bw := by omega
  have hY : Y = Y2 := by
    rcases lt_trichotomy Y Y2 with hlt | heq | hgt
    · exfalso
      have : (Y + 1) * bw ≤ Y2 * bw := mul_le_mul_of_nonneg_right (by omega) (le_of_lt hbw)
      have e : (Y + 1) * bw = Y * bw + bw := by ring
      omega
    · exact heq
    · exfalso
      have : (Y2 + 1) * bw ≤ Y * bw := mul_le_mul_of_nonneg_right (by omega) (le_of_lt hbw)
      have e : (Y2 + 1) * bw = Y2 * bw + bw := by ring
      omega
  subst hY
  exact ⟨by omega, rfl⟩

theorem rectClip_bounds (ri : RectangleInfo) : ∃ x0 y0 x1 y1 : Int,
    ri.clip.1 = x0 ∧ ri.clip.2.1 = y0 ∧ ri.clip.2.2.1 = x1 ∧ ri.clip.2.2.2 = y1 ∧
      0 ≤ x0 ∧ 0 ≤ y0 ∧ x1 ≤ ri.BufferWidth - 1 ∧ y1 ≤ ri.BufferHeight - 1 := by
  obtain ⟨x0, y0, x1, y1, h0, h1, h2, h3⟩ := rectClip_int ri
  refine ⟨x0, y0, x1, y1, h0, h1, h2, h3, ?_, ?_, ?_, ?_⟩
  · have : (0 : Float64) ≤ ri.clip.1 := le_max_right _ _
    rw [h0] at this
    exact_mod_cast this
  · have : (0 : Float64) ≤ ri.clip.2.1 := le_max_right _ _
    rw [h1] at this
    exact_mod_cast this
  · have : ri.clip.2.2.1 ≤ ((ri.BufferWidth - 1 : Int) : Float64) := min_le_right _ _
    rw [h2] at this
    exact_mod_cast this
  · have : ri.clip.2.2.2 ≤ ((ri.BufferHeight - 1 : Int) : Float64) := min_le_right _ _
    rw [h3] at this
    exact_mod_cast this

/-- Every shader invocation of a rectangle call that returned: its pixel has
integer coordinates inside the buffer and its offset is the pixel's. -/
theorem DrawRectangle_offset (fuel : Nat) (ri : RectangleInfo)
    (res : List (RectangleChunk × List RectangleShaderOpts))
    (h : DrawRectangle fuel ri = .returned res) (so : RectangleShaderOpts)
    (hso : so ∈ rectCalls res) :
    ∃ X Y : Int, so.X = X ∧ so.Y = Y ∧ so.BufferOffset = X + Y * ri.BufferWidth ∧
      0 ≤ X ∧ X < ri.BufferWidth - 1 ∧ 0 ≤ Y ∧ Y < ri.BufferHeight - 1 := by
  dsimp only [DrawRectangle] at h
  split_ifs at h with h1 h2 h3 h4
  · simp only [Outcome.returned.injEq] at h
    subst h
    simp [rectCalls] at hso
  · obtain ⟨j, i, b, a, hso, ha, hb⟩ := rectChunkLoops_sound _ _ fuel res h so hso
    obtain ⟨x0, y0, x1, y1, e0, e1, e2, e3, b0, b1, b2, b3⟩ := rectClip_bounds ri.normalize
    rw [(normalize_Buffer ri).1] at b2
    rw [(normalize_Buffer ri).2] at b3
    simp only [RectangleInfo.chunkAt, e0, e1, e2, e3] at ha hb
    obtain ⟨X, Y, hX, hY, hoff, r0, r1, r2, r3⟩ :=
      offset_core x0 y0 x1 y1 ri.BufferWidth ri.BufferHeight _ j i b a b0 b1 b2 b3 ha hb
    refine ⟨X, Y, ?_, ?_, ?_, r0, r1, r2, r3⟩
    · rw [hso, ← hX, ← e0]; rfl
    · rw [hso, ← hY, ← e1]; rfl
    · rw [hso, ← hoff, ← e0, ← e1, ← (normalize_Buffer ri).1]; rfl

theorem triProcess_bounds (c : TriangleChunk) (fuel : Nat) (calls : List TriangleShaderOpts)
    (h : c.Process fuel = .returned calls) (so : TriangleShaderOpts) (hso : so ∈ calls) :
    ∃ b a : Nat, so = c.optsAt b a ∧ (a : Float64) < c.Width ∧ (b : Float64) < c.Height := by
  unfold TriangleChunk.Process at h
  obtain ⟨b, out, hcb, hb, hmem⟩ := forLoop_mem _ _ _ fuel _ _ h so hso
  rw [triRow_iterate] at hb hcb
  obtain ⟨a, out2, hca, ha, hmem2⟩ := forLoop_mem _ _ _ fuel _ _ hb so hmem
  rw [triCol_iterate] at ha hca
  simp only [mul_one] at ha hca
  refine ⟨b, a, ?_, by simpa using hca, by simpa using hcb⟩
  split_ifs at ha with hin
  · simp only [Outcome.returned.injEq] at ha
    subst ha
    rw [List.mem_singleton] at hmem2
    rw [hmem2]
    rfl
  · simp only [Outcome.returned.injEq] at ha
    subst ha
    simp at hmem2

theorem triChunkLoops_bounds (ti : TriangleInfo) (cs : Int) (fuel : Nat)
    (res : List (TriangleChunk × List TriangleShaderOpts))
    (h : ti.chunkLoops fuel cs = .returned res) (so : TriangleShaderOpts) (hso : so ∈ triCalls res) :
    ∃ j i b a : Nat, so = (ti.chunkAt cs j i).optsAt b a ∧
      (a : Float64) < (ti.chunkAt cs j i).Width ∧ (b : Float64) < (ti.chunkAt cs j i).Height := by
  unfold triCalls at hso
  obtain ⟨c, hc, hsoc⟩ := List.mem_flatMap.1 hso
  unfold TriangleInfo.chunkLoops at h
  obtain ⟨j, out, -, hj, hmem⟩ := forLoop_mem _ _ _ fuel _ _ h c hc
  rw [triRow_iterate] at hj
  obtain ⟨i, out2, -, hi, hmem2⟩ := forLoop_mem _ _ _ fuel _ _ hj c hmem
  rw [triCol_iterate] at hi
  simp only [] at hi
  split at hi
  · next calls hP =>
    simp only [Outcome.returned.injEq] at hi
    subst hi
    rw [List.mem_singleton] at hmem2
    subst hmem2
    obtain ⟨b, a, h1, h2, h3⟩ := triProcess_bounds _ fuel calls hP so hsoc
    exact ⟨j, i, b, a, h1, h2, h3⟩
  · simp at hi
  · simp at hi

theorem triClip_bounds (ti : TriangleInfo) : ∃ x0 y0 x1 y1 : Int,
    ti.clip.1 = x0 ∧ ti.clip.2.1 = y0 ∧ ti.clip.2.2.1 = x1 ∧ ti.clip.2.2.2 = y1 ∧
      0 ≤ x0 ∧ 0 ≤ y0 ∧ x1 ≤ ti.BufferWidth - 1 ∧ y1 ≤ ti.BufferHeight - 1 := by
  obtain ⟨x0, y0, x1, y1, h0, h1, h2, h3⟩ := triClip_int ti
  refine ⟨x0, y0, x1, y1, h0, h1, h2, h3, ?_, ?_, ?_, ?_⟩
  · have : (0 : Float64) ≤ ti.clip.1 := le_max_right _ _
    rw [h0] at this
    exact_mod_cast this
  · have : (0 : Float64) ≤ ti.clip.2.1 := le_max_right _ _
    rw [h1] at this
    exact_mod_cast this
  · have : ti.clip.2.2.1 ≤ ((ti.BufferWidth - 1 : Int) : Float64) := min_le_right _ _
    rw [h2] at this
    exact_mod_cast this
  · have : ti.clip.2.2.2 ≤ ((ti.BufferHeight - 1 : Int) : Float64) := min_le_right _ _
    rw [h3] at this
    exact_mod_cast this

theorem tri_normalize_Buffer (ti : TriangleInfo) :
    ti.normalize.BufferWidth = ti.BufferWidth ∧ ti.normalize.BufferHeight = ti.BufferHeight := by
  dsimp only [TriangleInfo.normalize]
  split_ifs <;> exact ⟨rfl, rfl⟩

/-- Every shader invocation of a triangle call that returned: its pixel has
integer coordinates inside the buffer and its offset is the pixel's. -/
theorem DrawTriangle_offset (fuel : Nat) (ti : TriangleInfo)
    (res : List (TriangleChunk × List TriangleShaderOpts))
    (h : DrawTriangle fuel ti = .returned res) (so : TriangleShaderOpts)
    (hso : so ∈ triCalls res) :
    ∃ X Y : Int, so.X = X ∧ so.Y = Y ∧ so.BufferOffset = X + Y * ti.BufferWidth ∧
      0 ≤ X ∧ X < ti.BufferWidth - 1 ∧ 0 ≤ Y ∧ Y < ti.BufferHeight - 1 := by
  dsimp only [DrawTriangle] at h
  split_ifs at h with h1 h2 h3 h4 h5 h6
  · simp only [Outcome.returned.injEq] at h
    subst h
    simp [triCalls] at hso
  · obtain ⟨j, i, b, a, hso, ha, hb⟩ := triChunkLoops_bounds _ _ fuel res h so hso
    obtain ⟨x0, y0, x1, y1, e0, e1, e2, e3, b0, b1, b2, b3⟩ := triClip_bounds ti.normalize
    rw [(tri_normalize_Buffer ti).1] at b2
    rw [(tri_normalize_Buffer ti).2] at b3
    simp only [TriangleInfo.chunkAt, e0, e1, e2, e3] at ha hb
    obtain ⟨X, Y, hX, hY, hoff, r0, r1, r2, r3⟩ :=
      offset_core x0 y0 x1 y1 ti.BufferWidth ti.BufferHeight _ j i b a b0 b1 b2 b3 ha hb
    refine ⟨X, Y, ?_, ?_, ?_, r0, r1, r2, r3⟩
    · rw [hso, ← hX, ← e0]; rfl
    · rw [hso, ← hY, ← e1]; rfl
    · rw [hso, ← hoff, ← e0, ← e1, ← (tri_normalize_Buffer ti).1]; rfl

/-- Claim C26: at every shader invocation of a `DrawRectangle` call and of a
`DrawTriangle` call that returned, the `BufferOffset` passed to the shader is
`int(X) + int(Y) * BufferWidth` for the pixel `(X, Y)` of the same
invocation; it is at least 0 and less than `BufferWidth * BufferHeight`, and
two invocations of one call with the same offset have the same pixel. -/
theorem BufferOffset_is_pixel_offset :
    (∀ (fuel : Nat) (ri : RectangleInfo) (res : List (RectangleChunk × List RectangleShaderOpts)),
      DrawRectangle fuel ri = .returned res → ∀ so, so ∈ rectCalls res →
        so.BufferOffset = toInt so.X + toInt so.Y * ri.BufferWidth ∧
        0 ≤ so.BufferOffset ∧ so.BufferOffset < ri.BufferWidth * ri.BufferHeight ∧
        ∀ so2, so2 ∈ rectCalls res → so2.BufferOffset = so.BufferOffset →
          so2.pixel = so.pixel) ∧
    (∀ (fuel : Nat) (ti : TriangleInfo) (res : List (TriangleChunk × List TriangleShaderOpts)),
      DrawTriangle fuel ti = .returned res → ∀ so, so ∈ triCalls res →
        so.BufferOffset = toInt so.X + toInt so.Y * ti.BufferWidth ∧
        0 ≤ so.BufferOffset ∧ so.BufferOffset < ti.BufferWidth * ti.BufferHeight ∧
        ∀ so2, so2 ∈ triCalls res → so2.BufferOffset = so.BufferOffset →
          so2.pixel = so.pixel) := by
  constructor
  · intro fuel ri res h so hso
    obtain ⟨X, Y, hX, hY, hoff, r0, r1, r2, r3⟩ := DrawRectangle_offset fuel ri res h so hso
    obtain ⟨g0, g1⟩ := offset_range X Y ri.BufferWidth ri.BufferHeight r0 r1 r2 r3
    refine ⟨by rw [hX, hY, toInt_intCast, toInt_intCast, hoff], by rw [hoff]; exact g0,
      by rw [hoff]; exact g1, ?_⟩
    intro so2 hso2 he
    obtain ⟨X2, Y2, hX2, hY2, hoff2, s0, s1, s2, s3⟩ :=
      DrawRectangle_offset fuel ri res h so2 hso2
    rw [hoff, hoff2] at he
    obtain ⟨eX, eY⟩ := offset_inj X2 Y2 X Y ri.BufferWidth s0 s1 r0 r1 he
    simp only [RectangleShaderOpts.pixel, hX, hY, hX2, hY2, eX, eY]
  · intro fuel ti res h so hso
    obtain ⟨X, Y, hX, hY, hoff, r0, r1, r2, r3⟩ := DrawTriangle_offset fuel ti res h so hso
    obtain ⟨g0, g1⟩ := offset_range X Y ti.BufferWidth ti.BufferHeight r0 r1 r2 r3
    refine ⟨by rw [hX, hY, toInt_intCast, toInt_intCast, hoff], by rw [hoff]; exact g0,
      by rw [hoff]; exact g1, ?_⟩
    intro so2 hso2 he
    obtain ⟨X2, Y2, hX2, hY2, hoff2, s0, s1, s2, s3⟩ :=
      DrawTriangle_offset fuel ti res h so2 hso2
    rw [hoff, hoff2] at he
    obtain ⟨eX, eY⟩ := offset_inj X2 Y2 X Y ti.BufferWidth s0 s1 r0 r1 he
    simp only [TriangleShaderOpts.pixel, hX, hY, hX2, hY2, eX, eY]


/-- The percentage coordinates of every shader invocation of a rectangle call
that returned: the distance of the pixel from the clipped origin, times the step. -/
theorem DrawRectangle_Px (fuel : Nat) (ri : RectangleInfo)
    (res : List (RectangleChunk × List RectangleShaderOpts))
    (h : DrawRectangle fuel ri = .returned res) (so : RectangleShaderOpts)
    (hso : so ∈ rectCalls res) :
    so.Px = (so.X - ri.normalize.clip.1) * (1 / Floor ri.normalize.W) ∧
      so.Py = (so.Y - ri.normalize.clip.2.1) * (1 / Floor ri.normalize.H) := by
  dsimp only [DrawRectangle] at h
  split_ifs at h with h1 h2 h3 h4
  · simp only [Outcome.returned.injEq] at h
    subst h
    simp [rectCalls] at hso
  · obtain ⟨j, i, b, a, hso, -, -⟩ := rectChunkLoops_sound _ _ fuel res h so hso
    subst hso
    simp only [RectangleChunk.optsAt, RectangleInfo.chunkAt]
    constructor <;> ring

theorem rect_shades (ri : RectangleInfo) (x y w h : Int) (hx : ri.X = x) (hy : ri.Y = y)
    (hw : ri.W = w) (hh : ri.H = h) (hw0 : 0 < w) (hh0 : 0 < h)
    (hbuf : ri.Buffer.isSome = true) (hsh : ri.HasShader = true) (hbits : ri.ChunkBits = 0)
    (X Y : Int) (hX0 : max (x + 1) 0 ≤ X) (hX1 : X < min (x + 1 + w) (ri.BufferWidth - 1))
    (hY0 : max (y + 1) 0 ≤ Y) (hY1 : Y < min (y + 1 + h) (ri.BufferHeight - 1)) :
    ∃ res so, DrawRectangle (rectFuel ri) ri = .returned res ∧ so ∈ rectCalls res ∧
      so.pixel = ((X : Float64), (Y : Float64)) ∧
      ri.normalize.clip.1 = ((max (x + 1) 0 : Int) : Float64) ∧
      ri.normalize.clip.2.1 = ((max (y + 1) 0 : Int) : Float64) ∧
      Floor ri.normalize.W = w ∧ Floor ri.normalize.H = h := by
  have hc := rect_int_clip ri x y w h hx hy hw hh (le_of_lt hw0) (le_of_lt hh0)
  have hW : ri.W ≠ 0 := by rw [hw]; exact_mod_cast hw0.ne'
  have hH : ri.H ≠ 0 := by rw [hh]; exact_mod_cast hh0.ne'
  have hs : shl1 ri.normalize.ChunkBits = 8 := by
    rw [normalize_ChunkBits, hbits]; decide
  have hret := DrawRectangle_returned ri hbuf hsh (by omega) (by omega) hW hH _ (le_refl _)
  have hmem : ((X : Float64), (Y : Float64)) ∈
      (rectCalls (ri.normalize.chunks (shl1 ri.normalize.ChunkBits))).map
        RectangleShaderOpts.pixel := by
    rw [hs, rectChunks_mem _ _ (by norm_num)]
    simp only [RectangleInfo.inClip, hc, Floor_int]
    refine ⟨trivial, trivial, ?_, ?_, ?_, ?_⟩ <;> assumption_mod_cast
  obtain ⟨so, hso, hpix⟩ := List.mem_map.1 hmem
  have hnW := (normalize_W ri).1
  have hnH := (normalize_W ri).2
  refine ⟨_, so, hret, hso, hpix, by rw [hc], by rw [hc], ?_, ?_⟩
  · rw [hnW, hw, abs_of_pos (by exact_mod_cast hw0)]; exact Floor_int w
  · rw [hnH, hh, abs_of_pos (by exact_mod_cast hh0)]; exact Floor_int h

/-- Claim C27 at the failing input: for the 4x4 rectangle at `(-2, 0)` in an
8x8 buffer, which is rounded to the columns `-1 .. 2` and whose first column
is clipped away, the invocation for the pixel `(0, 1)` gets `Px = 0`, while
the position of the pixel across the rectangle is `(X - x) / w = 1/4`. -/
theorem DrawRectangle_left_clip_restarts_Px :
    ∃ res so, DrawRectangle (rectFuel (rectCall 8 8 0 (-2) 0 4 4)) (rectCall 8 8 0 (-2) 0 4 4) =
        .returned res ∧ so ∈ rectCalls res ∧ so.pixel = (0, 1) ∧ so.Px = 0 ∧
      (so.X - Floor ((rectCall 8 8 0 (-2) 0 4 4).X + sm)) / Floor (rectCall 8 8 0 (-2) 0 4 4).W =
        1 / 4 := by
  obtain ⟨res, so, hret, hso, hpix, c1, c2, fw, fh⟩ :=
    rect_shades (rectCall 8 8 0 (-2) 0 4 4) (-2) 0 4 4 (by simp [rectCall]) (by simp [rectCall])
      (by simp [rectCall]) (by simp [rectCall]) (by norm_num) (by norm_num) rfl rfl rfl
      0 1 (by decide) (by decide) (by decide) (by decide)
  have hP := (DrawRectangle_Px _ _ res hret so hso).1
  have hX : so.X = 0 := by
    have := congrArg Prod.fst hpix
    simpa [RectangleShaderOpts.pixel] using this
  refine ⟨res, so, hret, hso, by simpa using hpix, ?_, ?_⟩
  · rw [hP, c1, hX]; norm_num
  · have e1 : (rectCall 8 8 0 (-2) 0 4 4).X = ((-2 : Int) : Float64) := by simp [rectCall]
    have e2 : (rectCall 8 8 0 (-2) 0 4 4).W = ((4 : Int) : Float64) := by simp [rectCall]
    rw [hX, e1, e2, Floor_int_add_sm, Floor_int]
    norm_num

theorem spriteA_call :
    spriteDisplay.drawSpriteRect spriteA ((spriteOpts "atl.a" 0 0 4 4).defaults spriteA) =
      { Buffer := some (List.replicate 64 0), BufferWidth := 8, BufferHeight := 8,
        HasShader := true, ChunkBits := 0, HasLights := true, HasIndexizer := true,
        X := 0, Y := 0, W := 4, H := 4 } ∧
    drawSpriteTexture spriteA ((spriteOpts "atl.a" 0 0 4 4).defaults spriteA) = (0, 0, 2, 2) ∧
    ((spriteOpts "atl.a" 0 0 4 4).defaults spriteA).SW = 2 := by
  have hd : (spriteOpts "atl.a" 0 0 4 4).defaults spriteA =
      { Name := "atl.a", SX := 0, SY := 0, SW := 2, SH := 2, DX := 0, DY := 0, DH := 4, DW := 4 } := by
    simp [DrawSpriteOpts.defaults, spriteOpts, spriteA, spriteAt]
  rw [hd]
  refine ⟨?_, ?_, rfl⟩
  · simp [Display.drawSpriteRect, spriteDisplay, spriteA, spriteAt]
  · have h2 : toInt (2 : Float64) = 2 := toInt_intCast 2
    have h0 : toInt (0 : Float64) = 0 := toInt_intCast 0
    simp [drawSpriteTexture, spriteA, spriteAt, h0, h2]

/-- Claim C28 at the failing input: the 2x2 sprite `atl.a` at `(0, 0)` of its
atlas drawn with the destination `(0, 0)` and size 4x4, which covers the
columns and rows `1 .. 4`.  At the pixel `(4, 1)` the shader samples the atlas
column 2, and the requested source region ends at the column
`s.X + SX + SW - 1 = 1`. -/
theorem drawSprite_scaled_samples_next_column :
    List.lookup "atl.a" spriteDisplay.Sprites = some spriteA ∧
    ∃ res so,
      DrawRectangle
          (rectFuel (spriteDisplay.drawSpriteRect spriteA
            ((spriteOpts "atl.a" 0 0 4 4).defaults spriteA)))
          (spriteDisplay.drawSpriteRect spriteA
            ((spriteOpts "atl.a" 0 0 4 4).defaults spriteA)) = .returned res ∧
        so ∈ rectCalls res ∧ so.pixel = (4, 1) ∧
        (rectTexel
          (drawSpriteTexture spriteA ((spriteOpts "atl.a" 0 0 4 4).defaults spriteA)).1
          (drawSpriteTexture spriteA ((spriteOpts "atl.a" 0 0 4 4).defaults spriteA)).2.1
          (drawSpriteTexture spriteA ((spriteOpts "atl.a" 0 0 4 4).defaults spriteA)).2.2.1
          (drawSpriteTexture spriteA ((spriteOpts "atl.a" 0 0 4 4).defaults spriteA)).2.2.2
          so).1 = 2 ∧
        spriteA.X + toInt ((spriteOpts "atl.a" 0 0 4 4).defaults spriteA).SX +
          toInt ((spriteOpts "atl.a" 0 0 4 4).defaults spriteA).SW - 1 = 1 := by
  obtain ⟨hr, ht, hsw⟩ := spriteA_call
  refine ⟨by simp [spriteDisplay, List.lookup], ?_⟩
  obtain ⟨res, so, hret, hso, hpix, c1, c2, fw, fh⟩ :=
    rect_shades (spriteDisplay.drawSpriteRect spriteA
        ((spriteOpts "atl.a" 0 0 4 4).defaults spriteA)) 0 0 4 4
      (by rw [hr]; simp) (by rw [hr]; simp) (by rw [hr]; simp) (by rw [hr]; simp)
      (by norm_num) (by norm_num) (by rw [hr]; rfl) (by rw [hr]) (by rw [hr])
      4 1 (by decide) (by rw [hr]; decide) (by decide) (by rw [hr]; decide)
  have hP := (DrawRectangle_Px _ _ res hret so hso).1
  have hX : so.X = 4 := by
    have := congrArg Prod.fst hpix
    simpa [RectangleShaderOpts.pixel] using this
  refine ⟨res, so, hret, hso, by simpa using hpix, ?_, ?_⟩
  · rw [ht]
    simp only [rectTexel]
    rw [hP, c1, fw, hX]
    have : toInt (((((2 - 0 : Int) : Int) : Float64) + 1) * ((4 - ((max (0 + 1) 0 : Int) : Float64)) *
        (1 / ((4 : Int) : Float64)))) = 2 := by
      unfold toInt
      norm_num
    rw [this]; rfl
  · have h2 : toInt (2 : Float64) = 2 := toInt_intCast 2
    have h0 : toInt (0 : Float64) = 0 := toInt_intCast 0
    rw [hsw, h2]
    simp [spriteA, spriteAt, DrawSpriteOpts.defaults, spriteOpts, h0]


/-- Witness of claim C26: the 10x10 rectangle at `(1, 1)` in a 20x20 buffer has
an invocation at the pixel `(3, 9)` with offset `183`, and the right triangle
`(0,0), (10,0), (0,10)` in a 10x10 buffer has one at `(1, 1)` with offset `11`. -/
theorem BufferOffset_is_pixel_offset_witness :
    (∃ res so, DrawRectangle (rectFuel (rectCall 20 20 0 1 1 10 10))
        (rectCall 20 20 0 1 1 10 10) = .returned res ∧ so ∈ rectCalls res ∧
      so.pixel = (3, 9) ∧ so.BufferOffset = 183) ∧
    (∃ res so, DrawTriangle 9 (triCall 10 10 0 0 0 10 0 0 10) = .returned res ∧
      so ∈ triCalls res ∧ so.pixel = (1, 1) ∧ so.BufferOffset = 11) := by
  constructor
  · obtain ⟨res, so, hret, hso, hpix, -⟩ :=
      rect_shades (rectCall 20 20 0 1 1 10 10) 1 1 10 10 (by simp [rectCall])
        (by simp [rectCall]) (by simp [rectCall]) (by simp [rectCall]) (by norm_num)
        (by norm_num) rfl rfl rfl 3 9 (by decide) (by decide) (by decide) (by decide)
    have h := (BufferOffset_is_pixel_offset.1 _ _ res hret so hso).1
    have hX : so.X = ((3 : Int) : Float64) := by
      have := congrArg Prod.fst hpix
      simpa [RectangleShaderOpts.pixel] using this
    have hY : so.Y = ((9 : Int) : Float64) := by
      have := congrArg Prod.snd hpix
      simpa [RectangleShaderOpts.pixel] using this
    refine ⟨res, so, hret, hso, by simpa using hpix, ?_⟩
    rw [h, hX, hY]
    simp only [toInt_intCast]
    rfl
  · obtain ⟨hwf, harea, -, -, hfuel⟩ := rightTriangle_facts
    have hne : edgeFunc (triCall 10 10 0 0 0 10 0 0 10).X0 (triCall 10 10 0 0 0 10 0 0 10).Y0
        (triCall 10 10 0 0 0 10 0 0 10).X1 (triCall 10 10 0 0 0 10 0 0 10).Y1
        (triCall 10 10 0 0 0 10 0 0 10).X2 (triCall 10 10 0 0 0 10 0 0 10).Y2 ≠ 0 := by
      rw [harea]; norm_num
    have hsh : triShades 9 (triCall 10 10 0 0 0 10 0 0 10) 1 1 := by
      rw [triShades_iff _ hwf hne 9 hfuel, rightTriangle_shaded]
      exact ⟨1, 1, by norm_num, by norm_num, by norm_num, by norm_num, by norm_num, by norm_num,
      by norm_num⟩
    obtain ⟨res, hres, hp⟩ := hsh
    obtain ⟨so, hso, hpix⟩ := List.mem_map.1 hp
    have h := (BufferOffset_is_pixel_offset.2 9 _ res hres so hso).1
    have hX : so.X = ((1 : Int) : Float64) := by
      have := congrArg Prod.fst hpix
      simpa [TriangleShaderOpts.pixel] using this
    have hY : so.Y = ((1 : Int) : Float64) := by
      have := congrArg Prod.snd hpix
      simpa [TriangleShaderOpts.pixel] using this
    refine ⟨res, so, hres, hso, hpix, ?_⟩
    rw [h, hX, hY]
    simp only [toInt_intCast]
    rfl

/-! ## Totality of the lighting call and the winding of triangles -/

/-- Claim C31 at the failing inputs: `Light` on a light set whose only source
is not alive, and on one whose last source is not alive after an alive one,
panics with an index out of range instead of returning an intensity. -/
theorem Light_last_dead_panics :
    (lightSetOf [constSource 0 4 false]).Light 255 0 0 = .error "index out of range" ∧
      (lightSetOf [constSource 0 1 true, constSource 0 4 false]).Light 255 0 0 =
        .error "index out of range" := by
  constructor
  · simp [LightSet.Light, LightSet.Light.loop, lightSetOf, constSource]
  · simp [LightSet.Light, LightSet.Light.loop, lightSetOf, constSource]

/-- Claim C32, amended to exact arithmetic: when no operation on the edge values
has a rounding error, a triangle whose `edgeFunc` area is negative, drawn by
a `DrawTriangle` call that returns, has the shader invoked for no pixel; and
with non-nil inputs, `0 ≤ ChunkBits ≤ 62` and enough fuel the call does
return. -/
theorem DrawTriangle_negative_area_draws_nothing (ti : TriangleInfo)
    (harea : edgeFunc ti.X0 ti.Y0 ti.X1 ti.Y1 ti.X2 ti.Y2 < 0) (fuel : Nat) :
    (∀ res, DrawTriangle fuel ti = .returned res → triCalls res = []) ∧
      (ti.wellFormed → triFuel ti ≤ fuel →
        ∃ res, DrawTriangle fuel ti = .returned res ∧ triCalls res = []) := by
  have key : ∀ res, DrawTriangle fuel ti = .returned res → triCalls res = [] := by
    intro res h
    rw [List.eq_nil_iff_forall_not_mem]
    intro so hso
    obtain ⟨g0, g1, g2, -⟩ := DrawTriangle_sound ti fuel res h so hso
    obtain ⟨b0, b1, b2⟩ := bias_nonneg ti
    simp only [TriangleInfo.edges] at g0 g1 g2
    have hsum := edge_sum ti.X0 ti.Y0 ti.X1 ti.Y1 ti.X2 ti.Y2 so.X so.Y
    linarith
  refine ⟨key, fun hwf hfuel => ?_⟩
  obtain ⟨hb, hs, hl, hi, h0, h62⟩ := hwf
  have hret := DrawTriangle_returned ti hb hs hl hi h0 h62 (ne_of_lt harea) fuel hfuel
  exact ⟨_, hret, key _ hret⟩

theorem reversedTriangle_facts :
    (triCall 10 10 0 0 0 0 10 10 0).wellFormed ∧
    edgeFunc (triCall 10 10 0 0 0 0 10 10 0).X0 (triCall 10 10 0 0 0 0 10 10 0).Y0
      (triCall 10 10 0 0 0 0 10 10 0).X1 (triCall 10 10 0 0 0 0 10 10 0).Y1
      (triCall 10 10 0 0 0 0 10 10 0).X2 (triCall 10 10 0 0 0 0 10 10 0).Y2 = -100 ∧
    triFuel (triCall 10 10 0 0 0 0 10 10 0) ≤ 9 := by
  have hv : (triCall 10 10 0 0 0 0 10 10 0).hasVertices 0 0 0 10 10 0 := by
    simp [TriangleInfo.hasVertices, triCall]
  have hclip : (triCall 10 10 0 0 0 0 10 10 0).clip = (1, 1, 9, 9) := by
    rw [tri_int_clip _ _ _ _ _ _ _ hv]
    simp [triCall]
  refine ⟨⟨rfl, rfl, rfl, rfl, by decide, by decide⟩, ?_, ?_⟩
  · simp [edgeFunc, triCall]
    norm_num
  · have hs : shl1 (triCall 10 10 0 0 0 0 10 10 0).normalize.ChunkBits = 8 := by
      rw [(tri_normalize _).2.2.2.2.2.2.2.2.2.2]; decide
    simp only [triFuel, hs, tileCount, (tri_normalize _).1, hclip]
    norm_num
    decide

/-- Witness of claim C32: the triangle `(0,0), (0,10), (10,0)` of area `-100`
in a 10x10 buffer, whose edge values are integers that `float64` computes
exactly. -/
theorem DrawTriangle_negative_area_draws_nothing_witness :
    ∃ res, DrawTriangle 9 (triCall 10 10 0 0 0 0 10 10 0) = .returned res ∧ triCalls res = [] := by
  obtain ⟨hwf, harea, hfuel⟩ := reversedTriangle_facts
  exact (DrawTriangle_negative_area_draws_nothing (triCall 10 10 0 0 0 0 10 10 0)
    (by rw [harea]; norm_num) 9).2 hwf hfuel

/-! ## The clamp of the lighting call when a sum is NaN -/

theorem Float64N_le_of_not_lt (a b : Float64N) (ha : a ≠ .nan) (hb : b ≠ .nan)
    (h : b.lt a = false) : a.le b = true := by
  cases a <;> cases b <;> simp_all [Float64N.lt, Float64N.le]
  all_goals (first | done | (rename_i x y; cases x <;> cases y <;> simp_all))

theorem Float64N_le_of_lt (a b : Float64N) (h : a.lt b = true) : a.le b = true := by
  cases a <;> cases b <;> simp_all [Float64N.lt, Float64N.le]
  exact h.le

theorem Float64N_le_refl (a : Float64N) (ha : a ≠ .nan) : a.le a = true := by
  cases a <;> simp_all [Float64N.le]

theorem Float64N_ne_nan_of_le_left (a b : Float64N) (h : a.le b = true) : a ≠ .nan := by
  rintro rfl; simp [Float64N.le] at h

theorem Float64N_ne_nan_of_le_right (a b : Float64N) (h : a.le b = true) : b ≠ .nan := by
  rintro rfl; cases a <;> simp [Float64N.le] at h

theorem Float64N_mul_nan (a : Float64N) : a.mul .nan = .nan := by
  cases a <;> rfl

theorem Float64N_clamp_bounds (v lo hi : Float64N) (h : lo.le hi = true) (hv : v ≠ .nan) :
    lo.le (if hi.lt v then hi else if v.lt lo then lo else v) = true ∧
      (if hi.lt v then hi else if v.lt lo then lo else v).le hi = true := by
  have hlo := Float64N_ne_nan_of_le_left _ _ h
  have hhi := Float64N_ne_nan_of_le_right _ _ h
  by_cases h1 : hi.lt v = true
  · rw [if_pos h1]; exact ⟨h, Float64N_le_refl _ hhi⟩
  · rw [if_neg h1]
    have h1 : hi.lt v = false := by simpa using h1
    by_cases h2 : v.lt lo = true
    · rw [if_pos h2]; exact ⟨Float64N_le_refl _ hlo, h⟩
    · rw [if_neg h2]
      have h2 : v.lt lo = false := by simpa using h2
      exact ⟨Float64N_le_of_not_lt _ _ hlo hv h2, Float64N_le_of_not_lt _ _ hv hhi h1⟩

/-- Claim C7, counterexample: a light set with the bounds `[0, 1]` and one alive
source that answers the scale NaN.  The call returns NaN: the sum `0 + NaN` is
NaN, both comparisons of the clamp are false and the scale stays NaN.  No
offset and scale within the bounds make `(255/255 + o) * s` NaN. -/
theorem Light_nan_scale_not_clamped :
    (WithNaN.lightSetOf [WithNaN.constSource (.num 0) .nan true]).MinOffset.le
        (WithNaN.lightSetOf [WithNaN.constSource (.num 0) .nan true]).MaxOffset = true ∧
      (WithNaN.lightSetOf [WithNaN.constSource (.num 0) .nan true]).MinScale.le
        (WithNaN.lightSetOf [WithNaN.constSource (.num 0) .nan true]).MaxScale = true ∧
      (WithNaN.lightSetOf [WithNaN.constSource (.num 0) .nan true]).Light 255 0 0 =
        .ok (.nan, WithNaN.lightSetOf [WithNaN.constSource (.num 0) .nan true]) ∧
      ∀ o s : Float64N, (Float64N.num 0).le o = true → o.le (.num 1) = true →
        (Float64N.num 0).le s = true → s.le (.num 1) = true →
        ((Float64N.num (((255 : Nat) : ℚ) / 255)).add o).mul s ≠ .nan := by
  refine ⟨by simp [WithNaN.lightSetOf, Float64N.le], by simp [WithNaN.lightSetOf, Float64N.le],
    ?_, ?_⟩
  · have hloop : WithNaN.LightSet.Light.loop 0 0 0 [WithNaN.constSource (.num 0) .nan true]
        (.num 0) (.num 0) = .ok ([WithNaN.constSource (.num 0) .nan true], .num 0, .nan) := by
      simp [WithNaN.LightSet.Light.loop, WithNaN.constSource, Float64N.add]
    simp only [WithNaN.LightSet.Light, WithNaN.lightSetOf, hloop, Float64N.lt,
      Float64N_mul_nan]
    simp [Float64N_mul_nan]
  · intro o s h1 h2 h3 h4
    cases o <;> cases s <;> simp_all [Float64N.le, Float64N.add, Float64N.mul]

/-- Claim C7, amended: when `MinOffset ≤ MaxOffset` and `MinScale ≤ MaxScale`, a
call of `LightSet.Light` whose loop ends with an accumulated offset and an
accumulated scale that are not NaN returns `(val/255 + o) * s` for an offset
`o` in `[MinOffset, MaxOffset]` and a scale `s` in `[MinScale, MaxScale]`. -/
theorem Light_offset_scale_within_bounds_of_not_nan (l : WithNaN.LightSet) (val : Nat)
    (posx posy : Int) (ho : l.MinOffset.le l.MaxOffset = true)
    (hs : l.MinScale.le l.MaxScale = true) (srcs : List WithNaN.LightSource)
    (offs scale : Float64N)
    (hl : WithNaN.LightSet.Light.loop posx posy 0 l.Sources l.MinOffset l.MinScale =
      .ok (srcs, offs, scale))
    (hno : offs ≠ .nan) (hns : scale ≠ .nan) :
    ∃ o s : Float64N, l.MinOffset.le o = true ∧ o.le l.MaxOffset = true ∧
      l.MinScale.le s = true ∧ s.le l.MaxScale = true ∧
      l.Light val posx posy =
        .ok (((Float64N.num ((val : ℚ) / 255)).add o).mul s, { l with Sources := srcs }) := by
  refine ⟨_, _, (Float64N_clamp_bounds offs _ _ ho hno).1, (Float64N_clamp_bounds offs _ _ ho hno).2,
    (Float64N_clamp_bounds scale _ _ hs hns).1, (Float64N_clamp_bounds scale _ _ hs hns).2, ?_⟩
  unfold WithNaN.LightSet.Light
  rw [hl]

/-- Witness of claim C7: the sources `[dead, alive, dead]` with the scales
`1, +Inf, 4` and the bounds `[0, 1]`.  The call returns, the accumulated scale
is `+Inf`, not NaN, and the scale used is within the bounds. -/
theorem Light_offset_scale_within_bounds_of_not_nan_witness :
    ∃ o s : Float64N, (Float64N.num 0).le o = true ∧ o.le (.num 1) = true ∧
      (Float64N.num 0).le s = true ∧ s.le (.num 1) = true ∧
      (WithNaN.lightSetOf [WithNaN.constSource (.num 0) (.num 1) false,
        WithNaN.constSource (.num 0) (.inf false) true,
        WithNaN.constSource (.num 0) (.num 4) false]).Light 255 0 0 =
        .ok (((Float64N.num (((255 : Nat) : ℚ) / 255)).add o).mul s,
          WithNaN.lightSetOf [WithNaN.constSource (.num 0) (.num 4) false,
            WithNaN.constSource (.num 0) (.inf false) true]) :=
  Light_offset_scale_within_bounds_of_not_nan
    (WithNaN.lightSetOf [WithNaN.constSource (.num 0) (.num 1) false,
      WithNaN.constSource (.num 0) (.inf false) true,
      WithNaN.constSource (.num 0) (.num 4) false]) 255 0 0
    (by simp [WithNaN.lightSetOf, Float64N.le]) (by simp [WithNaN.lightSetOf, Float64N.le])
    [WithNaN.constSource (.num 0) (.num 4) false, WithNaN.constSource (.num 0) (.inf false) true]
    (.num 0) (.inf false)
    (by simp [WithNaN.LightSet.Light.loop, WithNaN.lightSetOf, WithNaN.constSource,
      Float64N.add])
    (by simp) (by simp)

/-! ## A triangle of negative area in binary64 arithmetic -/

theorem round64_zero : round64 0 = 0 := by
  simp [round64]

theorem round64_eq (q : ℚ) (k m : Int) (hk : -1022 ≤ k) (h1 : (2 : ℚ) ^ k ≤ |q|)
    (h2 : |q| < (2 : ℚ) ^ (k + 1))
    (h : |q - m * (2 : ℚ) ^ (k - 52)| < (2 : ℚ) ^ (k - 52) / 2 ∨
      (|q - m * (2 : ℚ) ^ (k - 52)| = (2 : ℚ) ^ (k - 52) / 2 ∧ m % 2 = 0)) :
    round64 q = m * (2 : ℚ) ^ (k - 52) := by
  have hq : 0 < |q| := lt_of_lt_of_le (zpow_pos (by norm_num) k) h1
  have hlog : Int.log 2 |q| = k := by
    have a1 : k ≤ Int.log 2 |q| :=
      (Int.zpow_le_iff_le_log (by norm_num) hq).1 (by exact_mod_cast h1)
    have a2 : Int.log 2 |q| < k + 1 :=
      (Int.lt_zpow_iff_log_lt (by norm_num) hq).1 (by exact_mod_cast h2)
    omega
  have hu : (0 : ℚ) < (2 : ℚ) ^ (k - 52) := zpow_pos (by norm_num) _
  unfold round64
  simp only [hlog, max_eq_left hk]
  set u : ℚ := (2 : ℚ) ^ (k - 52) with hudef
  set t : ℚ := q / u with htdef
  have hqt : q = t * u := by rw [htdef]; field_simp
  have hd : |t - m| < 1 / 2 ∨ (|t - m| = 1 / 2 ∧ m % 2 = 0) := by
    have e : |q - m * u| = |t - m| * u := by
      rw [hqt, ← sub_mul, abs_mul, abs_of_pos hu]
    rw [e] at h
    rcases h with h | ⟨h, hm⟩
    · left; nlinarith
    · right; exact ⟨by nlinarith, hm⟩
  rcases le_or_lt (m : ℚ) t with hmt | hmt
  · have hfl : ⌊t⌋ = m := by
      rw [Int.floor_eq_iff]
      rcases hd with hd | ⟨hd, -⟩
      · rw [abs_of_nonneg (by linarith)] at hd; constructor <;> linarith
      · rw [abs_of_nonneg (by linarith)] at hd; constructor <;> linarith
    rw [hfl]
    rcases hd with hd | ⟨hd, hm⟩
    · rw [abs_of_nonneg (by linarith)] at hd
      rw [if_pos hd]
    · rw [abs_of_nonneg (by linarith)] at hd
      rw [if_neg (by linarith), if_neg (by linarith), if_pos hm]
  · have hfl : ⌊t⌋ = m - 1 := by
      rw [Int.floor_eq_iff]
      push_cast
      rcases hd with hd | ⟨hd, -⟩
      · rw [abs_of_neg (by linarith)] at hd; constructor <;> linarith
      · rw [abs_of_neg (by linarith)] at hd; constructor <;> linarith
    rw [hfl]
    push_cast
    rcases hd with hd | ⟨hd, hm⟩
    · rw [abs_of_neg (by linarith)] at hd
      rw [if_neg (by linarith), if_pos (by linarith)]
      ring
    · rw [abs_of_neg (by linarith)] at hd
      rw [if_neg (by linarith), if_neg (by linarith), if_neg (by omega)]
      ring

theorem forLoop_single {σ α : Type} (cond : σ → Bool) (body : σ → Outcome (List α))
    (post : σ → σ) (s : σ) (out : List α) (fuel : Nat) (h1 : cond s = true)
    (hb : body s = .returned out) (h2 : cond (post s) = false) :
    forLoop cond body post (fuel + 2) s = .returned out := by
  simp [forLoop, h1, hb, h2]

theorem sliver_eq :
    sliver = triCall 8 8 3 (5404319552844595 / 9007199254740992) (3602879701896397 / 2251799813685248) 1 1
      (3152519739159347 / 2251799813685248) (3602879701896397 / 9007199254740992) := by
  have hX0 : round64 0.6 = (5404319552844595 / 9007199254740992) := by
    rw [round64_eq _ (-1) 5404319552844595 (by norm_num) (by norm_num [abs_of_pos, abs_of_neg, abs_of_nonneg]) (by norm_num [abs_of_pos, abs_of_neg, abs_of_nonneg])
      (by left; norm_num [abs_of_pos, abs_of_neg, abs_of_nonneg])]
    norm_num
  have hY0 : round64 1.6 = (3602879701896397 / 2251799813685248) := by
    rw [round64_eq _ 0 7205759403792794 (by norm_num) (by norm_num [abs_of_pos, abs_of_neg, abs_of_nonneg]) (by norm_num [abs_of_pos, abs_of_neg, abs_of_nonneg])
      (by left; norm_num [abs_of_pos, abs_of_neg, abs_of_nonneg])]
    norm_num
  have hX2 : round64 1.4 = (3152519739159347 / 2251799813685248) := by
    rw [round64_eq _ 0 6305039478318694 (by norm_num) (by norm_num [abs_of_pos, abs_of_neg, abs_of_nonneg]) (by norm_num [abs_of_pos, abs_of_neg, abs_of_nonneg])
      (by left; norm_num [abs_of_pos, abs_of_neg, abs_of_nonneg])]
    norm_num
  have hY2 : round64 0.4 = (3602879701896397 / 9007199254740992) := by
    rw [round64_eq _ (-2) 7205759403792794 (by norm_num) (by norm_num [abs_of_pos, abs_of_neg, abs_of_nonneg]) (by norm_num [abs_of_pos, abs_of_neg, abs_of_nonneg])
      (by left; norm_num [abs_of_pos, abs_of_neg, abs_of_nonneg])]
    norm_num
  unfold sliver
  rw [hX0, hY0, hX2, hY2]

theorem sliver_clip :
    Binary64.TriangleInfo.clip sliver = (1, 1, 2, 2) ∧
    Floor (Binary64.add sliver.X0 sm) = 1 ∧ Floor (Binary64.add sliver.Y0 sm) = 2 ∧
    Floor (Binary64.add sliver.X1 sm) = 2 ∧ Floor (Binary64.add sliver.Y1 sm) = 2 ∧
    Floor (Binary64.add sliver.X2 sm) = 2 ∧ Floor (Binary64.add sliver.Y2 sm) = 1 := by
  have hadd0 : Binary64.add (5404319552844595 / 9007199254740992) 1 = (3602879701896397 / 2251799813685248) := by
    unfold Binary64.add
    rw [round64_eq _ 0 7205759403792794 (by norm_num) (by norm_num [abs_of_pos, abs_of_neg, abs_of_nonneg]) (by norm_num [abs_of_pos, abs_of_neg, abs_of_nonneg])
      (by right; constructor <;> norm_num [abs_of_pos, abs_of_neg, abs_of_nonneg])]
    norm_num
  have hadd1 : Binary64.add (3602879701896397 / 2251799813685248) 1 = (5854679515581645 / 2251799813685248) := by
    unfold Binary64.add
    rw [round64_eq _ 1 5854679515581645 (by norm_num) (by norm_num [abs_of_pos, abs_of_neg, abs_of_nonneg]) (by norm_num [abs_of_pos, abs_of_neg, abs_of_nonneg])
      (by left; norm_num [abs_of_pos, abs_of_neg, abs_of_nonneg])]
    norm_num
  have hadd2 : Binary64.add 1 1 = 2 := by
    unfold Binary64.add
    rw [round64_eq _ 1 4503599627370496 (by norm_num) (by norm_num [abs_of_pos, abs_of_neg, abs_of_nonneg]) (by norm_num [abs_of_pos, abs_of_neg, abs_of_nonneg])
      (by left; norm_num [abs_of_pos, abs_of_neg, abs_of_nonneg])]
    norm_num
  have hadd3 : Binary64.add (3152519739159347 / 2251799813685248) 1 = (5404319552844595 / 2251799813685248) := by
    unfold Binary64.add
    rw [round64_eq _ 1 5404319552844595 (by norm_num) (by norm_num [abs_of_pos, abs_of_neg, abs_of_nonneg]) (by norm_num [abs_of_pos, abs_of_neg, abs_of_nonneg])
      (by left; norm_num [abs_of_pos, abs_of_neg, abs_of_nonneg])]
    norm_num
  have hadd4 : Binary64.add (3602879701896397 / 9007199254740992) 1 = (3152519739159347 / 2251799813685248) := by
    unfold Binary64.add
    rw [round64_eq _ 0 6305039478318694 (by norm_num) (by norm_num [abs_of_pos, abs_of_neg, abs_of_nonneg]) (by norm_num [abs_of_pos, abs_of_neg, abs_of_nonneg])
      (by right; constructor <;> norm_num [abs_of_pos, abs_of_neg, abs_of_nonneg])]
    norm_num
  have hfl0 : Floor (3602879701896397 / 2251799813685248) = 1 := by
    unfold Floor
    rw [show ⌊((3602879701896397 / 2251799813685248) : Float64)⌋ = 1 from by
      rw [Int.floor_eq_iff]; constructor <;> norm_num]
    norm_num
  have hfl1 : Floor (5854679515581645 / 2251799813685248) = 2 := by
    unfold Floor
    rw [show ⌊((5854679515581645 / 2251799813685248) : Float64)⌋ = 2 from by
      rw [Int.floor_eq_iff]; constructor <;> norm_num]
    norm_num
  have hfl2 : Floor 2 = 2 := by
    have e := Floor_int 2
    push_cast at e
    exact e
  have hfl3 : Floor (5404319552844595 / 2251799813685248) = 2 := by
    unfold Floor
    rw [show ⌊((5404319552844595 / 2251799813685248) : Float64)⌋ = 2 from by
      rw [Int.floor_eq_iff]; constructor <;> norm_num]
    norm_num
  have hfl4 : Floor (3152519739159347 / 2251799813685248) = 1 := by
    unfold Floor
    rw [show ⌊((3152519739159347 / 2251799813685248) : Float64)⌋ = 1 from by
      rw [Int.floor_eq_iff]; constructor <;> norm_num]
    norm_num
  have h7 : Binary64.ofInt 7 = 7 := by
    unfold Binary64.ofInt
    push_cast
    rw [round64_eq _ 2 7881299347898368 (by norm_num) (by norm_num [abs_of_pos, abs_of_neg, abs_of_nonneg]) (by norm_num [abs_of_pos, abs_of_neg, abs_of_nonneg])
      (by left; norm_num [abs_of_pos, abs_of_neg, abs_of_nonneg])]
    norm_num
  rw [sliver_eq]
  simp only [Binary64.TriangleInfo.clip, triCall, sm, hadd0, hadd1, hadd2, hadd3, hadd4, hfl0, hfl1, hfl2, hfl3, hfl4]
  norm_num [h7]

theorem sliver_area :
    Binary64.edgeFunc sliver.X0 sliver.Y0 sliver.X1 sliver.Y1 sliver.X2 sliver.Y2 =
      (-(1 / 18014398509481984)) := by
  have hsub0 : Binary64.sub 1 (5404319552844595 / 9007199254740992) = (3602879701896397 / 9007199254740992) := by
    unfold Binary64.sub
    rw [round64_eq _ (-2) 7205759403792794 (by norm_num) (by norm_num [abs_of_pos, abs_of_neg, abs_of_nonneg]) (by norm_num [abs_of_pos, abs_of_neg, abs_of_nonneg])
      (by left; norm_num [abs_of_pos, abs_of_neg, abs_of_nonneg])]
    norm_num
  have hsub1 : Binary64.sub (3602879701896397 / 9007199254740992) (3602879701896397 / 2251799813685248) = (-(1351079888211149 / 1125899906842624)) := by
    unfold Binary64.sub
    rw [round64_eq _ 0 (-5404319552844596) (by norm_num) (by norm_num [abs_of_pos, abs_of_neg, abs_of_nonneg]) (by norm_num [abs_of_pos, abs_of_neg, abs_of_nonneg])
      (by right; constructor <;> norm_num [abs_of_pos, abs_of_neg, abs_of_nonneg])]
    norm_num
  have hmul2 : Binary64.mul (3602879701896397 / 9007199254740992) (-(1351079888211149 / 1125899906842624)) = (-(4323455642275677 / 9007199254740992)) := by
    unfold Binary64.mul
    rw [round64_eq _ (-2) (-8646911284551354) (by norm_num) (by norm_num [abs_of_pos, abs_of_neg, abs_of_nonneg]) (by norm_num [abs_of_pos, abs_of_neg, abs_of_nonneg])
      (by left; norm_num [abs_of_pos, abs_of_neg, abs_of_nonneg])]
    norm_num
  have hsub3 : Binary64.sub 1 (3602879701896397 / 2251799813685248) = (-(1351079888211149 / 2251799813685248)) := by
    unfold Binary64.sub
    rw [round64_eq _ (-1) (-5404319552844596) (by norm_num) (by norm_num [abs_of_pos, abs_of_neg, abs_of_nonneg]) (by norm_num [abs_of_pos, abs_of_neg, abs_of_nonneg])
      (by left; norm_num [abs_of_pos, abs_of_neg, abs_of_nonneg])]
    norm_num
  have hsub4 : Binary64.sub (3152519739159347 / 2251799813685248) (5404319552844595 / 9007199254740992) = (7205759403792793 / 9007199254740992) := by
    unfold Binary64.sub
    rw [round64_eq _ (-1) 7205759403792793 (by norm_num) (by norm_num [abs_of_pos, abs_of_neg, abs_of_nonneg]) (by norm_num [abs_of_pos, abs_of_neg, abs_of_nonneg])
      (by left; norm_num [abs_of_pos, abs_of_neg, abs_of_nonneg])]
    norm_num
  have hmul5 : Binary64.mul (-(1351079888211149 / 2251799813685248)) (7205759403792793 / 9007199254740992) = (-(8646911284551353 / 18014398509481984)) := by
    unfold Binary64.mul
    rw [round64_eq _ (-2) (-8646911284551353) (by norm_num) (by norm_num [abs_of_pos, abs_of_neg, abs_of_nonneg]) (by norm_num [abs_of_pos, abs_of_neg, abs_of_nonneg])
      (by left; norm_num [abs_of_pos, abs_of_neg, abs_of_nonneg])]
    norm_num
  have hsub6 : Binary64.sub (-(4323455642275677 / 9007199254740992)) (-(8646911284551353 / 18014398509481984)) = (-(1 / 18014398509481984)) := by
    unfold Binary64.sub
    rw [round64_eq _ (-54) (-4503599627370496) (by norm_num) (by norm_num [abs_of_pos, abs_of_neg, abs_of_nonneg]) (by norm_num [abs_of_pos, abs_of_neg, abs_of_nonneg])
      (by left; norm_num [abs_of_pos, abs_of_neg, abs_of_nonneg])]
    norm_num
  rw [sliver_eq]
  simp only [triCall, Binary64.edgeFunc, hsub0, hsub1, hmul2, hsub3, hsub4, hmul5, hsub6]

theorem sliver_edges :
    Binary64.edgeFunc sliver.X1 sliver.Y1 sliver.X2 sliver.Y2 1 1 = 0 ∧
    Binary64.edgeFunc sliver.X2 sliver.Y2 sliver.X0 sliver.Y0 1 1 = (1 / 18014398509481984) ∧
    Binary64.edgeFunc sliver.X0 sliver.Y0 sliver.X1 sliver.Y1 1 1 = 0 := by
  rw [sliver_eq]
  refine ⟨?_, ?_, ?_⟩
  ·
    have hsub0 : Binary64.sub (3152519739159347 / 2251799813685248) 1 = (900719925474099 / 2251799813685248) := by
      unfold Binary64.sub
      rw [round64_eq _ (-2) 7205759403792792 (by norm_num) (by norm_num [abs_of_pos, abs_of_neg, abs_of_nonneg]) (by norm_num [abs_of_pos, abs_of_neg, abs_of_nonneg])
        (by left; norm_num [abs_of_pos, abs_of_neg, abs_of_nonneg])]
      norm_num
    have hsub1 : Binary64.sub 1 1 = 0 := by simp [Binary64.sub, round64_zero]
    have hmul2 : Binary64.mul (900719925474099 / 2251799813685248) 0 = 0 := by simp [Binary64.mul, round64_zero]
    have hsub3 : Binary64.sub (3602879701896397 / 9007199254740992) 1 = (-(5404319552844595 / 9007199254740992)) := by
      unfold Binary64.sub
      rw [round64_eq _ (-1) (-5404319552844595) (by norm_num) (by norm_num [abs_of_pos, abs_of_neg, abs_of_nonneg]) (by norm_num [abs_of_pos, abs_of_neg, abs_of_nonneg])
        (by left; norm_num [abs_of_pos, abs_of_neg, abs_of_nonneg])]
      norm_num
    have hmul4 : Binary64.mul (-(5404319552844595 / 9007199254740992)) 0 = 0 := by simp [Binary64.mul, round64_zero]
    have hsub5 : Binary64.sub 0 0 = 0 := by simp [Binary64.sub, round64_zero]
    simp only [triCall, Binary64.edgeFunc, hsub0, hsub1, hmul2, hsub3, hmul4, hsub5]
  ·
    have hsub0 : Binary64.sub (5404319552844595 / 9007199254740992) (3152519739159347 / 2251799813685248) = (-(7205759403792793 / 9007199254740992)) := by
      unfold Binary64.sub
      rw [round64_eq _ (-1) (-7205759403792793) (by norm_num) (by norm_num [abs_of_pos, abs_of_neg, abs_of_nonneg]) (by norm_num [abs_of_pos, abs_of_neg, abs_of_nonneg])
        (by left; norm_num [abs_of_pos, abs_of_neg, abs_of_nonneg])]
      norm_num
    have hsub1 : Binary64.sub 1 (3602879701896397 / 9007199254740992) = (5404319552844595 / 9007199254740992) := by
      unfold Binary64.sub
      rw [round64_eq _ (-1) 5404319552844595 (by norm_num) (by norm_num [abs_of_pos, abs_of_neg, abs_of_nonneg]) (by norm_num [abs_of_pos, abs_of_neg, abs_of_nonneg])
        (by left; norm_num [abs_of_pos, abs_of_neg, abs_of_nonneg])]
      norm_num
    have hmul2 : Binary64.mul (-(7205759403792793 / 9007199254740992)) (5404319552844595 / 9007199254740992) = (-(8646911284551351 / 18014398509481984)) := by
      unfold Binary64.mul
      rw [round64_eq _ (-2) (-8646911284551351) (by norm_num) (by norm_num [abs_of_pos, abs_of_neg, abs_of_nonneg]) (by norm_num [abs_of_pos, abs_of_neg, abs_of_nonneg])
        (by left; norm_num [abs_of_pos, abs_of_neg, abs_of_nonneg])]
      norm_num
    have hsub3 : Binary64.sub (3602879701896397 / 2251799813685248) (3602879701896397 / 9007199254740992) = (1351079888211149 / 1125899906842624) := by
      unfold Binary64.sub
      rw [round64_eq _ 0 5404319552844596 (by norm_num) (by norm_num [abs_of_pos, abs_of_neg, abs_of_nonneg]) (by norm_num [abs_of_pos, abs_of_neg, abs_of_nonneg])
        (by right; constructor <;> norm_num [abs_of_pos, abs_of_neg, abs_of_nonneg])]
      norm_num
    have hsub4 : Binary64.sub 1 (3152519739159347 / 2251799813685248) = (-(900719925474099 / 2251799813685248)) := by
      unfold Binary64.sub
      rw [round64_eq _ (-2) (-7205759403792792) (by norm_num) (by norm_num [abs_of_pos, abs_of_neg, abs_of_nonneg]) (by norm_num [abs_of_pos, abs_of_neg, abs_of_nonneg])
        (by left; norm_num [abs_of_pos, abs_of_neg, abs_of_nonneg])]
      norm_num
    have hmul5 : Binary64.mul (1351079888211149 / 1125899906842624) (-(900719925474099 / 2251799813685248)) = (-(1080863910568919 / 2251799813685248)) := by
      unfold Binary64.mul
      rw [round64_eq _ (-2) (-8646911284551352) (by norm_num) (by norm_num [abs_of_pos, abs_of_neg, abs_of_nonneg]) (by norm_num [abs_of_pos, abs_of_neg, abs_of_nonneg])
        (by left; norm_num [abs_of_pos, abs_of_neg, abs_of_nonneg])]
      norm_num
    have hsub6 : Binary64.sub (-(8646911284551351 / 18014398509481984)) (-(1080863910568919 / 2251799813685248)) = (1 / 18014398509481984) := by
      unfold Binary64.sub
      rw [round64_eq _ (-54) 4503599627370496 (by norm_num) (by norm_num [abs_of_pos, abs_of_neg, abs_of_nonneg]) (by norm_num [abs_of_pos, abs_of_neg, abs_of_nonneg])
        (by left; norm_num [abs_of_pos, abs_of_neg, abs_of_nonneg])]
      norm_num
    simp only [triCall, Binary64.edgeFunc, hsub0, hsub1, hmul2, hsub3, hsub4, hmul5, hsub6]
  ·
    have hsub0 : Binary64.sub 1 (5404319552844595 / 9007199254740992) = (3602879701896397 / 9007199254740992) := by
      unfold Binary64.sub
      rw [round64_eq _ (-2) 7205759403792794 (by norm_num) (by norm_num [abs_of_pos, abs_of_neg, abs_of_nonneg]) (by norm_num [abs_of_pos, abs_of_neg, abs_of_nonneg])
        (by left; norm_num [abs_of_pos, abs_of_neg, abs_of_nonneg])]
      norm_num
    have hsub1 : Binary64.sub 1 (3602879701896397 / 2251799813685248) = (-(1351079888211149 / 2251799813685248)) := by
      unfold Binary64.sub
      rw [round64_eq _ (-1) (-5404319552844596) (by norm_num) (by norm_num [abs_of_pos, abs_of_neg, abs_of_nonneg]) (by norm_num [abs_of_pos, abs_of_neg, abs_of_nonneg])
        (by left; norm_num [abs_of_pos, abs_of_neg, abs_of_nonneg])]
      norm_num
    have hmul2 : Binary64.mul (3602879701896397 / 9007199254740992) (-(1351079888211149 / 2251799813685248)) = (-(4323455642275677 / 18014398509481984)) := by
      unfold Binary64.mul
      rw [round64_eq _ (-3) (-8646911284551354) (by norm_num) (by norm_num [abs_of_pos, abs_of_neg, abs_of_nonneg]) (by norm_num [abs_of_pos, abs_of_neg, abs_of_nonneg])
        (by left; norm_num [abs_of_pos, abs_of_neg, abs_of_nonneg])]
      norm_num
    have hmul3 : Binary64.mul (-(1351079888211149 / 2251799813685248)) (3602879701896397 / 9007199254740992) = (-(4323455642275677 / 18014398509481984)) := by
      unfold Binary64.mul
      rw [round64_eq _ (-3) (-8646911284551354) (by norm_num) (by norm_num [abs_of_pos, abs_of_neg, abs_of_nonneg]) (by norm_num [abs_of_pos, abs_of_neg, abs_of_nonneg])
        (by left; norm_num [abs_of_pos, abs_of_neg, abs_of_nonneg])]
      norm_num
    have hsub4 : Binary64.sub (-(4323455642275677 / 18014398509481984)) (-(4323455642275677 / 18014398509481984)) = 0 := by simp [Binary64.sub, round64_zero]
    simp only [triCall, Binary64.edgeFunc, hsub0, hsub1, hmul2, hmul3, hsub4]

theorem sliver_origin :
    Binary64.TriangleInfo.origin sliver = (0, (1 / 18014398509481984), 0) := by
  obtain ⟨hc, f0, f1, f2, f3, f4, f5⟩ := sliver_clip
  obtain ⟨e0, e1, e2⟩ := sliver_edges
  simp only [Binary64.TriangleInfo.origin, hc, f0, f1, f2, f3, f4, f5, e0, e1, e2]
  norm_num [isTopLeft, subSmallest, abs_of_pos]

theorem sliver_process :
    Binary64.TriangleChunk.Process 2 sliverChunk = .returned [sliverShade] := by
  have hdiv0 : Binary64.div 1 (-(1 / 18014398509481984)) = (-18014398509481984) := by
    unfold Binary64.div
    rw [round64_eq _ 54 (-4503599627370496) (by norm_num) (by norm_num [abs_of_pos, abs_of_neg, abs_of_nonneg]) (by norm_num [abs_of_pos, abs_of_neg, abs_of_nonneg])
      (by left; norm_num [abs_of_pos, abs_of_neg, abs_of_nonneg])]
    norm_num
  have hmul1 : Binary64.mul 0 (-18014398509481984) = 0 := by simp [Binary64.mul, round64_zero]
  have hmul2 : Binary64.mul (1 / 18014398509481984) (-18014398509481984) = (-1) := by
    unfold Binary64.mul
    rw [round64_eq _ 0 (-4503599627370496) (by norm_num) (by norm_num [abs_of_pos, abs_of_neg, abs_of_nonneg]) (by norm_num [abs_of_pos, abs_of_neg, abs_of_nonneg])
      (by left; norm_num [abs_of_pos, abs_of_neg, abs_of_nonneg])]
    norm_num
  have hadd3 : Binary64.add 1 1 = 2 := by
    unfold Binary64.add
    rw [round64_eq _ 1 4503599627370496 (by norm_num) (by norm_num [abs_of_pos, abs_of_neg, abs_of_nonneg]) (by norm_num [abs_of_pos, abs_of_neg, abs_of_nonneg])
      (by left; norm_num [abs_of_pos, abs_of_neg, abs_of_nonneg])]
    norm_num
  have hadd4 : Binary64.add 1 8 = 9 := by
    unfold Binary64.add
    rw [round64_eq _ 3 5066549580791808 (by norm_num) (by norm_num [abs_of_pos, abs_of_neg, abs_of_nonneg]) (by norm_num [abs_of_pos, abs_of_neg, abs_of_nonneg])
      (by left; norm_num [abs_of_pos, abs_of_neg, abs_of_nonneg])]
    norm_num
  have hsub5 : Binary64.sub 2 1 = 1 := by
    unfold Binary64.sub
    rw [round64_eq _ 0 4503599627370496 (by norm_num) (by norm_num [abs_of_pos, abs_of_neg, abs_of_nonneg]) (by norm_num [abs_of_pos, abs_of_neg, abs_of_nonneg])
      (by left; norm_num [abs_of_pos, abs_of_neg, abs_of_nonneg])]
    norm_num
  have hinv : (Binary64.TriangleInfo.static sliver).InvArea = (-18014398509481984) := by
    simp only [Binary64.TriangleInfo.static, sliver_area, hdiv0]
  simp only [Binary64.TriangleChunk.Process, sliverChunk, sliverShade]
  norm_num only
  refine forLoop_single _ _ _ _ _ 0 ?_ ?_ ?_
  · simp only [hadd3]; norm_num
  · refine (forLoop_single _ _ _ _ _ 0 ?_ ?_ ?_)
    · simp only [hadd3]; norm_num
    · simp only [hinv, hmul1, hmul2]
      norm_num
    · simp only [hadd3]; norm_num
  · simp only [hadd3]; norm_num

theorem sliver_chunkLoops :
    Binary64.TriangleInfo.chunkLoops 2 sliver 8 = .returned [(sliverChunk, [sliverShade])] := by
  have hdiv0 : Binary64.div 1 (-(1 / 18014398509481984)) = (-18014398509481984) := by
    unfold Binary64.div
    rw [round64_eq _ 54 (-4503599627370496) (by norm_num) (by norm_num [abs_of_pos, abs_of_neg, abs_of_nonneg]) (by norm_num [abs_of_pos, abs_of_neg, abs_of_nonneg])
      (by left; norm_num [abs_of_pos, abs_of_neg, abs_of_nonneg])]
    norm_num
  have hmul1 : Binary64.mul 0 (-18014398509481984) = 0 := by simp [Binary64.mul, round64_zero]
  have hmul2 : Binary64.mul (1 / 18014398509481984) (-18014398509481984) = (-1) := by
    unfold Binary64.mul
    rw [round64_eq _ 0 (-4503599627370496) (by norm_num) (by norm_num [abs_of_pos, abs_of_neg, abs_of_nonneg]) (by norm_num [abs_of_pos, abs_of_neg, abs_of_nonneg])
      (by left; norm_num [abs_of_pos, abs_of_neg, abs_of_nonneg])]
    norm_num
  have hadd3 : Binary64.add 1 1 = 2 := by
    unfold Binary64.add
    rw [round64_eq _ 1 4503599627370496 (by norm_num) (by norm_num [abs_of_pos, abs_of_neg, abs_of_nonneg]) (by norm_num [abs_of_pos, abs_of_neg, abs_of_nonneg])
      (by left; norm_num [abs_of_pos, abs_of_neg, abs_of_nonneg])]
    norm_num
  have hadd4 : Binary64.add 1 8 = 9 := by
    unfold Binary64.add
    rw [round64_eq _ 3 5066549580791808 (by norm_num) (by norm_num [abs_of_pos, abs_of_neg, abs_of_nonneg]) (by norm_num [abs_of_pos, abs_of_neg, abs_of_nonneg])
      (by left; norm_num [abs_of_pos, abs_of_neg, abs_of_nonneg])]
    norm_num
  have hsub5 : Binary64.sub 2 1 = 1 := by
    unfold Binary64.sub
    rw [round64_eq _ 0 4503599627370496 (by norm_num) (by norm_num [abs_of_pos, abs_of_neg, abs_of_nonneg]) (by norm_num [abs_of_pos, abs_of_neg, abs_of_nonneg])
      (by left; norm_num [abs_of_pos, abs_of_neg, abs_of_nonneg])]
    norm_num
  have h8 : Binary64.ofInt 8 = 8 := by
    unfold Binary64.ofInt
    push_cast
    rw [round64_eq _ 3 4503599627370496 (by norm_num) (by norm_num [abs_of_pos, abs_of_neg, abs_of_nonneg]) (by norm_num [abs_of_pos, abs_of_neg, abs_of_nonneg])
      (by left; norm_num [abs_of_pos, abs_of_neg, abs_of_nonneg])]
    norm_num
  have hbo : toInt (1 : Float64) + toInt (1 : Float64) * sliver.BufferWidth = 9 := by
    have e := toInt_intCast 1
    push_cast at e
    rw [e]
    rfl
  have hc := sliver_clip.1
  have hP := sliver_process
  simp only [sliverChunk] at hP
  simp only [Binary64.TriangleInfo.chunkLoops, hc, sliver_origin, h8, hbo, hsub5, sliverChunk]
  refine forLoop_single _ _ _ _ _ 0 ?_ ?_ ?_
  · norm_num
  · refine forLoop_single _ _ _ _ _ 0 ?_ ?_ ?_
    · norm_num
    · simp only [hsub5]
      norm_num only at hP ⊢
      simp only [if_false, hP]
    · simp only [hadd4]; norm_num
  · simp only [hadd4]; norm_num

/-- Claim C32, counterexample: the triangle `(0.6, 1.6), (1, 1), (1.4, 0.4)` in an
8x8 buffer.  Its signed area under `edgeFunc` is negative, `-2^(-54)` as the
code computes it in `float64` and negative in exact arithmetic too, and
`DrawTriangle` returns after one shader invocation, for the pixel `(1, 1)`
with `W0, W1, W2 = 0, -1, 0`: there the code computes the edge function of
the edge from vertex 2 to vertex 0 as `2^(-54)`. -/
theorem DrawTriangle_rounding_shades_negative_area :
    Binary64.edgeFunc sliver.X0 sliver.Y0 sliver.X1 sliver.Y1 sliver.X2 sliver.Y2 =
        -(1 / 2 ^ 54) ∧
      edgeFunc sliver.X0 sliver.Y0 sliver.X1 sliver.Y1 sliver.X2 sliver.Y2 < 0 ∧
      ∃ res, Binary64.DrawTriangle 2 sliver = .returned res ∧
        (triCalls res).map (fun so => (so.X, so.Y, so.W0, so.W1, so.W2)) =
          [(1, 1, 0, -1, 0)] := by
  have ha := sliver_area
  refine ⟨by rw [ha]; norm_num, ?_, [(sliverChunk, [sliverShade])], ?_, ?_⟩
  · rw [sliver_eq]
    simp only [edgeFunc, triCall]
    norm_num
  · have hn : sliver.normalize = sliver := by
      simp [TriangleInfo.normalize, sliver, triCall]
    have hs : shl1 3 = 8 := by decide
    have hB : sliver.Buffer.isNone = false := rfl
    have hS : sliver.HasShader = true := rfl
    have hL : sliver.HasLights = true := rfl
    have hI : sliver.HasIndexizer = true := rfl
    have hne : ¬ Binary64.edgeFunc sliver.X0 sliver.Y0 sliver.X1 sliver.Y1 sliver.X2
        sliver.Y2 = 0 := by rw [ha]; norm_num
    have hb : sliver.ChunkBits = 3 := rfl
    simp only [Binary64.DrawTriangle, hn, hs, if_neg hne, hb, hB, hS, hL, hI]
    rw [← sliver_chunkLoops]
    simp
  · simp [triCalls, sliverShade]

end NBit
